import Mathlib

/-!
Verification of zorm: transaction manager and dialect adapter.

A shallow embedding of `vendor/gitee.com/chunanyong/zorm/BaseDao.go` and
`vendor/gitee.com/chunanyong/zorm/dialect.go`.

* Go strings are lists of characters (`GoString`); every pattern the code
  looks for is ASCII, so positions in characters and in bytes agree on ASCII text.
  Where the code cuts a string at a byte offset, the offset is counted in the bytes of
  the UTF-8 encoding (`byteOffset`, `sliceTo`, `sliceFrom`).
* A Go `error` is a `GoError`; `fmt.Errorf("ctx:%w", e)` is `GoError.errorf "ctx:" e`.
* A function that may fault ends in an `Outcome`: it returns or it panics.
* The connection handles live in a `World`; a context carries the index of its handle.
-/

set_option linter.unusedVariables false
set_option maxRecDepth 8000

namespace Zorm

/-! ## Go values -/

/-- Text of a Go string, character by character. -/
abbrev GoString := List Char

/-- Go error values: `errors.New msg`, or `fmt.Errorf (ctxMsg ++ "%w") inner`. -/
inductive GoError where
  | new (msg : String)
  | errorf (ctxMsg : String) (inner : GoError)
deriving DecidableEq, Repr

/-- Result of `errors.Unwrap`: the error wrapped with `%w`, if any. -/
def GoError.Unwrap : GoError → Option GoError
  | .new _ => none
  | .errorf _ inner => some inner

/-- Value handed to `panic`: an `error`, or any other value. -/
inductive PanicValue where
  | err (e : GoError)
  | other (v : String)
deriving DecidableEq, Repr

/-- How a call of type `func(...) (interface{}, error)` ends: it returns its two
results (`none` is Go's `nil`), or it panics with a value. -/
inductive Outcome (α : Type) where
  | returns (info : Option α) (err : Option GoError)
  | panics (r : PanicValue)
deriving DecidableEq, Repr

/-- How a call ends whose results are kept together: it returns them, or it panics. -/
inductive Ran (α : Type) where
  | returned (a : α)
  | panicked (r : PanicValue)
deriving DecidableEq, Repr

/-! ## Connections, contexts and the world -/

/-- Fields of `dataBaseConnection` that the transaction manager reads: `db` and `tx`
are `true` when the corresponding handle is not `nil`. -/
structure dataBaseConnection where
  db : Bool
  tx : Bool
  dbType : String
  driverName : String
  printSQL : Bool
deriving DecidableEq, Repr, Inhabited

/-- Calls of the transaction methods of a connection handle, in program order;
the number is the handle on which the method was invoked. -/
inductive Event where
  | begin (conn : Nat)
  | commit (conn : Nat)
  | rollback (conn : Nat)
deriving DecidableEq, Repr

/-- Mutable state: the allocated connection handles (a `*dataBaseConnection` is an
index into `conns`) and the trace of transaction calls made so far. -/
structure World where
  conns : List dataBaseConnection
  trace : List Event
deriving DecidableEq, Repr

/-- Read through a `*dataBaseConnection`. -/
def World.conn (w : World) (p : Nat) : dataBaseConnection :=
  w.conns.getD p default

/-- Assign the `tx` field through a `*dataBaseConnection`. -/
def World.setTx (w : World) (p : Nat) (active : Bool) : World :=
  { w with conns := w.conns.modify (fun c => { c with tx := active }) p }

/-- Append a transaction call to the trace. -/
def World.record (w : World) (e : Event) : World :=
  { w with trace := w.trace ++ [e] }

/-- What `ctx.Value(contextDBConnectionValueKey)` yields: nothing, a value that is
not a `*dataBaseConnection`, or a connection handle. -/
inductive CtxValue where
  | absent
  | wrongType
  | conn (p : Nat)
deriving DecidableEq, Repr

/-- A `context.Context`; `none` is the `nil` context. -/
abbrev Context := Option CtxValue

/-- The part of `DataSourceConfig` copied into a connection. -/
structure DataSourceConfig where
  DBType : String
  DriverName : String
  PrintSQL : Bool
deriving DecidableEq, Repr

/-- The `dataSource` of a `BaseDao`; `DB` is `true` when the `*sql.DB` is not `nil`. -/
structure dataSource where
  DB : Bool
deriving DecidableEq, Repr

/-- The struct `BaseDao`; `dataSource = none` is the `nil` pointer. -/
structure BaseDao where
  config : DataSourceConfig
  dataSource : Option dataSource
deriving DecidableEq, Repr

/-- Everything outside the package that the transaction manager depends on.

* `FuncReadWriteBaseDao` is the package-level hook of that name (`none` is a `nil` dao).
* `driverBegin`, `driverCommit`, `driverRollback` give the error, if any, with which
  the database driver answers the primitive in the given world.
* `loggerPanic` is the behaviour of `logger.Panic`: `none` when it returns after
  logging, `some v` when it raises `v`. -/
structure Env where
  FuncReadWriteBaseDao : Int → Option BaseDao
  driverBegin : World → Option GoError
  driverCommit : World → Option GoError
  driverRollback : World → Option GoError
  loggerPanic : GoError → Option PanicValue

/-- Modelled from the spec: the method `beginTx` of `dataBaseConnection`, whose file is
not part of the sources. The driver primitive `begin()` is invoked; on success the
handle owns an active transaction. -/
def beginTx (env : Env) (p : Nat) (w : World) : Option GoError × World :=
  match env.driverBegin w with
  | some e => (some e, w.record (.begin p))
  | none => (none, (w.record (.begin p)).setTx p true)

/-- Modelled from the spec: the method `commit` of `dataBaseConnection`, whose file is
not part of the sources. The driver primitive `commit()` is invoked; on success the
transaction of the handle is over. -/
def commit (env : Env) (p : Nat) (w : World) : Option GoError × World :=
  match env.driverCommit w with
  | some e => (some e, w.record (.commit p))
  | none => (none, (w.record (.commit p)).setTx p false)

/-- Modelled from the spec: the method `rollback` of `dataBaseConnection`, whose file is
not part of the sources. The driver primitive `rollback()` is invoked; on success the
transaction of the handle is over. -/
def rollback (env : Env) (p : Nat) (w : World) : Option GoError × World :=
  match env.driverRollback w with
  | some e => (some e, w.record (.rollback p))
  | none => (none, (w.record (.rollback p)).setTx p false)

/-! ## BaseDao.go -/

/-- Source: `func (baseDao *BaseDao) newDBConnection()`. The receiver may be `nil`.
The new handle is allocated at the end of `conns`. -/
def newDBConnection (baseDao : Option BaseDao) (w : World) :
    Option Nat × Option GoError × World :=
  match baseDao with
  | none => (none, some (.new "请不要自己创建baseDao,使用NewBaseDao方法进行创建"), w)
  | some dao =>
    match dao.dataSource with
    | none => (none, some (.new "请不要自己创建baseDao,使用NewBaseDao方法进行创建"), w)
    | some ds =>
      (some w.conns.length, none,
        { w with conns := w.conns ++
            [{ db := ds.DB, tx := false, dbType := dao.config.DBType,
               driverName := dao.config.DriverName, printSQL := dao.config.PrintSQL }] })

/-- Source: `getDBConnectionFromContext`. -/
def getDBConnectionFromContext (ctx : Context) : Option Nat × Option GoError :=
  match ctx with
  | none => (none, some (.new "context不能为空"))
  | some .absent => (none, none)
  | some .wrongType => (none, some (.new "context传递了错误的*DBConnection类型值"))
  | some (.conn p) => (some p, none)

/-- Source: the package variable `errDBConnection`. -/
def errDBConnection : GoError :=
  .new "更新操作需要使用zorm.Transaction开启事务.  读取操作如果ctx没有dbConnection,使用FuncReadWriteBaseDao(rwType).newDBConnection(),如果dbConnection有事务,就使用事务查询"

/-- Source: `checkDBConnection(ctx, hastx, rwType)`. Returns the context, the handle
and the error, together with the world (a handle may have been allocated). -/
def checkDBConnection (env : Env) (ctx : Context) (hastx : Bool) (rwType : Int)
    (w : World) : Context × Option Nat × Option GoError × World :=
  match getDBConnectionFromContext ctx with
  | (_, some errFromContext) => (ctx, none, some errFromContext, w)
  | (none, none) =>
    match newDBConnection (env.FuncReadWriteBaseDao rwType) w with
    | (_, some errGetDBConnection, w1) => (ctx, none, some errGetDBConnection, w1)
    | (none, none, w1) => (some .absent, none, none, w1)
    | (some p, none, w1) => (some (.conn p), some p, none, w1)
  | (some p, none) =>
    if (w.conn p).db = false then (ctx, some p, some errDBConnection, w)
    else (ctx, some p, none, w)

/-- Source: `Transaction`, lines 145-162: find or create the bound handle and, when it
has no active transaction, begin one. The left result is an early return of
`Transaction`; the right result is the context handed to the body, the handle,
the flag `txOpen` and the world in which the body starts. A `nil` handle with a `nil`
error would fault in `dbConnection.beginTx`. -/
def Transaction.enter (α : Type) (env : Env) (ctx : Context) (w : World) :
    (Outcome α × World) ⊕ (Context × Nat × Bool × World) :=
  match checkDBConnection env ctx false 1 w with
  | (_, _, some checkerr, w1) => .inl (.returns none (some checkerr), w1)
  | (_, none, none, w1) =>
    .inl (.panics (.other "invalid memory address or nil pointer dereference"), w1)
  | (ctx1, some dbConnection, none, w1) =>
    if (w1.conn dbConnection).tx = false then
      match beginTx env dbConnection w1 with
      | (some beginerr, w2) => .inl (.returns none (some (.errorf "事务开启失败:" beginerr)), w2)
      | (none, w2) => .inr (ctx1, dbConnection, true, w2)
    else .inr (ctx1, dbConnection, false, w1)

/-- Source: `Transaction`, lines 164-186: the deferred function, run when the body has
panicked with `r`. When `r` is an error it is wrapped and handed to `logger.Panic`; if
that call raises, the deferred function ends there. Otherwise the handle is rolled
back and, the panic being recovered, `Transaction` returns the zero values of its
unnamed results. -/
def Transaction.recovered {α : Type} (env : Env) (dbConnection : Nat) (r : PanicValue)
    (w : World) : Outcome α × World :=
  let raised : Option PanicValue :=
    match r with
    | .err err => env.loggerPanic (.errorf "recover异常:" err)
    | .other _ => none
  match raised with
  | some v => (.panics v, w)
  | none => (.returns none none, (rollback env dbConnection w).2)

/-- Source: `Transaction`, lines 164-210: run the body under the deferred recover,
then roll back on an error, or commit when `txOpen`. -/
def Transaction.finish {α : Type} (env : Env) (ctx : Context) (dbConnection : Nat)
    (txOpen : Bool) (doTransaction : Context → World → Outcome α × World) (w : World) :
    Outcome α × World :=
  match doTransaction ctx w with
  | (.panics r, w1) => Transaction.recovered env dbConnection r w1
  | (.returns info (some err), w1) =>
    (.returns info (some (.errorf "事务执行失败:" err)), (rollback env dbConnection w1).2)
  | (.returns info none, w1) =>
    if txOpen then
      match commit env dbConnection w1 with
      | (some commitError, w2) => (.returns info (some (.errorf "事务提交失败:" commitError)), w2)
      | (none, w2) => (.returns none none, w2)
    else (.returns none none, w1)

/-- Source: `Transaction(ctx, doTransaction)`. -/
def Transaction {α : Type} (env : Env) (ctx : Context)
    (doTransaction : Context → World → Outcome α × World) (w : World) : Outcome α × World :=
  match Transaction.enter α env ctx w with
  | .inl early => early
  | .inr (ctx1, dbConnection, txOpen, w1) =>
    Transaction.finish env ctx1 dbConnection txOpen doTransaction w1

/-! ### Sample environment -/

/-- A default dao on a mysql data source. -/
def sampleDao : BaseDao :=
  { config := { DBType := "mysql", DriverName := "mysql", PrintSQL := false },
    dataSource := some { DB := true } }

/-- An environment with `sampleDao` as default dao, a driver that never fails and a
logger that returns from `Panic`. -/
def quietEnv : Env :=
  { FuncReadWriteBaseDao := fun _ => some sampleDao
    driverBegin := fun _ => none
    driverCommit := fun _ => none
    driverRollback := fun _ => none
    loggerPanic := fun _ => none }

/-- As `quietEnv`, with a driver whose rollback fails. -/
def brokenRollbackEnv : Env :=
  { quietEnv with driverRollback := fun _ => some (.new "driver: bad connection") }

/-- The world before anything happened. -/
def World.empty : World := { conns := [], trace := [] }

/-- A body that panics with the error `boom`. -/
def panickingBody : Context → World → Outcome Nat × World :=
  fun _ w => (.panics (.err (.new "boom")), w)

/-- A body that returns `(7, boom)`. -/
def failingBody : Context → World → Outcome Nat × World :=
  fun _ w => (.returns (some 7) (some (.new "boom")), w)

/-- A body that returns `(7, nil)`. -/
def succeedingBody : Context → World → Outcome Nat × World :=
  fun _ w => (.returns (some 7) none, w)

/-- A world with one handle, on which a transaction is active. -/
def activeWorld : World :=
  { conns := [{ db := true, tx := true, dbType := "mysql", driverName := "mysql",
                printSQL := false }],
    trace := [] }

/-- A world with one handle, on which no transaction is active. -/
def idleWorld : World :=
  { conns := [{ db := true, tx := false, dbType := "mysql", driverName := "mysql",
                printSQL := false }],
    trace := [] }

/-- An outer body that calls `Transaction` with the context it received, passing the
inner body, and returns what that call returned. -/
def nestedBody {α : Type} (env : Env) (inner : Context → World → Outcome α × World) :
    Context → World → Outcome α × World :=
  fun ctx w => Transaction env ctx inner w

/-! ## Go library functions used by dialect.go -/

/-- Go's `int` arithmetic (64 bits, two's complement): the value an exact result wraps to. -/
def wrapInt (x : Int) : Int := (x + 2 ^ 63) % 2 ^ 64 - 2 ^ 63

/-- Go's `strconv.Itoa`: the decimal text of an integer. -/
def Itoa (i : Int) : GoString :=
  if i < 0 then '-' :: Nat.toDigits 10 i.natAbs else Nat.toDigits 10 i.toNat

/-- Go's `strings.Split(s, sep)` for a separator of one character: the pieces between
the occurrences of `sep`, one more than there are occurrences. -/
def stringsSplit (sep : Char) : GoString → List GoString
  | [] => [[]]
  | c :: cs =>
    if c = sep then [] :: stringsSplit sep cs
    else
      match stringsSplit sep cs with
      | [] => [[c]]
      | piece :: rest => (c :: piece) :: rest

/-- Go's `unicode.ToLower` outside ASCII, as far as this package can observe it: the
characters whose lower case is an ASCII letter (the Kelvin sign and the dotted capital
I), which the patterns of the package can meet, and the characters whose lower case is
encoded in another number of bytes than they are, which move the byte offsets in the
lower-cased copy of a text. Every other character lowers to a character outside ASCII
that is encoded in as many bytes; it is left as it is. -/
def toLowerOutsideAscii (c : Char) : Char :=
  if c = '\u212A' then '\u006B'
  else if c = '\u0130' then '\u0069'
  else if c = '\u023A' then '\u2C65'
  else if c = '\u023E' then '\u2C66'
  else if c = '\u1E9E' then '\u00DF'
  else if c = '\u2126' then '\u03C9'
  else if c = '\u212B' then '\u00E5'
  else if c = '\u2C62' then '\u026B'
  else if c = '\u2C64' then '\u027D'
  else if c = '\u2C6D' then '\u0251'
  else if c = '\u2C6E' then '\u0271'
  else if c = '\u2C6F' then '\u0250'
  else if c = '\u2C70' then '\u0252'
  else if c = '\u2C7E' then '\u023F'
  else if c = '\u2C7F' then '\u0240'
  else if c = '\uA78D' then '\u0265'
  else if c = '\uA7AA' then '\u0266'
  else if c = '\uA7AB' then '\u025C'
  else if c = '\uA7AC' then '\u0261'
  else if c = '\uA7AD' then '\u026C'
  else if c = '\uA7AE' then '\u026A'
  else if c = '\uA7B0' then '\u029E'
  else if c = '\uA7B1' then '\u0287'
  else if c = '\uA7B2' then '\u029D'
  else if c = '\uA7C5' then '\u0282'
  else c

/-- Go's `unicode.ToLower`: an ASCII capital letter is moved to its small letter, other
ASCII characters are kept, and the characters outside ASCII go through the case tables
(`toLowerOutsideAscii`). -/
def toLowerRune (c : Char) : Char :=
  if c.toNat < 128 then c.toLower else toLowerOutsideAscii c

/-- Go's `strings.ToLower`. -/
def stringsToLower (s : GoString) : GoString := s.map toLowerRune

/-- The class `\s` of Go regular expressions: tab, line feed, form feed, carriage
return and space. -/
def isSpace (c : Char) : Bool :=
  c = '\t' || c = '\n' || c = '\x0c' || c = '\r' || c = ' '

/-- Regular expression `\s+` at the head of a text (greedy): the rest of the text. -/
def reSpaces : GoString → Option GoString
  | [] => none
  | c :: cs => if isSpace c then some (cs.dropWhile isSpace) else none

/-- Regular expression `\s` at the head of a text: the rest of the text. -/
def reSpace : GoString → Option GoString
  | [] => none
  | c :: cs => if isSpace c then some cs else none

/-- A literal at the head of a text: the rest of the text. -/
def reLit : GoString → GoString → Option GoString
  | [], s => some s
  | _ :: _, [] => none
  | a :: lit, c :: s => if a = c then reLit lit s else none

/-- Regular expression `(lit)*` at the head of a text (greedy), at most `fuel` copies:
the rest of the text. -/
def reStar (lit : GoString) : Nat → GoString → GoString
  | 0, s => s
  | fuel + 1, s =>
    match reLit lit s with
    | some rest => reStar lit fuel rest
    | none => s

/-- Regular expression `(lit)+` at the head of a text (greedy): the rest of the text.
A text holds fewer copies of a non-empty literal than it has characters. -/
def rePlus (lit : GoString) (s : GoString) : Option GoString :=
  (reLit lit s).map (fun rest => reStar lit rest.length rest)

/-- Go's `FindStringIndex` for a matcher that tells, for a text, whether the expression
matches at its head and what follows the match: start and end of the leftmost match,
or the empty slice. `i` is the position of the text within the whole string. -/
def reFindIndex (m : GoString → Option GoString) : Nat → GoString → List Nat
  | i, [] =>
    match m [] with
    | some _ => [i, i]
    | none => []
  | i, c :: cs =>
    match m (c :: cs) with
    | some rest => [i, i + ((c :: cs).length - rest.length)]
    | none => reFindIndex m (i + 1) cs

/-! ## dialect.go -/

/-- Source: `orderByRegexp`, compiled from `\s+(order)\s+(by)+\s`. -/
def orderByRegexp (s : GoString) : Option GoString :=
  (((reSpaces s).bind (reLit "order".toList)).bind reSpaces).bind
    (fun r => (rePlus "by".toList r).bind reSpace)

/-- Source: `findOrderByIndex`. -/
def findOrderByIndex (strsql : GoString) : List Nat :=
  reFindIndex orderByRegexp 0 (stringsToLower strsql)

/-- Source: `rebind`, the marker written in front of piece `i` in the loop. -/
def rebind.marker (dbType : String) (i : Nat) : GoString :=
  if dbType = "postgresql" then "$".toList ++ Itoa i
  else if dbType = "mssql" then "@p".toList ++ Itoa i
  else if dbType = "oracle" then ":".toList ++ Itoa i
  else "?".toList

/-- Source: `rebind`, the loop `for i := 1; i < len(strs); i++` over the pieces that
follow the first one. -/
def rebind.loop (dbType : String) : Nat → List GoString → GoString
  | _, [] => []
  | i, str :: strs => rebind.marker dbType i ++ str ++ rebind.loop dbType (i + 1) strs

/-- Source: `rebind(dbType, sqlstr)`. -/
def rebind (dbType : String) (sqlstr : GoString) : GoString :=
  if dbType = "mysql" ∨ dbType = "sqlite" then sqlstr
  else
    match stringsSplit '?' sqlstr with
    | [] => sqlstr
    | str0 :: strs => str0 ++ rebind.loop dbType 1 strs

/-- Source: `wrapSQL(dbType, sqlstr)`. -/
def wrapSQL (dbType : String) (sqlstr : GoString) : GoString × Option GoError :=
  (rebind dbType sqlstr, none)

/-- The fields of `Page` that `wrapPageSQL` reads (Go `int`s). -/
structure Page where
  PageNo : Int
  PageSize : Int
deriving DecidableEq, Repr

/-- Source: `wrapPageSQL`, the expression `page.PageSize * (page.PageNo - 1)`. -/
def Page.offset (page : Page) : Int :=
  wrapInt (page.PageSize * wrapInt (page.PageNo - 1))

/-- Source: `wrapPageSQL`, the clause written after the statement for a dialect. -/
def wrapPageSQL.clause (dbType : String) (page : Page) : GoString :=
  if dbType = "mysql" then
    " LIMIT ".toList ++ Itoa page.offset ++ ",".toList ++ Itoa page.PageSize
  else if dbType = "postgresql" then
    " LIMIT ".toList ++ Itoa page.PageSize ++ " OFFSET ".toList ++ Itoa page.offset
  else if dbType = "mssql" then
    " OFFSET ".toList ++ Itoa page.offset ++ " ROWS FETCH NEXT ".toList ++
      Itoa page.PageSize ++ " ROWS ONLY ".toList
  else if dbType = "oracle" then
    " OFFSET ".toList ++ Itoa page.offset ++ " ROWS FETCH NEXT ".toList ++
      Itoa page.PageSize ++ " ROWS ONLY ".toList
  else if dbType = "sqlite" then
    " LIMIT ".toList ++ Itoa page.offset ++ ",".toList ++ Itoa page.PageSize
  else []

/-- Source: `wrapPageSQL(dbType, sqlstr, page)` for a page that is not `nil`. -/
def wrapPageSQL (dbType : String) (sqlstr : GoString) (page : Page) :
    GoString × Option GoError :=
  let locOrderBy := findOrderByIndex sqlstr
  if locOrderBy.length ≤ 0 then ([], some (.new "分页语句必须有 order by"))
  else wrapSQL dbType (sqlstr ++ wrapPageSQL.clause dbType page)

/-! ## Reference definitions, worded as the specification -/

/-- Placeholder numbering as the specification words it: reading the statement from
left to right, the `k`-th `?` is replaced by the marker of `k` and every other
character is kept; `k` is the number of the next placeholder. -/
def renumber (mark : Nat → GoString) : Nat → GoString → GoString
  | _, [] => []
  | k, c :: cs =>
    if c = '?' then mark k ++ renumber mark (k + 1) cs else c :: renumber mark k cs

/-- Text made of `k` copies of a text in a row. -/
def repeatText (t : GoString) : Nat → GoString
  | 0 => []
  | k + 1 => t ++ repeatText t k

/-- A lower-cased text holds, somewhere, a run of white space, `order`, a run of white
space, `k` copies of `by` and one character of white space. -/
def OrderByWith (k : Nat) (t : GoString) : Prop :=
  ∃ pre ws1 ws2 c post,
    ws1 ≠ [] ∧ (∀ x ∈ ws1, isSpace x = true) ∧
    ws2 ≠ [] ∧ (∀ x ∈ ws2, isSpace x = true) ∧
    isSpace c = true ∧
    t = pre ++ ws1 ++ "order".toList ++ ws2 ++ repeatText "by".toList k ++ c :: post

/-- The ORDER BY clause as the specification words it: `order by` delimited by white
space, whatever the case of its letters. -/
def hasOrderByClause (s : GoString) : Prop :=
  OrderByWith 1 (stringsToLower s)

/-- The language of the expression `\s+(order)\s+(by)+\s`, searched in the lower-cased
statement: as `hasOrderByClause`, with `by` written one or more times in a row. -/
def hasOrderByMatch (s : GoString) : Prop :=
  ∃ k, 1 ≤ k ∧ OrderByWith k (stringsToLower s)

/-- The expression `\s+(order)\s+(by){k}\s` at the head of a text: the rest of the text. -/
def orderByExact (k : Nat) (s : GoString) : Option GoString :=
  ((((reSpaces s).bind (reLit "order".toList)).bind reSpaces).bind
    (reLit (repeatText "by".toList k))).bind reSpace

/-- The values of a Go `int` (64 bits). -/
def isInt (x : Int) : Prop := -2 ^ 63 ≤ x ∧ x < 2 ^ 63

/-! ## Values, finders and query results -/

/-- Kinds of `reflect.Kind` that a mapped field or a query target can have. -/
inductive Kind where
  | Bool | Int | Int8 | Int16 | Int32 | Int64
  | Uint | Uint8 | Uint16 | Uint32 | Uint64
  | Float32 | Float64 | String | Struct | Ptr | Slice | Map | Interface
deriving DecidableEq, Repr

/-- Source: the package variable `allowBaseTypeMap`. -/
def allowBaseTypeMap (k : Kind) : Bool :=
  match k with
  | .String => true
  | .Int | .Int8 | .Int16 | .Int32 | .Int64 => true
  | .Uint | .Uint8 | .Uint16 | .Uint32 | .Uint64 => true
  | .Float32 | .Float64 => true
  | _ => false

/-- A Go value held in an `interface{}`: the `nil` interface value, an `int`, a
`string`, or a value of another type, of which the kind, whether it is the zero value of
its type, and a number telling values apart are kept. -/
inductive GoValue where
  | nil
  | int (i : Int)
  | str (s : GoString)
  | other (kind : Kind) (zero : Bool) (id : Nat)
deriving DecidableEq, Repr

/-- Go's `reflect.ValueOf(v).IsZero()`; it panics on the `nil` interface value, which is
`none` here. -/
def GoValue.IsZero : GoValue → Option Bool
  | .nil => none
  | .int i => some (decide (i = 0))
  | .str s => some (decide (s = []))
  | .other _ zero _ => some zero

/-- Modelled from the spec: the type `Finder`, whose file is not part of the sources: a
raw SQL fragment, the ordered values bound to it and, when `hasCountFinder`, the text
and values of the finder that overrides the count query. -/
structure Finder where
  sqlstr : GoString
  values : List GoValue
  hasCountFinder : Bool
  countSqlstr : GoString
  countValues : List GoValue
deriving DecidableEq, Repr

/-- Modelled from the spec: the method `GetSQL` of `Finder`, whose file is not part of
the sources: the raw SQL fragment. -/
def Finder.GetSQL (finder : Finder) : GoString × Option GoError :=
  (finder.sqlstr, none)

/-- Modelled from the spec: `NewFinder().Append(s)` with `values` assigned afterwards,
whose file is not part of the sources: a finder of the fragment `s`, without an
override of the count query. -/
def Finder.ofSQL (s : GoString) (values : List GoValue) : Finder :=
  { sqlstr := s, values := values, hasCountFinder := false, countSqlstr := [],
    countValues := [] }

/-- Source: the field `CountFinder` of a finder, a finder of its own. -/
def Finder.CountFinder (finder : Finder) : Option Finder :=
  if finder.hasCountFinder then some (Finder.ofSQL finder.countSqlstr finder.countValues)
  else none

/-- A field of a record type as `reflect.StructField` shows it: its name, the kind of
its type and the column named by its tag. -/
structure StructField where
  Name : GoString
  Kind : Kind
  column : GoString
deriving DecidableEq, Repr

/-- Modelled from the spec: the outcome of `getDBColumnFieldMap(typeOf)`, whose file is
not part of the sources: the mapping from column name to field of a record type, or an
error when the type has no mappable field. A `reflect.Type` is modelled by its kind and
this outcome. -/
structure ReflectType where
  Kind : Kind
  dbColumnFieldMap : List (GoString × StructField)
  dbColumnFieldMapErr : Option GoError
deriving DecidableEq, Repr

/-- Source: indexing `dbMap[column]` with the comma-ok form. -/
def lookupField (dbMap : List (GoString × StructField)) (column : GoString) :
    Option StructField :=
  (dbMap.find? (fun kv => kv.1 = column)).map (fun kv => kv.2)

/-- One row of a result set: the values of its columns, and the error `rows.Scan`
reports for it, if any. -/
structure Row where
  cells : List GoValue
  scanErr : Option GoError
deriving DecidableEq, Repr

/-- Result set of the driver (`sql.Rows`): what `rows.Columns()` returns and the rows
that successive calls of `rows.Next()` deliver. -/
structure Rows where
  Columns : List GoString
  ColumnsErr : Option GoError
  rows : List Row
deriving DecidableEq, Repr

/-- The `entity interface{}` argument of a query: `nil`, a value that is not a pointer,
or a pointer to a value of the given type; `scalar` is the pointee when it is of a
base type, `fields` are the fields of the pointee, by name, when it is a struct. -/
inductive QueryEntity where
  | nil
  | notPointer
  | pointer (typeOf : ReflectType) (scalar : GoValue) (fields : List (GoString × GoValue))
deriving DecidableEq, Repr

/-- Assignment to the field of a struct, by name. -/
def setField (fields : List (GoString × GoValue)) (name : GoString) (v : GoValue) :
    List (GoString × GoValue) :=
  fields.map (fun kv => if kv.1 = name then (kv.1, v) else kv)

/-- The database behind the connection handles: the result set, or the error, with which
`queryContext` answers a statement and its parameters on a handle. -/
structure Database where
  queryContext : Nat → GoString → List GoValue → World → Rows ⊕ GoError

/-! ## BaseDao.go: queries -/

/-- Source: `checkEntityKind`. -/
def checkEntityKind (entity : QueryEntity) : Option ReflectType × Option GoError :=
  match entity with
  | .nil => (none, some (.new "参数不能为空,必须是*struct类型或者基础类型的指针"))
  | .notPointer => (none, some (.new "必须是*struct类型或者基础类型的指针"))
  | .pointer typeOf _ _ =>
    if ¬ (typeOf.Kind = .Struct ∨ allowBaseTypeMap typeOf.Kind = true) then
      (none, some (.new "必须是*struct类型或者基础类型的指针"))
    else (some typeOf, none)

/-- Source: `wrapQuerySQL(dbType, finder, page)`; `page = none` is the `nil` page. -/
def wrapQuerySQL (dbType : String) (finder : Finder) (page : Option Page) :
    GoString × Option GoError :=
  match finder.GetSQL with
  | (_, some err) => ([], some err)
  | (sqlstr, none) =>
    match (match page with
      | none => wrapSQL dbType sqlstr
      | some page => wrapPageSQL dbType sqlstr page) with
    | (_, some err) => ([], some err)
    | (sqlstr, none) => (sqlstr, none)

/-- Source: `QueryStruct`, lines 279-290: the loop over the rows when the target is of a
base type and the result has one column. `i` counts the rows scanned so far; a scan
stores the value of the column in the target. -/
def QueryStruct.scanBase : Nat → List Row → GoValue → Option GoError × GoValue
  | _, [], scalar => (none, scalar)
  | i, row :: rest, scalar =>
    if i > 1 then (some (.new "查询出多条数据"), scalar)
    else
      match row.scanErr with
      | some scanerr => (some (.errorf "rows.Scan异常:" scanerr), scalar)
      | none => QueryStruct.scanBase (i + 1) rest (row.cells.headD scalar)

/-- Source: `QueryStruct`, lines 314-327: a scan of one row into the fields mapped from
the columns; a column without mapped field is scanned into a throwaway value. -/
def QueryStruct.scanFields (dbColumnFieldMap : List (GoString × StructField)) :
    List GoString → List GoValue → List (GoString × GoValue) → List (GoString × GoValue)
  | column :: columns, cell :: cells, fields =>
    match lookupField dbColumnFieldMap column with
    | none => QueryStruct.scanFields dbColumnFieldMap columns cells fields
    | some field =>
      QueryStruct.scanFields dbColumnFieldMap columns cells (setField fields field.Name cell)
  | _, _, fields => fields

/-- Source: `QueryStruct`, lines 307-334: the loop over the rows when the target is a
struct. `i` counts the rows scanned so far. -/
def QueryStruct.scanStruct (dbColumnFieldMap : List (GoString × StructField))
    (columns : List GoString) :
    Nat → List Row → List (GoString × GoValue) → Option GoError × List (GoString × GoValue)
  | _, [], fields => (none, fields)
  | i, row :: rest, fields =>
    if i > 1 then (some (.new "查询出多条数据"), fields)
    else
      match row.scanErr with
      | some scanerr => (some (.errorf "rows.Scan错误:" scanerr), fields)
      | none =>
        QueryStruct.scanStruct dbColumnFieldMap columns (i + 1) rest
          (QueryStruct.scanFields dbColumnFieldMap columns row.cells fields)

/-- Source: `QueryStruct`, lines 240-336: build the statement for the dialect, obtain
the handle, run the query and scan its rows into the target. -/
def QueryStruct.query (env : Env) (db : Database) (ctx : Context) (finder : Finder)
    (typeOf : ReflectType) (scalar : GoValue) (fields : List (GoString × GoValue))
    (dbType : String) (w : World) : Outcome Unit × QueryEntity × World :=
  match wrapQuerySQL dbType finder none with
  | (_, some err) =>
    (.returns none (some (.errorf "获取查询SQL语句错误:" err)), .pointer typeOf scalar fields, w)
  | (sqlstr, none) =>
    match checkDBConnection env ctx false 0 w with
    | (_, _, some dbConnectionerr, w1) =>
      (.returns none (some dbConnectionerr), .pointer typeOf scalar fields, w1)
    | (_, none, none, w1) =>
      (.panics (.other "invalid memory address or nil pointer dereference"),
        .pointer typeOf scalar fields, w1)
    | (_, some conn, none, w1) =>
      match db.queryContext conn sqlstr finder.values w1 with
      | .inr e =>
        (.returns none (some (.errorf "查询数据库错误:" e)), .pointer typeOf scalar fields, w1)
      | .inl rows =>
        match rows.ColumnsErr with
        | some cne =>
          (.returns none (some (.errorf "数据库返回列名错误:" cne)),
            .pointer typeOf scalar fields, w1)
        | none =>
          if allowBaseTypeMap typeOf.Kind = true ∧ rows.Columns.length = 1 then
            match QueryStruct.scanBase 0 rows.rows scalar with
            | (err, scalar1) => (.returns none err, .pointer typeOf scalar1 fields, w1)
          else
            match typeOf.dbColumnFieldMapErr with
            | some dbe =>
              (.returns none (some (.errorf "获取字段缓存错误:" dbe)),
                .pointer typeOf scalar fields, w1)
            | none =>
              match QueryStruct.scanStruct typeOf.dbColumnFieldMap rows.Columns 0
                  rows.rows fields with
              | (err, fields1) => (.returns none err, .pointer typeOf scalar fields1, w1)

/-- Source: `QueryStruct(ctx, finder, entity)` for a finder that is not `nil`. The result
is the error returned (or the panic), the entity after the call and the world. A `nil`
default dao faults in `FuncReadWriteBaseDao(0).config`. -/
def QueryStruct (env : Env) (db : Database) (ctx : Context) (finder : Finder)
    (entity : QueryEntity) (w : World) : Outcome Unit × QueryEntity × World :=
  match checkEntityKind entity, entity with
  | (_, some checkerr), _ => (.returns none (some (.errorf "类型检查错误:" checkerr)), entity, w)
  | (some typeOf, none), .pointer _ scalar fields =>
    match getDBConnectionFromContext ctx with
    | (_, some errFromContxt) => (.returns none (some errFromContxt), entity, w)
    | (some dbConnection, none) =>
      if (w.conn dbConnection).db = false then (.returns none (some errDBConnection), entity, w)
      else
        QueryStruct.query env db ctx finder typeOf scalar fields (w.conn dbConnection).dbType w
    | (none, none) =>
      match env.FuncReadWriteBaseDao 0 with
      | none =>
        (.panics (.other "invalid memory address or nil pointer dereference"), entity, w)
      | some dao => QueryStruct.query env db ctx finder typeOf scalar fields dao.config.DBType w
  | _, _ => (.panics (.other "invalid memory address or nil pointer dereference"), entity, w)

/-! ## Count queries -/

/-- Go's `strings.Index(s, substr)`: the position of the first occurrence of `substr`
in `s`, or -1. -/
def stringsIndex (s substr : GoString) : Int :=
  match reFindIndex (reLit substr) 0 s with
  | i :: _ => (i : Int)
  | [] => -1

/-- Source: `groupByRegexp`, compiled from `\s+(group)\s+(by)+\s`. -/
def groupByRegexp (s : GoString) : Option GoString :=
  (((reSpaces s).bind (reLit "group".toList)).bind reSpaces).bind
    (fun r => (rePlus "by".toList r).bind reSpace)

/-- Source: `findGroupByIndex`. -/
def findGroupByIndex (strsql : GoString) : List Nat :=
  reFindIndex groupByRegexp 0 (stringsToLower strsql)

/-- Source: `fromRegexp`, compiled from `\s+(from)+\s`. -/
def fromRegexp (s : GoString) : Option GoString :=
  (reSpaces s).bind (fun r => (rePlus "from".toList r).bind reSpace)

/-- Source: `findFromIndex`. -/
def findFromIndex (strsql : GoString) : List Nat :=
  reFindIndex fromRegexp 0 (stringsToLower strsql)

/-- Number of bytes of the UTF-8 encoding of a character. -/
def utf8Len (c : Char) : Nat :=
  if c.toNat < 128 then 1 else if c.toNat < 2048 then 2 else if c.toNat < 65536 then 3 else 4

/-- Go's `len(s)`: the number of bytes of a text. -/
def byteLen : GoString → Nat
  | [] => 0
  | c :: cs => utf8Len c + byteLen cs

/-- The byte offset at which the character at position `i` of a text begins. Go reports
the location of a match as byte offsets; the matchers above report it as positions in
characters of the same text. -/
def byteOffset (s : GoString) (i : Nat) : Nat := byteLen (s.take i)

/-- The bytes of a text in front of the byte offset `n`: the characters that end at or in
front of the offset. When the offset falls inside a character, the bytes of that
character in front of the offset are no character any more; each of them is shown as
U+FFFD, which is what Go reads from such a byte. -/
def bytesBefore : GoString → Nat → GoString
  | _, 0 => []
  | [], _ + 1 => []
  | c :: cs, n + 1 =>
    if utf8Len c ≤ n + 1 then c :: bytesBefore cs (n + 1 - utf8Len c)
    else List.replicate (n + 1) '\uFFFD'

/-- The bytes of a text from the byte offset `n` on; the bytes left of a character that
the offset cuts are shown as U+FFFD each (see `bytesBefore`). -/
def bytesFrom : GoString → Nat → GoString
  | s, 0 => s
  | [], _ + 1 => []
  | c :: cs, n + 1 =>
    if utf8Len c ≤ n + 1 then bytesFrom cs (n + 1 - utf8Len c)
    else List.replicate (utf8Len c - (n + 1)) '\uFFFD' ++ cs

/-- Go's slice expression `s[:n]` on a string, `n` a byte offset. -/
def sliceTo (s : GoString) (n : Nat) : Ran GoString :=
  if n > byteLen s then
    .panicked (.err (.new ("runtime error: slice bounds out of range [:" ++ toString n ++
      "] with length " ++ toString (byteLen s))))
  else .returned (bytesBefore s n)

/-- Go's slice expression `s[n:]` on a string, `n` a byte offset. -/
def sliceFrom (s : GoString) (n : Nat) : Ran GoString :=
  if n > byteLen s then
    .panicked (.err (.new ("runtime error: slice bounds out of range [" ++ toString n ++
      ":" ++ toString (byteLen s) ++ "]")))
  else .returned (bytesFrom s n)

/-- Source: `selectCount`, lines 1189-1193: the statement cut at the location of ORDER
BY, if there is one. The location is found in the lower-cased copy of the statement; its
byte offset in that copy is the offset at which the statement itself is cut. -/
def selectCount.truncate (countsql : GoString) : Ran GoString :=
  match findOrderByIndex countsql with
  | [] => .returned countsql
  | i :: _ => sliceTo countsql (byteOffset (stringsToLower countsql) i)

/-- Source: `selectCount`, lines 1194-1201: whether the truncated statement holds one of
the special keywords. -/
def selectCount.special (countsql : GoString) : Bool :=
  let s := stringsToLower countsql
  let gbi : Int :=
    match findGroupByIndex countsql with
    | [] => -1
    | i :: _ => (i : Int)
  decide (stringsIndex s " distinct ".toList > -1) ||
    decide (stringsIndex s " union ".toList > -1) || decide (gbi > -1)

/-- Source: `selectCount`, lines 1189-1210: the count statement derived from the text of
the finder. It is returned as info with a nil error; where `selectCount` returns an
error, that error is returned with a nil info; the slice `locFrom` is indexed without
regard to its length, and the location of FROM is a byte offset in the lower-cased copy
of the truncated statement, at which the truncated statement itself is cut. -/
def selectCount.countsql (countsql : GoString) : Outcome GoString :=
  match selectCount.truncate countsql with
  | .panicked r => .panics r
  | .returned countsql =>
    if selectCount.special countsql = true then
      .returns (some ("SELECT COUNT(*)  frame_row_count FROM (".toList ++ countsql ++
        ") temp_frame_noob_table_name WHERE 1=1 ".toList)) none
    else
      let locFrom := findFromIndex countsql
      if (locFrom.length : Int) < 0 then .returns none (some (.new "没有FROM关键字,语句错误"))
      else
        match locFrom with
        | [] => .panics (.err (.new "runtime error: index out of range [0] with length 0"))
        | i :: _ =>
          match sliceFrom countsql (byteOffset (stringsToLower countsql) i) with
          | .panicked r => .panics r
          | .returned rest => .returns (some ("SELECT COUNT(*) ".toList ++ rest)) none

/-- The type `int` as a query target; it has no mappable field. -/
def intType : ReflectType :=
  { Kind := .Int, dbColumnFieldMap := [],
    dbColumnFieldMapErr := some (.new "no mappable fields") }

/-- Source: `selectCount`, reading `count` after `QueryStruct(ctx, finder, &count)`. -/
def selectCount.count (entity : QueryEntity) : Int :=
  match entity with
  | .pointer _ (.int count) _ => count
  | _ => -1

/-- Source: `selectCount`, the call `QueryStruct(ctx, finder, &count)` with `count := -1`
and what is returned after it. -/
def selectCount.query (env : Env) (db : Database) (ctx : Context) (finder : Finder)
    (w : World) : Outcome Int × World :=
  match QueryStruct env db ctx finder (.pointer intType (.int (-1)) []) w with
  | (.panics r, _, w1) => (.panics r, w1)
  | (.returns _ (some err), _, w1) => (.returns (some (-1)) (some err), w1)
  | (.returns _ none, entity, w1) => (.returns (some (selectCount.count entity)) none, w1)

/-- Source: `selectCount(ctx, finder)`; `finder = none` is the `nil` finder. -/
def selectCount (env : Env) (db : Database) (ctx : Context) (finder : Option Finder)
    (w : World) : Outcome Int × World :=
  match finder with
  | none => (.returns (some (-1)) (some (.new "参数为nil")), w)
  | some finder =>
    match finder.CountFinder with
    | some countFinder => selectCount.query env db ctx countFinder w
    | none =>
      match finder.GetSQL with
      | (_, some counterr) => (.returns (some (-1)) (some counterr), w)
      | (countsql, none) =>
        match selectCount.countsql countsql with
        | .panics r => (.panics r, w)
        | .returns _ (some err) => (.returns (some (-1)) (some err), w)
        | .returns none none => (.returns (some (-1)) none, w)
        | .returns (some countsql) none =>
          selectCount.query env db ctx (Finder.ofSQL countsql finder.values) w

/-! ### Sample database -/

/-- A database that answers every statement with one column `c` and the given rows. -/
def sampleDatabase (rows : List Row) : Database :=
  { queryContext := fun _ _ _ _ => .inl { Columns := ["c".toList], ColumnsErr := none, rows := rows } }

/-- A row with one cell holding an `int`, scanned without error. -/
def intRow (i : Int) : Row := { cells := [.int i], scanErr := none }

/-! ## dialect.go: statements built from a record -/

/-- What the builders read and write through an `IEntityStruct`: the results of
`GetTableName()`, `GetPKColumnName()` and `GetPkSequence()`, and the fields of the
struct behind the pointer, by name. -/
structure IEntityStruct where
  TableName : GoString
  PKColumnName : GoString
  PkSequence : GoString
  fields : List (GoString × GoValue)
deriving DecidableEq, Repr

/-- Source: `entityPKFieldName(entity, typeOf)`. A column that is not in the map yields
the zero `StructField`, whose name is empty. -/
def entityPKFieldName (entity : IEntityStruct) (typeOf : ReflectType) :
    GoString × Option GoError :=
  match typeOf.dbColumnFieldMapErr with
  | some err => ([], some err)
  | none =>
    (((lookupField typeOf.dbColumnFieldMap entity.PKColumnName).map
        (fun field => field.Name)).getD [], none)

/-- State of the loop of `wrapSaveStructSQL` at index `i`: `columns` and `values` are
`(*columns)[:i]` and `(*values)[:i]`, the part already visited and kept; `idCalls`
counts the calls of `FuncGenerateStringID` made so far. -/
structure SaveState where
  columns : List StructField
  values : List GoValue
  sqlBuilder : GoString
  valueSQLBuilder : GoString
  autoIncrement : Bool
  entity : IEntityStruct
  idCalls : Nat
deriving DecidableEq, Repr

/-- Source: `wrapSaveStructSQL`, lines 119-166: the loop over the columns. The two list
arguments are `(*columns)[i:]` and `(*values)[i:]`, the part still to visit: removing
element `i` and stepping back drops their heads, going on to `i + 1` moves their heads
to the kept part. `FuncGenerateStringID n` is the id the hook returns at its call
number `n`. The result is the error of an early return, if any, with the state, in
which `columns` and `values` are then the whole slices. -/
def wrapSaveStructSQL.loop (FuncGenerateStringID : Nat → GoString) (pkFieldName : GoString) :
    List StructField → List GoValue → SaveState → Ran (Option GoError × SaveState)
  | [], restValues, st => .returned (none, { st with values := st.values ++ restValues })
  | field :: restColumns, restValues, st =>
    let keep (value : Option GoValue) (restValues : List GoValue) (st : SaveState) :=
      wrapSaveStructSQL.loop FuncGenerateStringID pkFieldName restColumns restValues
        { st with
          columns := st.columns ++ [field]
          values := st.values ++ value.toList
          sqlBuilder := st.sqlBuilder ++ field.column ++ ",".toList
          valueSQLBuilder := st.valueSQLBuilder ++ "?,".toList }
    if field.Name = pkFieldName then
      if ¬ (field.Kind = .String ∨ field.Kind = .Int) then
        .returned (some (.new "不支持的主键类型"),
          { st with columns := st.columns ++ field :: restColumns
                    values := st.values ++ restValues })
      else
        match restValues with
        | [] => .panicked (.err (.new "runtime error: index out of range"))
        | pkValue :: restValues =>
          if st.entity.PkSequence.length > 0 then
            wrapSaveStructSQL.loop FuncGenerateStringID pkFieldName restColumns restValues
              { st with
                sqlBuilder := st.sqlBuilder ++ field.column ++ ",".toList
                valueSQLBuilder := st.valueSQLBuilder ++ st.entity.PkSequence ++ ",".toList }
          else if field.Kind = .String then
            match pkValue with
            | .str pk =>
              if pk = [] then
                let id := FuncGenerateStringID st.idCalls
                keep (some (.str id)) restValues
                  { st with
                    idCalls := st.idCalls + 1
                    entity := { st.entity with
                      fields := setField st.entity.fields field.Name (.str id) } }
              else keep (some pkValue) restValues st
            | _ => .panicked (.err (.new "interface conversion: interface is not string"))
          else
            match pkValue with
            | .int pk =>
              if pk = 0 then
                wrapSaveStructSQL.loop FuncGenerateStringID pkFieldName restColumns restValues
                  { st with autoIncrement := true }
              else keep (some pkValue) restValues st
            | _ => .panicked (.err (.new "interface conversion: interface is not int"))
    else keep restValues.head? restValues.tail st

/-- What `wrapSaveStructSQL` returns, with what it leaves behind its pointer arguments:
the slices `*columns` and `*values`, the record, and the number of ids obtained from
`FuncGenerateStringID`. -/
structure SaveResult where
  savesql : GoString
  autoIncrement : Bool
  err : Option GoError
  columns : List StructField
  values : List GoValue
  entity : IEntityStruct
  idCalls : Nat
deriving DecidableEq, Repr

/-- Source: `wrapSaveStructSQL(dbType, typeOf, entity, columns, values)`. -/
def wrapSaveStructSQL (FuncGenerateStringID : Nat → GoString) (dbType : String)
    (typeOf : ReflectType) (entity : IEntityStruct) (columns : List StructField)
    (values : List GoValue) : Ran SaveResult :=
  match entityPKFieldName entity typeOf with
  | (_, some e) =>
    .returned { savesql := [], autoIncrement := false, err := some e, columns := columns,
                values := values, entity := entity, idCalls := 0 }
  | (pkFieldName, none) =>
    match wrapSaveStructSQL.loop FuncGenerateStringID pkFieldName columns values
        { columns := [], values := [],
          sqlBuilder := "INSERT INTO ".toList ++ entity.TableName ++ "(".toList,
          valueSQLBuilder := " VALUES (".toList,
          autoIncrement := false, entity := entity, idCalls := 0 } with
    | .panicked r => .panicked r
    | .returned (some err, st) =>
      .returned { savesql := [], autoIncrement := st.autoIncrement, err := some err,
                  columns := st.columns, values := st.values, entity := st.entity,
                  idCalls := st.idCalls }
    | .returned (none, st) =>
      let sqlstr := st.sqlBuilder.dropLast
      let valuestr := st.valueSQLBuilder.dropLast
      let sqlstr := sqlstr ++ ")".toList ++ valuestr ++ ")".toList
      match wrapSQL dbType sqlstr with
      | (savesql, err) =>
        .returned { savesql := savesql, autoIncrement := st.autoIncrement, err := err,
                    columns := st.columns, values := st.values, entity := st.entity,
                    idCalls := st.idCalls }

/-- State of the loop of `wrapUpdateStructSQL` at index `i`: `columns` and `values` are
`(*columns)[:i]` and `(*values)[:i]`; `pkValue = none` is the `nil` interface. -/
structure UpdateState where
  columns : List StructField
  values : List GoValue
  sqlBuilder : GoString
  pkValue : Option GoValue
deriving DecidableEq, Repr

/-- Source: `wrapUpdateStructSQL`, lines 200-224: the loop over the columns, on the parts
of the slices still to visit (see `wrapSaveStructSQL.loop`). -/
def wrapUpdateStructSQL.loop (pkFieldName : GoString) (onlyUpdateNotZero : Bool) :
    List StructField → List GoValue → UpdateState → Ran UpdateState
  | [], restValues, st => .returned { st with values := st.values ++ restValues }
  | field :: restColumns, restValues, st =>
    let keep (st : UpdateState) :=
      wrapUpdateStructSQL.loop pkFieldName onlyUpdateNotZero restColumns restValues.tail
        { st with
          columns := st.columns ++ [field]
          values := st.values ++ restValues.head?.toList
          sqlBuilder := st.sqlBuilder ++ field.column ++ "=?,".toList }
    if field.Name = pkFieldName then
      match restValues with
      | [] => .panicked (.err (.new "runtime error: index out of range"))
      | value :: restValues =>
        wrapUpdateStructSQL.loop pkFieldName onlyUpdateNotZero restColumns restValues
          { st with pkValue := some value }
    else if onlyUpdateNotZero = true then
      match restValues with
      | [] => .panicked (.err (.new "runtime error: index out of range"))
      | value :: restValues1 =>
        match value.IsZero with
        | none => .panicked (.err (.new "reflect: call of reflect.Value.IsZero on zero Value"))
        | some true =>
          wrapUpdateStructSQL.loop pkFieldName onlyUpdateNotZero restColumns restValues1 st
        | some false => keep st
    else keep st

/-- What `wrapUpdateStructSQL` returns, with the slices it leaves behind its pointer
arguments. -/
structure UpdateResult where
  sqlstr : GoString
  err : Option GoError
  columns : List StructField
  values : List GoValue
deriving DecidableEq, Repr

/-- Source: `wrapUpdateStructSQL(dbType, typeOf, entity, columns, values,
onlyUpdateNotZero)`. The text cut by one character is never empty: it begins with
`UPDATE `. -/
def wrapUpdateStructSQL (dbType : String) (typeOf : ReflectType) (entity : IEntityStruct)
    (columns : List StructField) (values : List GoValue) (onlyUpdateNotZero : Bool) :
    Ran UpdateResult :=
  match entityPKFieldName entity typeOf with
  | (_, some e) => .returned { sqlstr := [], err := some e, columns := columns, values := values }
  | (pkFieldName, none) =>
    match wrapUpdateStructSQL.loop pkFieldName onlyUpdateNotZero columns values
        { columns := [], values := [],
          sqlBuilder := "UPDATE ".toList ++ entity.TableName ++ " SET ".toList,
          pkValue := none } with
    | .panicked r => .panicked r
    | .returned st =>
      let values := st.values ++ [st.pkValue.getD .nil]
      let sqlstr := st.sqlBuilder.dropLast
      let sqlstr := sqlstr ++ " WHERE ".toList ++ entity.PKColumnName ++ "=?".toList
      match wrapSQL dbType sqlstr with
      | (sqlstr, err) =>
        .returned { sqlstr := sqlstr, err := err, columns := st.columns, values := values }

/-! ### Sample record -/

/-- Fields `Id`, `Name` and `Age` of a record type, mapped to `id`, `name` and `age`. -/
def idField : StructField := { Name := "Id".toList, Kind := .Int, column := "id".toList }

/-- The field `Name`, a string mapped to the column `name`. -/
def nameField : StructField := { Name := "Name".toList, Kind := .String, column := "name".toList }

/-- The field `Age`, an int mapped to the column `age`. -/
def ageField : StructField := { Name := "Age".toList, Kind := .Int, column := "age".toList }

/-- The type of the sample record. -/
def userType : ReflectType :=
  { Kind := .Struct,
    dbColumnFieldMap := [("id".toList, idField), ("name".toList, nameField),
      ("age".toList, ageField)],
    dbColumnFieldMapErr := none }

/-- The record `id = 1, name = "", age = 31` of table `t_user`, with key column `id`
and no sequence. -/
def userRecord : IEntityStruct :=
  { TableName := "t_user".toList, PKColumnName := "id".toList, PkSequence := [],
    fields := [("Id".toList, .int 1), ("Name".toList, .str []), ("Age".toList, .int 31)] }

/-! ## Reference definitions for count queries -/

/-- A text holds another text somewhere. -/
def containsText (s substr : GoString) : Prop :=
  ∃ pre post, s = pre ++ substr ++ post

/-- A lower-cased text holds, somewhere, a run of white space, the word `group`, a run
of white space, `k` copies of `by` and one character of white space. -/
def GroupByWith (k : Nat) (t : GoString) : Prop :=
  ∃ pre ws1 ws2 c post,
    ws1 ≠ [] ∧ (∀ x ∈ ws1, isSpace x = true) ∧
    ws2 ≠ [] ∧ (∀ x ∈ ws2, isSpace x = true) ∧
    isSpace c = true ∧
    t = pre ++ ws1 ++ "group".toList ++ ws2 ++ repeatText "by".toList k ++ c :: post

/-- The language of the expression `\s+(group)\s+(by)+\s`, searched in the lower-cased
statement; `k = 1` is a `group by` delimited by white space. -/
def hasGroupByMatch (s : GoString) : Prop :=
  ∃ k, 1 ≤ k ∧ GroupByWith k (stringsToLower s)

/-- A text begins with a run of white space, `k` copies of `from` and one character of
white space. -/
def BeginsWithFrom (k : Nat) (t : GoString) : Prop :=
  ∃ ws c post,
    ws ≠ [] ∧ (∀ x ∈ ws, isSpace x = true) ∧ isSpace c = true ∧
    t = ws ++ repeatText "from".toList k ++ c :: post

/-- The language of the expression `\s+(from)+\s`, searched in the lower-cased
statement; `k = 1` is the keyword `from` delimited by white space. -/
def hasFromMatch (s : GoString) : Prop :=
  ∃ k pre suf, 1 ≤ k ∧ stringsToLower s = pre ++ suf ∧ BeginsWithFrom k suf

/-- The statement `t` is the statement `s` cut before its ORDER BY clause: `s` itself
when it has none; otherwise the lower-cased rest begins with a match of the expression
of ORDER BY and no match begins further to the left. -/
def TruncatedBeforeOrderBy (s t : GoString) : Prop :=
  (¬ hasOrderByMatch s ∧ t = s) ∨
  (∃ tail r, s = t ++ tail ∧ orderByRegexp (stringsToLower tail) = some r ∧
    ∀ b, b < t.length → orderByRegexp (stringsToLower (s.drop b)) = none)

/-- The expression `\s+(group)\s+(by){k}\s` at the head of a text: the rest of the text. -/
def groupByExact (k : Nat) (s : GoString) : Option GoString :=
  ((((reSpaces s).bind (reLit "group".toList)).bind reSpaces).bind
    (reLit (repeatText "by".toList k))).bind reSpace

/-- A database that answers every statement with the column `name` and the given rows. -/
def nameDatabase (rows : List Row) : Database :=
  { queryContext := fun _ _ _ _ =>
      .inl { Columns := ["name".toList], ColumnsErr := none, rows := rows } }

/-- A row with one cell holding a string, scanned without error. -/
def nameRow (s : String) : Row := { cells := [.str s.toList], scanErr := none }

/-! ## Reference definitions for the statements built from a record -/

/-- Texts in a row, a comma between two of them. -/
def commaList : List GoString → GoString
  | [] => []
  | [x] => x
  | x :: y :: rest => x ++ ",".toList ++ commaList (y :: rest)

/-- Texts in a row, a comma after each of them: what the loops of the builders write. -/
def commaEach : List GoString → GoString
  | [] => []
  | x :: rest => x ++ ",".toList ++ commaEach rest

/-- The INSERT statement of the specification for a table, its columns and the texts at
the value positions: `INSERT INTO table(col,...) VALUES (value,...)`. -/
def insertStatement (table : GoString) (cols vals : List GoString) : GoString :=
  "INSERT INTO ".toList ++ table ++ "(".toList ++ commaList cols ++ ")".toList ++
    " VALUES (".toList ++ commaList vals ++ ")".toList

/-- The UPDATE statement of the specification for a table, the columns of its SET list
and its key column: `UPDATE table SET col=?,... WHERE pk=?`. -/
def updateStatement (table : GoString) (cols : List GoString) (pk : GoString) : GoString :=
  "UPDATE ".toList ++ table ++ " SET ".toList ++
    commaList (cols.map (fun c => c ++ "=?".toList)) ++ " WHERE ".toList ++ pk ++ "=?".toList

/-- One `?` per column. -/
def placeholders (cols : List StructField) : List GoString :=
  cols.map (fun _ => "?".toList)

/-- The column names of fields. -/
def columnNames (cols : List StructField) : List GoString :=
  cols.map (fun f => f.column)

/-- State in which the loop of `wrapSaveStructSQL` starts. -/
def wrapSaveStructSQL.start (entity : IEntityStruct) : SaveState :=
  { columns := [], values := [],
    sqlBuilder := "INSERT INTO ".toList ++ entity.TableName ++ "(".toList,
    valueSQLBuilder := " VALUES (".toList,
    autoIncrement := false, entity := entity, idCalls := 0 }

/-- State in which the loop of `wrapUpdateStructSQL` starts. -/
def wrapUpdateStructSQL.start (entity : IEntityStruct) : UpdateState :=
  { columns := [], values := [],
    sqlBuilder := "UPDATE ".toList ++ entity.TableName ++ " SET ".toList,
    pkValue := none }

/-- The pairs of column and value that a partial update keeps: those whose value is not
the zero value of its type. -/
def nonZeroPairs (cols : List StructField) (vals : List GoValue) :
    List (StructField × GoValue) :=
  (cols.zip vals).filter (fun p => p.2.IsZero = some false)

/-- The field `Code`, a string mapped to the column `code`. -/
def codeField : StructField := { Name := "Code".toList, Kind := .String, column := "code".toList }

/-- The field `Label`, a string mapped to the column `label`. -/
def labelField : StructField :=
  { Name := "Label".toList, Kind := .String, column := "label".toList }

/-- The type of a record with a string key. -/
def tagType : ReflectType :=
  { Kind := .Struct,
    dbColumnFieldMap := [("code".toList, codeField), ("label".toList, labelField)],
    dbColumnFieldMapErr := none }

/-- The record `code = "", label = "x"` of table `t_tag`, with key column `code` and no
sequence. -/
def tagRecord : IEntityStruct :=
  { TableName := "t_tag".toList, PKColumnName := "code".toList, PkSequence := [],
    fields := [("Code".toList, .str []), ("Label".toList, .str "x".toList)] }

/-- The field `Id` of kind int64, mapped to the column `id`. -/
def bigIdField : StructField := { Name := "Id".toList, Kind := .Int64, column := "id".toList }

/-- The type of a record whose key is an int64. -/
def bigType : ReflectType :=
  { Kind := .Struct,
    dbColumnFieldMap := [("id".toList, bigIdField), ("name".toList, nameField)],
    dbColumnFieldMapErr := none }

/-- The pairs of column and value that an update keeps in its SET list: all of them for
a full update, those with a value that is not zero for a partial update. -/
def keptPairs (onlyUpdateNotZero : Bool) (cols : List StructField) (vals : List GoValue) :
    List (StructField × GoValue) :=
  if onlyUpdateNotZero = true then nonZeroPairs cols vals else cols.zip vals

/-- The items `column=?` of a SET list. -/
def setItems (kept : List (StructField × GoValue)) : List GoString :=
  kept.map (fun p => p.1.column ++ "=?".toList)

/-- As `quietEnv`, with a driver whose commit fails. -/
def brokenCommitEnv : Env :=
  { quietEnv with driverCommit := fun _ => some (.new "driver: bad connection") }

/-! ## BaseDao.go: map queries -/

/-- A `map[string]interface{}` of a result row: the column names with the values, in
the order of the columns; the cells of a row hold the values as `converValueColumnType`
leaves them. -/
abbrev RowMap := List (GoString × GoValue)

/-- Source: `QueryMapList`, lines 580-613: the loop over the rows, which appends one map
per row to `resultMapList`; a scan error ends the call with a `nil` list. The list
returned is `none` for the `nil` slice. -/
def QueryMapList.scanRows (columns : List GoString) :
    List Row → List RowMap → Option (List RowMap) × Option GoError
  | [], resultMapList => (some resultMapList, none)
  | row :: rest, resultMapList =>
    match row.scanErr with
    | some scanerr => (none, some (.errorf "rows.Scan异常:" scanerr))
    | none => QueryMapList.scanRows columns rest (resultMapList ++ [columns.zip row.cells])

/-- Source: `QueryMapList`, lines 548-627, for the `nil` page: build the statement,
obtain the handle, run the query and collect the maps, starting from
`make([]map[string]interface{}, 0)`. -/
def QueryMapList.query (env : Env) (db : Database) (ctx : Context) (finder : Finder)
    (dbType : String) (w : World) : Outcome (List RowMap) × World :=
  match wrapQuerySQL dbType finder none with
  | (_, some err) => (.returns none (some (.errorf "QueryMapList查询SQL语句错误:" err)), w)
  | (sqlstr, none) =>
    match checkDBConnection env ctx false 0 w with
    | (_, _, some dbConnectionerr, w1) => (.returns none (some dbConnectionerr), w1)
    | (_, none, none, w1) =>
      (.panics (.other "invalid memory address or nil pointer dereference"), w1)
    | (_, some conn, none, w1) =>
      match db.queryContext conn sqlstr finder.values w1 with
      | .inr e => (.returns none (some (.errorf "查询rows错误:" e)), w1)
      | .inl rows =>
        match rows.ColumnsErr with
        | some cne => (.returns none (some (.errorf "数据库返回列名错误:" cne)), w1)
        | none =>
          match QueryMapList.scanRows rows.Columns rows.rows [] with
          | (resultMapList, err) => (.returns resultMapList err, w1)

/-- Source: `QueryMapList(ctx, finder, nil)`, the call with the `nil` page that
`QueryMap` makes; `finder = none` is the `nil` finder. The info returned is the slice,
`none` when it is `nil`. -/
def QueryMapList (env : Env) (db : Database) (ctx : Context) (finder : Option Finder)
    (w : World) : Outcome (List RowMap) × World :=
  match finder with
  | none => (.returns none (some (.new "QueryMap的finder参数不能为nil")), w)
  | some finder =>
    match getDBConnectionFromContext ctx with
    | (_, some errFromContxt) => (.returns none (some errFromContxt), w)
    | (some dbConnection, none) =>
      if (w.conn dbConnection).db = false then (.returns none (some errDBConnection), w)
      else QueryMapList.query env db ctx finder (w.conn dbConnection).dbType w
    | (none, none) =>
      match env.FuncReadWriteBaseDao 0 with
      | none => (.panics (.other "invalid memory address or nil pointer dereference"), w)
      | some dao => QueryMapList.query env db ctx finder dao.config.DBType w

/-- Source: `QueryMap(ctx, finder)`; `finder = none` is the `nil` finder. The first
element of the list is read without regard to its length. -/
def QueryMap (env : Env) (db : Database) (ctx : Context) (finder : Option Finder)
    (w : World) : Outcome RowMap × World :=
  match finder with
  | none => (.returns none (some (.new "QueryMap的finder参数不能为nil")), w)
  | some finder =>
    match QueryMapList env db ctx (some finder) w with
    | (.panics r, w1) => (.panics r, w1)
    | (.returns _ (some listerr), w1) =>
      (.returns none (some (.errorf "QueryMapList查询错误:" listerr)), w1)
    | (.returns none none, w1) => (.returns none none, w1)
    | (.returns (some resultMapList) none, w1) =>
      match resultMapList with
      | [] =>
        (.panics (.err (.new "runtime error: index out of range [0] with length 0")), w1)
      | first :: rest =>
        if (first :: rest).length > 1 then (.returns (some first) (some (.new "查询出多条数据")), w1)
        else (.returns (some first) none, w1)

/-! ## BaseDao.go: saving a record -/

/-- The `entity IEntityStruct` argument of a write operation: the `nil` interface, a
value that is not a pointer, or a pointer to a record of the given type. -/
inductive SaveEntity where
  | nil
  | notPointer
  | pointer (typeOf : ReflectType) (record : IEntityStruct)
deriving DecidableEq, Repr

/-- The same argument seen as the `interface{}` that `checkEntityKind` receives. -/
def SaveEntity.toInterface : SaveEntity → QueryEntity
  | .nil => .nil
  | .notPointer => .notPointer
  | .pointer typeOf record => .pointer typeOf .nil record.fields

/-- Go's `valueOf.FieldByName(name)`: the value of the field of that name, `none` when
the struct has no such field (the zero `reflect.Value`). -/
def FieldByName (fields : List (GoString × GoValue)) (name : GoString) : Option GoValue :=
  (fields.find? (fun kv => kv.1 = name)).map (fun kv => kv.2)

/-- Source: `columnAndValue`, lines 984-1011: the loop over the entries of `dbMap`, given
in the order in which `range` delivers them. `Interface()` on the zero `reflect.Value`
panics. -/
def columnAndValue.loop (fields : List (GoString × GoValue)) :
    List (GoString × StructField) → List StructField → List GoValue →
      Ran (List StructField × List GoValue)
  | [], columns, values => .returned (columns, values)
  | (_, field) :: rest, columns, values =>
    match FieldByName fields field.Name with
    | none =>
      .panicked (.err (.new "reflect: call of reflect.Value.Interface on zero Value"))
    | some value => columnAndValue.loop fields rest (columns ++ [field]) (values ++ [value])

/-- Source: `columnAndValue(entity)`: the type, the columns and the values of a record;
the type is `none` when `checkEntityKind` returns none. The list `dbColumnFieldMap` of
the type stands for the map in the order in which this call ranges over it. -/
def columnAndValue (entity : SaveEntity) :
    Ran (Option ReflectType × List StructField × List GoValue × Option GoError) :=
  match checkEntityKind entity.toInterface with
  | (typeOf, some checkerr) => .returned (typeOf, [], [], some checkerr)
  | (none, none) => .panicked (.other "invalid memory address or nil pointer dereference")
  | (some typeOf, none) =>
    match typeOf.dbColumnFieldMapErr with
    | some err => .returned (some typeOf, [], [], some err)
    | none =>
      match entity with
      | .pointer _ record =>
        match columnAndValue.loop record.fields typeOf.dbColumnFieldMap [] [] with
        | .panicked r => .panicked r
        | .returned (columns, values) => .returned (some typeOf, columns, values, none)
      | _ => .panicked (.other "invalid memory address or nil pointer dereference")

/-- Modelled from the spec: the `sql.Result` of the driver as far as `SaveStruct` reads
it, whose package is not part of the sources: the id that `LastInsertId()` returns and
its error, if any. -/
structure SqlResult where
  LastInsertId : Int
  LastInsertIdErr : Option GoError
deriving DecidableEq, Repr

/-- Modelled from the spec: the method `execContext` of `dataBaseConnection`, whose file
is not part of the sources: the driver primitive `exec(sql, params)`, which answers a
statement and its parameters on a handle with a result or with an error. -/
structure Executor where
  execContext : Nat → GoString → List GoValue → World → SqlResult ⊕ GoError

/-- Modelled from the spec: `setFieldValueByColumnName(entity, columnName, value)`, whose
file is not part of the sources: the value is written back into the field of the record
that is mapped to the column; the error of the field mapping is returned. -/
def setFieldValueByColumnName (typeOf : ReflectType) (entity : IEntityStruct)
    (columnName : GoString) (value : GoValue) : IEntityStruct × Option GoError :=
  match typeOf.dbColumnFieldMapErr with
  | some err => (entity, some err)
  | none =>
    match lookupField typeOf.dbColumnFieldMap columnName with
    | none => (entity, none)
    | some field => ({ entity with fields := setField entity.fields field.Name value }, none)

/-- Source: `SaveStruct`, lines 703-718: the handle bound to the context is checked and
the dialect is taken from it, or from the dao for writing when there is none. The left
result is the error of an early return. -/
def SaveStruct.dbType (env : Env) (ctx : Context) (w : World) : Ran (GoError ⊕ String) :=
  match getDBConnectionFromContext ctx with
  | (_, some errFromContxt) => .returned (.inl errFromContxt)
  | (some dbConnection, none) =>
    if (w.conn dbConnection).db = false then .returned (.inl errDBConnection)
    else .returned (.inr (w.conn dbConnection).dbType)
  | (none, none) =>
    match env.FuncReadWriteBaseDao 1 with
    | none => .panicked (.other "invalid memory address or nil pointer dereference")
    | some dao => .returned (.inr dao.config.DBType)

/-- Source: `SaveStruct`, lines 742-764: after the statement has been executed. The id
goes from `int64` to `int` through its decimal text, which keeps the number, `int`
being 64 bits wide. The result is the error returned and the record as it is left. -/
def SaveStruct.finish (typeOf : ReflectType) (entity : IEntityStruct) (autoIncrement : Bool)
    (res : SqlResult) : Option GoError × IEntityStruct :=
  if autoIncrement = true then
    match res.LastInsertIdErr with
    | some e => (none, entity)
    | none =>
      let pkName := entity.PKColumnName
      let autoIncrementIDInt := res.LastInsertId
      match setFieldValueByColumnName typeOf entity pkName (.int autoIncrementIDInt) with
      | (entity1, some seterr) =>
        (some (.errorf "反射赋值数据库返回的自增主键错误:" seterr), entity1)
      | (entity1, none) => (none, entity1)
  else (none, entity)

/-- Source: `SaveStruct`, lines 720-764: build the statement, obtain the handle, execute
the statement and read the id. -/
def SaveStruct.save (FuncGenerateStringID : Nat → GoString) (env : Env) (ex : Executor)
    (ctx : Context) (dbType : String) (typeOf : ReflectType) (entity : IEntityStruct)
    (columns : List StructField) (values : List GoValue) (w : World) :
    Ran (Option GoError × IEntityStruct) × World :=
  match wrapSaveStructSQL FuncGenerateStringID dbType typeOf entity columns values with
  | .panicked r => (.panicked r, w)
  | .returned built =>
    match built.err with
    | some err =>
      (.returned (some (.errorf "SaveStruct-->wrapSaveStructSQL获取保存语句错误:" err),
        built.entity), w)
    | none =>
      match checkDBConnection env ctx true 1 w with
      | (_, _, some dbConnectionerr, w1) => (.returned (some dbConnectionerr, built.entity), w1)
      | (_, none, none, w1) =>
        (.panicked (.other "invalid memory address or nil pointer dereference"), w1)
      | (_, some dbConnection, none, w1) =>
        match ex.execContext dbConnection built.savesql built.values w1 with
        | .inr errexec =>
          (.returned (some (.errorf "SaveStruct执行保存错误:" errexec), built.entity), w1)
        | .inl res =>
          (.returned (SaveStruct.finish typeOf built.entity built.autoIncrement res), w1)

/-- Source: `SaveStruct(ctx, entity)`. The result is the error returned with the record
behind the pointer as the call leaves it. -/
def SaveStruct (FuncGenerateStringID : Nat → GoString) (env : Env) (ex : Executor)
    (ctx : Context) (entity : SaveEntity) (w : World) :
    Ran (Option GoError × SaveEntity) × World :=
  match entity with
  | .nil => (.returned (some (.new "对象不能为空"), entity), w)
  | .notPointer =>
    match columnAndValue entity with
    | .panicked r => (.panicked r, w)
    | .returned (_, _, _, some columnAndValueErr) =>
      (.returned (some (.errorf "SaveStruct-->columnAndValue获取实体类的列和值异常:"
        columnAndValueErr), entity), w)
    | .returned (_, _, _, none) =>
      (.panicked (.other "invalid memory address or nil pointer dereference"), w)
  | .pointer typeOf record =>
    match columnAndValue entity with
    | .panicked r => (.panicked r, w)
    | .returned (_, _, _, some columnAndValueErr) =>
      (.returned (some (.errorf "SaveStruct-->columnAndValue获取实体类的列和值异常:"
        columnAndValueErr), entity), w)
    | .returned (_, columns, values, none) =>
      if columns.length < 1 then
        (.returned (some (.new "没有tag信息,请检查struct中 column 的tag"), entity), w)
      else
        match SaveStruct.dbType env ctx w with
        | .panicked r => (.panicked r, w)
        | .returned (.inl err) => (.returned (some err, entity), w)
        | .returned (.inr dbType) =>
          match SaveStruct.save FuncGenerateStringID env ex ctx dbType typeOf record columns
              values w with
          | (.panicked r, w1) => (.panicked r, w1)
          | (.returned (err, record1), w1) => (.returned (err, .pointer typeOf record1), w1)

/-- The record `id = 0, name = "a", age = 31` of table `t_user`: a record not yet saved. -/
def newUserRecord : IEntityStruct :=
  { userRecord with
    fields := [("Id".toList, .int 0), ("Name".toList, .str "a".toList),
      ("Age".toList, .int 31)] }

/-- A driver that executes every statement and assigns the given id. -/
def assigningExecutor (id : Int) : Executor :=
  { execContext := fun _ _ _ _ => .inl { LastInsertId := id, LastInsertIdErr := none } }

/-- A driver that executes every statement and cannot tell the id it assigned. -/
def silentExecutor : Executor :=
  { execContext := fun _ _ _ _ =>
      .inl { LastInsertId := 0,
             LastInsertIdErr := some (.new "LastInsertId is not supported by this driver") } }

/-! ## Reference definitions for placeholders and parameters -/

/-- A position of the VALUES list of an INSERT statement: the column, with the parameter
bound to its placeholder, or with no parameter when the sequence expression stands at
the position. -/
abbrev Slot := StructField × Option GoValue

/-- The text at a position of the VALUES list: `?` when a parameter is bound to it, the
sequence expression otherwise. -/
def slotText (seq : GoString) (s : Slot) : GoString :=
  match s.2 with
  | some _ => "?".toList
  | none => seq

/-- The parameters of the positions, from left to right. -/
def slotParams (slots : List Slot) : List GoValue :=
  slots.filterMap (fun s => s.2)

/-- The columns of the positions that have a placeholder, from left to right. -/
def slotColumns (slots : List Slot) : List StructField :=
  (slots.filter (fun s => s.2.isSome)).map (fun s => s.1)

/-- Positions with a placeholder each: the columns paired with their parameters. -/
def paramSlots (cols : List StructField) (vals : List GoValue) : List Slot :=
  (cols.zip vals).map (fun p => (p.1, some p.2))

/-- The INSERT statement over positions, cut and joined as the builder does: the column
of every position, and `?` or the sequence expression at its place in the VALUES list. -/
def saveText (table seq : GoString) (slots : List Slot) : GoString :=
  ("INSERT INTO ".toList ++ table ++ "(".toList ++
      commaEach (slots.map (fun s => s.1.column))).dropLast ++ ")".toList ++
    (" VALUES (".toList ++ commaEach (slots.map (slotText seq))).dropLast ++ ")".toList

/-- The UPDATE statement over pairs of column and parameter, cut and joined as the
builder does: an item `column=?` per pair, and the placeholder of the key at the end. -/
def updateText (table pk : GoString) (kept : List (StructField × GoValue)) : GoString :=
  ("UPDATE ".toList ++ table ++ " SET ".toList ++ commaEach (setItems kept)).dropLast ++
    " WHERE ".toList ++ pk ++ "=?".toList

/-- The positions of a statement whose key column stands between the columns `pre` and
`post`: every other column has a placeholder, `mid` holds the position of the key, if
it has one. -/
def slotsAround (pre : List StructField) (vpre : List GoValue) (mid : List Slot)
    (post : List StructField) (vpost : List GoValue) : List Slot :=
  paramSlots pre vpre ++ mid ++ paramSlots post vpost

/-! ## Reference definitions for cuts in characters, and sample records -/

/-- The statement cut before its ORDER BY clause, counted in characters: what stands in
front of the leftmost match of the expression of ORDER BY, the statement itself when
there is no match. -/
def beforeOrderBy (s : GoString) : GoString :=
  match findOrderByIndex s with
  | [] => s
  | i :: _ => s.take i

/-- A text of ASCII characters only: every character is one byte, and so is its lower
case, so that byte offsets in the text and in its lower-cased copy are positions in
characters. -/
def isAscii (s : GoString) : Bool := s.all (fun c => decide (c.toNat < 128))

/-- A text holds, in any letter case, the word `group`, white space and the word `by`. -/
def mentionsGroupBy (s : GoString) : Prop :=
  ∃ pre ws post, ws ≠ [] ∧ (∀ x ∈ ws, isSpace x = true) ∧
    stringsToLower s = pre ++ "group".toList ++ ws ++ "by".toList ++ post

/-- The record of table `t_user` whose key field `Id` has a named type of kind int
(`type ID int`) and holds its zero value. -/
def namedKeyRecord : IEntityStruct :=
  { userRecord with
    fields := [("Id".toList, .other .Int true 0), ("Name".toList, .str "a".toList),
      ("Age".toList, .int 31)] }

/-- The record of table `t_tag` whose key field `Code` has a named type of kind string
(`type Code string`) and holds its zero value, the empty text. -/
def namedCodeRecord : IEntityStruct :=
  { tagRecord with
    fields := [("Code".toList, .other .String true 0), ("Label".toList, .str "x".toList)] }

/-- The field `Note` of type `interface{}`, mapped to the column `note`. -/
def noteField : StructField :=
  { Name := "Note".toList, Kind := .Interface, column := "note".toList }

/-- The type of a record with the fields `Id` and `Note`. -/
def noteType : ReflectType :=
  { Kind := .Struct,
    dbColumnFieldMap := [("id".toList, idField), ("note".toList, noteField)],
    dbColumnFieldMapErr := none }

/-- The record `id = 1, note = nil` of table `t_note`, with key column `id`. -/
def noteRecord : IEntityStruct :=
  { TableName := "t_note".toList, PKColumnName := "id".toList, PkSequence := [],
    fields := [("Id".toList, .int 1), ("Note".toList, .nil)] }

/-! ## Theorems: the transaction manager -/

theorem record_trace (w : World) (e : Event) : (w.record e).trace = w.trace ++ [e] := rfl

theorem setTx_trace (w : World) (p : Nat) (b : Bool) : (w.setTx p b).trace = w.trace := rfl

theorem beginTx_trace (env : Env) (p : Nat) (w : World) :
    (beginTx env p w).2.trace = w.trace ++ [.begin p] := by
  unfold beginTx
  cases env.driverBegin w <;> rfl

theorem commit_trace (env : Env) (p : Nat) (w : World) :
    (commit env p w).2.trace = w.trace ++ [.commit p] := by
  unfold commit
  cases env.driverCommit w <;> rfl

theorem rollback_trace (env : Env) (p : Nat) (w : World) :
    (rollback env p w).2.trace = w.trace ++ [.rollback p] := by
  unfold rollback
  cases env.driverRollback w <;> rfl

theorem newDBConnection_trace (dao : Option BaseDao) (w : World) :
    (newDBConnection dao w).2.2.trace = w.trace := by
  unfold newDBConnection
  cases dao with
  | none => rfl
  | some d => simp only []; cases h : d.dataSource <;> rfl

theorem checkDBConnection_trace (env : Env) (ctx : Context) (hastx : Bool) (rwType : Int)
    (w : World) : (checkDBConnection env ctx hastx rwType w).2.2.2.trace = w.trace := by
  unfold checkDBConnection
  rcases ctx with _ | _ | _ | p
  · rfl
  · have h := newDBConnection_trace (env.FuncReadWriteBaseDao rwType) w
    simp only [getDBConnectionFromContext]
    rcases hn : newDBConnection (env.FuncReadWriteBaseDao rwType) w with ⟨c, e, w1⟩
    rw [hn] at h
    cases e <;> cases c <;> simpa using h
  · rfl
  · simp only [getDBConnectionFromContext]
    split <;> rfl

/-- What is known when `Transaction` reaches its body: the context it hands over carries
the handle; the call is the opener exactly when the incoming context carried no handle
or a handle without an active transaction; an opener has invoked `beginTx` once, a
participant has changed nothing. -/
theorem Transaction.enter_inr (α : Type) (env : Env) (ctx : Context) (w : World)
    (ctx1 : Context) (p : Nat) (txOpen : Bool) (w1 : World)
    (h : Transaction.enter α env ctx w = .inr (ctx1, p, txOpen, w1)) :
    ctx1 = some (.conn p) ∧
    (txOpen = true ↔
      (ctx = some .absent ∨ ∃ q, ctx = some (.conn q) ∧ (w.conn q).tx = false)) ∧
    w1.trace = w.trace ++ (if txOpen then [.begin p] else []) ∧
    (txOpen = false → w1 = w ∧ ctx = some (.conn p) ∧ (w.conn p).tx = true) ∧
    (txOpen = true → ∃ wc : World, w1 = (wc.record (.begin p)).setTx p true) := by
  unfold Transaction.enter at h
  rcases ctx with _ | _ | _ | q
  · simp [checkDBConnection, getDBConnectionFromContext] at h
  · have ht := checkDBConnection_trace env (some .absent) false 1 w
    simp only [checkDBConnection, getDBConnectionFromContext] at h ht
    rcases hn : newDBConnection (env.FuncReadWriteBaseDao 1) w with ⟨c, e, w0⟩
    rw [hn] at h ht
    cases e with
    | some e => simp at h
    | none =>
      cases c with
      | none => simp at h
      | some c =>
        simp only at h ht
        by_cases htx : (w0.conn c).tx = false
        · rw [if_pos htx] at h
          have hb := beginTx_trace env c w0
          rcases hbt : beginTx env c w0 with ⟨be, w2⟩
          rw [hbt] at h hb
          cases be with
          | some be => simp at h
          | none =>
            simp only [Sum.inr.injEq, Prod.mk.injEq] at h
            obtain ⟨rfl, rfl, rfl, rfl⟩ := h
            simp only at hb
            refine ⟨rfl, by simp, by simp [hb, ht], by simp, ?_⟩
            intro _
            refine ⟨w0, ?_⟩
            unfold beginTx at hbt
            cases hd : env.driverBegin w0 <;> simp [hd] at hbt
            exact hbt.symm
        · rw [if_neg htx] at h
          exfalso
          apply htx
          unfold newDBConnection at hn
          cases hd : env.FuncReadWriteBaseDao 1 with
          | none => rw [hd] at hn; simp at hn
          | some dao =>
            rw [hd] at hn
            cases hds : dao.dataSource with
            | none => simp [hds] at hn
            | some ds =>
              simp only [hds, Prod.mk.injEq, Option.some.injEq, true_and] at hn
              obtain ⟨rfl, rfl⟩ := hn
              simp [World.conn, List.getD_eq_getElem?_getD]
  · simp [checkDBConnection, getDBConnectionFromContext] at h
  · simp only [checkDBConnection, getDBConnectionFromContext] at h
    by_cases hdb : (w.conn q).db = false
    · simp [hdb] at h
    · rw [if_neg hdb] at h
      simp only at h
      by_cases htx : (w.conn q).tx = false
      · rw [if_pos htx] at h
        have hb := beginTx_trace env q w
        rcases hbt : beginTx env q w with ⟨be, w2⟩
        rw [hbt] at h hb
        cases be with
        | some be => simp at h
        | none =>
          simp only [Sum.inr.injEq, Prod.mk.injEq] at h
          obtain ⟨rfl, rfl, rfl, rfl⟩ := h
          simp only at hb
          refine ⟨rfl, by simp [htx], by simp [hb], by simp, ?_⟩
          intro _
          refine ⟨w, ?_⟩
          unfold beginTx at hbt
          cases hd : env.driverBegin w <;> simp [hd] at hbt
          exact hbt.symm
      · rw [if_neg htx] at h
        simp only [Sum.inr.injEq, Prod.mk.injEq] at h
        obtain ⟨rfl, rfl, rfl, rfl⟩ := h
        refine ⟨rfl, by simp [htx], by simp, ?_, by simp⟩
        intro _
        exact ⟨rfl, rfl, by simpa using htx⟩

/-- After `beginTx` has succeeded on a handle that has a database, the handle has an
active transaction. -/
theorem setTx_conn_tx (w : World) (p : Nat) (h : ((w.setTx p true).conn p).db = true) :
    ((w.setTx p true).conn p).tx = true := by
  unfold World.conn World.setTx at *
  simp only [List.getD_eq_getElem?_getD, List.getElem?_modify_eq] at *
  cases hc : w.conns[p]? with
  | none => rw [hc] at h; simp at h
  | some c => simp

/-- A call that finds a handle with a database and an active transaction takes part in
that transaction: it reaches its body without any call on the handle. -/
theorem Transaction.enter_participant (α : Type) (env : Env) (p : Nat) (w : World)
    (hdb : (w.conn p).db = true) (htx : (w.conn p).tx = true) :
    Transaction.enter α env (some (.conn p)) w = .inr (some (.conn p), p, false, w) := by
  simp [Transaction.enter, checkDBConnection, getDBConnectionFromContext, hdb, htx]

/-- Whatever the body panics with, `Transaction` does not hand an error to its caller:
it returns `(nil, nil)`, or the panic raised by the logger leaves it. -/
theorem Transaction.panic_not_reported {α : Type} (env : Env) (ctx : Context)
    (body : Context → World → Outcome α × World) (w : World)
    (ctx1 : Context) (p : Nat) (txOpen : Bool) (w1 : World) (r : PanicValue) (w2 : World)
    (hEnter : Transaction.enter α env ctx w = .inr (ctx1, p, txOpen, w1))
    (hBody : body ctx1 w1 = (.panics r, w2)) :
    (Transaction env ctx body w).1 = .returns none none ∨
      ∃ v, (Transaction env ctx body w).1 = .panics v := by
  simp only [Transaction, hEnter, Transaction.finish, hBody, Transaction.recovered]
  split
  · exact Or.inr ⟨_, rfl⟩
  · exact Or.inl rfl

/-- C1 (the code at the failing input): a body that panics with the error `boom`, run by
an opener (context without handle) and by a participant (context whose handle has an
active transaction), with a logger that returns from `Panic`: the handle is rolled
back and `Transaction` returns `(nil, nil)`, no error reaches the caller. -/
theorem C1_panic_in_body_returns_nil_nil :
    Transaction quietEnv (some .absent) panickingBody World.empty =
      (.returns none none,
        { conns := [{ db := true, tx := false, dbType := "mysql", driverName := "mysql",
                      printSQL := false }],
          trace := [.begin 0, .rollback 0] }) ∧
    Transaction quietEnv (some (.conn 0)) panickingBody activeWorld =
      (.returns none none,
        { conns := [{ db := true, tx := false, dbType := "mysql", driverName := "mysql",
                      printSQL := false }],
          trace := [.rollback 0] }) := by
  constructor <;> rfl

/-- C2: in every run of `Transaction` whose body returns a non-nil error `e` (whatever
the incoming context, whether this call is the opener or not, and whatever the driver
answers to the rollback), the call ends by invoking `rollback` on the bound handle right
after the body, it has invoked nothing but `beginTx` (an opener only) before the body,
so it never invokes `commit`, and it returns the info of the body with an error that
wraps `e`. -/
theorem C2_body_error_rolls_back_and_wraps {α : Type} (env : Env) (ctx : Context)
    (body : Context → World → Outcome α × World) (w : World)
    (ctx1 : Context) (p : Nat) (txOpen : Bool) (w1 : World)
    (info : Option α) (e : GoError) (w2 : World)
    (hEnter : Transaction.enter α env ctx w = .inr (ctx1, p, txOpen, w1))
    (hBody : body ctx1 w1 = (.returns info (some e), w2)) :
    Transaction env ctx body w =
      (.returns info (some (.errorf "事务执行失败:" e)), (rollback env p w2).2) ∧
    (GoError.errorf "事务执行失败:" e).Unwrap = some e ∧
    ctx1 = some (.conn p) ∧
    w1.trace = w.trace ++ (if txOpen then [.begin p] else []) ∧
    (Transaction env ctx body w).2.trace = w2.trace ++ [.rollback p] := by
  have hT : Transaction env ctx body w =
      (.returns info (some (.errorf "事务执行失败:" e)), (rollback env p w2).2) := by
    simp only [Transaction, hEnter, Transaction.finish, hBody]
  obtain ⟨hc, -, ht, -, -⟩ := Transaction.enter_inr α env ctx w ctx1 p txOpen w1 hEnter
  exact ⟨hT, rfl, hc, ht, by rw [hT]; exact rollback_trace env p w2⟩

/-- Witness of C2: an opener whose body returns `(7, boom)` while the rollback of the
driver fails. -/
theorem C2_body_error_rolls_back_and_wraps_witness :
    Transaction brokenRollbackEnv (some .absent) failingBody World.empty =
      (.returns (some 7) (some (.errorf "事务执行失败:" (.new "boom"))),
        (rollback brokenRollbackEnv 0
          { conns := [{ db := true, tx := true, dbType := "mysql", driverName := "mysql",
                        printSQL := false }],
            trace := [.begin 0] }).2) ∧
    (Transaction brokenRollbackEnv (some .absent) failingBody World.empty).2.trace =
      [.begin 0, .rollback 0] :=
  have h := C2_body_error_rolls_back_and_wraps brokenRollbackEnv (some .absent) failingBody
    World.empty (some (.conn 0)) 0 true
    { conns := [{ db := true, tx := true, dbType := "mysql", driverName := "mysql",
                  printSQL := false }],
      trace := [.begin 0] }
    (some 7) (.new "boom")
    { conns := [{ db := true, tx := true, dbType := "mysql", driverName := "mysql",
                  printSQL := false }],
      trace := [.begin 0] }
    rfl rfl
  ⟨h.1, h.2.2.2.2⟩

/-- C3: in every run of `Transaction` whose body returns a nil error without faulting,
the call is the opener exactly when the incoming context carried no handle or a handle
without an active transaction. An opener has invoked `beginTx` once before the body and
invokes `commit` once after it. A call that found a handle with an active transaction
invokes nothing: the body starts in the incoming world and the call returns `(nil, nil)`
in the world the body left. -/
theorem C3_commit_iff_opener {α : Type} (env : Env) (ctx : Context)
    (body : Context → World → Outcome α × World) (w : World)
    (ctx1 : Context) (p : Nat) (txOpen : Bool) (w1 : World)
    (info : Option α) (w2 : World)
    (hEnter : Transaction.enter α env ctx w = .inr (ctx1, p, txOpen, w1))
    (hBody : body ctx1 w1 = (.returns info none, w2)) :
    (txOpen = true ↔
      (ctx = some .absent ∨ ∃ q, ctx = some (.conn q) ∧ (w.conn q).tx = false)) ∧
    (txOpen = true →
      w1.trace = w.trace ++ [.begin p] ∧
      (Transaction env ctx body w).2 = (commit env p w2).2 ∧
      (Transaction env ctx body w).2.trace = w2.trace ++ [.commit p]) ∧
    (txOpen = false →
      (ctx = some (.conn p) ∧ (w.conn p).tx = true) ∧
      w1 = w ∧
      Transaction env ctx body w = (.returns none none, w2)) := by
  obtain ⟨-, hiff, ht, hpart, -⟩ := Transaction.enter_inr α env ctx w ctx1 p txOpen w1 hEnter
  refine ⟨hiff, ?_, ?_⟩
  · intro hopen
    subst hopen
    have hT : (Transaction env ctx body w).2 = (commit env p w2).2 := by
      simp only [Transaction, hEnter, Transaction.finish, hBody, if_true]
      cases hc : commit env p w2 with
      | mk ce w3 => cases ce <;> rfl
    exact ⟨by simpa using ht, hT, by rw [hT]; exact commit_trace env p w2⟩
  · intro hpar
    subst hpar
    obtain ⟨hw, hctx, htx⟩ := hpart rfl
    refine ⟨⟨hctx, htx⟩, hw, ?_⟩
    simp [Transaction, hEnter, Transaction.finish, hBody]

/-- Witness of C3: a participant (the handle of the context has an active transaction)
whose body returns `(7, nil)`, and an opener on a handle without transaction. -/
theorem C3_commit_iff_opener_witness :
    (Transaction.enter Nat quietEnv (some (.conn 0)) activeWorld =
        .inr (some (.conn 0), 0, false, activeWorld) ∧
      succeedingBody (some (.conn 0)) activeWorld = (.returns (some 7) none, activeWorld) ∧
      Transaction quietEnv (some (.conn 0)) succeedingBody activeWorld =
        (.returns none none, activeWorld)) ∧
    (Transaction quietEnv (some (.conn 0)) succeedingBody idleWorld).2.trace =
      [.begin 0, .commit 0] :=
  ⟨⟨rfl, rfl,
      ((C3_commit_iff_opener quietEnv (some (.conn 0)) succeedingBody activeWorld
        (some (.conn 0)) 0 false activeWorld (some 7) activeWorld rfl rfl).2.2 rfl).2.2⟩,
    ((C3_commit_iff_opener quietEnv (some (.conn 0)) succeedingBody idleWorld
      (some (.conn 0)) 0 true
      { conns := [{ db := true, tx := true, dbType := "mysql", driverName := "mysql",
                    printSQL := false }],
        trace := [.begin 0] }
      (some 7)
      { conns := [{ db := true, tx := true, dbType := "mysql", driverName := "mysql",
                    printSQL := false }],
        trace := [.begin 0] }
      rfl rfl).2.1 rfl).2.2⟩

/-- C4: an outer `Transaction` on a context without handle reaches its body (the handle
it created has a database and its `beginTx` succeeded); the body calls an inner
`Transaction` with the context it received and returns what that call returned; the
inner body returns the error `e`. Then the inner call takes part without `beginTx`, ends
by `rollback` and never commits; the outer call has invoked `beginTx` once, ends by a
second `rollback`, never commits and returns a non-nil error, which wraps `e` twice.
When the inner body itself makes no transaction call, the calls on the handle are
`begin, rollback, rollback`. -/
theorem C4_nested_failure_rolls_back {α : Type} (env : Env) (w : World)
    (inner : Context → World → Outcome α × World)
    (ctx1 : Context) (p : Nat) (txOpen : Bool) (w1 : World)
    (info : Option α) (e : GoError) (w2 : World)
    (hOuter : Transaction.enter α env (some .absent) w = .inr (ctx1, p, txOpen, w1))
    (hDb : (w1.conn p).db = true)
    (hInner : inner ctx1 w1 = (.returns info (some e), w2)) :
    w1.trace = w.trace ++ [.begin p] ∧
    Transaction env ctx1 inner w1 =
      (.returns info (some (.errorf "事务执行失败:" e)), (rollback env p w2).2) ∧
    Transaction env (some .absent) (nestedBody env inner) w =
      (.returns info (some (.errorf "事务执行失败:" (.errorf "事务执行失败:" e))),
        (rollback env p (rollback env p w2).2).2) ∧
    (Transaction env (some .absent) (nestedBody env inner) w).2.trace =
      w2.trace ++ [.rollback p, .rollback p] ∧
    (w2.trace = w1.trace →
      (Transaction env (some .absent) (nestedBody env inner) w).2.trace =
        w.trace ++ [.begin p, .rollback p, .rollback p]) := by
  obtain ⟨hc, hiff, ht, -, hset⟩ :=
    Transaction.enter_inr α env (some .absent) w ctx1 p txOpen w1 hOuter
  have hopen : txOpen = true := hiff.2 (Or.inl rfl)
  subst hopen
  subst hc
  obtain ⟨wc, rfl⟩ := hset rfl
  have htx := setTx_conn_tx (wc.record (.begin p)) p hDb
  have hIn := Transaction.enter_participant α env p _ hDb htx
  have hI : Transaction env (some (.conn p)) inner ((wc.record (.begin p)).setTx p true) =
      (.returns info (some (.errorf "事务执行失败:" e)), (rollback env p w2).2) := by
    simp only [Transaction, hIn, Transaction.finish, hInner]
  have hO : Transaction env (some .absent) (nestedBody env inner) w =
      (.returns info (some (.errorf "事务执行失败:" (.errorf "事务执行失败:" e))),
        (rollback env p (rollback env p w2).2).2) := by
    simp only [Transaction, hOuter, Transaction.finish, nestedBody, hIn, hInner]
  have hT : (Transaction env (some .absent) (nestedBody env inner) w).2.trace =
      w2.trace ++ [.rollback p, .rollback p] := by
    rw [hO]
    simp [rollback_trace]
  refine ⟨by simpa using ht, hI, hO, hT, ?_⟩
  intro hq
  rw [hT, hq]
  simp only [if_true] at ht
  rw [ht]
  simp

/-- Witness of C4: the inner body returns `(7, boom)` and the driver never fails. -/
theorem C4_nested_failure_rolls_back_witness :
    Transaction quietEnv (some .absent) (nestedBody quietEnv failingBody) World.empty =
      (.returns (some 7)
          (some (.errorf "事务执行失败:" (.errorf "事务执行失败:" (.new "boom")))),
        { conns := [{ db := true, tx := false, dbType := "mysql", driverName := "mysql",
                      printSQL := false }],
          trace := [.begin 0, .rollback 0, .rollback 0] }) :=
  (C4_nested_failure_rolls_back quietEnv World.empty failingBody (some (.conn 0)) 0 true
    { conns := [{ db := true, tx := true, dbType := "mysql", driverName := "mysql",
                  printSQL := false }],
      trace := [.begin 0] }
    (some 7) (.new "boom")
    { conns := [{ db := true, tx := true, dbType := "mysql", driverName := "mysql",
                  printSQL := false }],
      trace := [.begin 0] }
    rfl rfl rfl).2.2.1

/-! ## Theorems: placeholder rebinding -/

theorem digitChar_isDigit (d : Nat) (h : d < 10) : (Nat.digitChar d).isDigit = true := by
  interval_cases d <;> rfl

theorem toDigitsCore_isDigit (fuel n : Nat) (ds : List Char)
    (h : ∀ c ∈ ds, c.isDigit = true) : ∀ c ∈ Nat.toDigitsCore 10 fuel n ds, c.isDigit = true := by
  induction fuel generalizing n ds with
  | zero => simpa [Nat.toDigitsCore] using h
  | succ fuel ih =>
    have hd : ∀ c ∈ Nat.digitChar (n % 10) :: ds, c.isDigit = true := by
      intro c hc
      rcases List.mem_cons.1 hc with rfl | hc
      · exact digitChar_isDigit _ (Nat.mod_lt _ (by decide))
      · exact h c hc
    unfold Nat.toDigitsCore
    simp only
    split
    · exact hd
    · exact ih _ _ hd

/-- The text `strconv.Itoa` writes consists of digits, after a minus sign if any. -/
theorem Itoa_chars (i : Int) : ∀ c ∈ Itoa i, c.isDigit = true ∨ c = '-' := by
  intro c hc
  unfold Itoa at hc
  split at hc
  · rcases List.mem_cons.1 hc with rfl | hc
    · exact Or.inr rfl
    · exact Or.inl (toDigitsCore_isDigit _ _ [] (by simp) c hc)
  · exact Or.inl (toDigitsCore_isDigit _ _ [] (by simp) c hc)

theorem Itoa_count (i : Int) (x : Char) (hx : x.isDigit = false) (hm : x ≠ '-') :
    (Itoa i).count x = 0 := by
  rw [List.count_eq_zero]
  intro hmem
  rcases Itoa_chars i x hmem with h | h
  · rw [hx] at h; exact absurd h (by decide)
  · exact hm h

theorem stringsSplit_ne_nil (sep : Char) (s : GoString) : stringsSplit sep s ≠ [] := by
  cases s with
  | nil => simp [stringsSplit]
  | cons c cs =>
    unfold stringsSplit
    split
    · simp
    · split <;> simp

/-- Joining the pieces of `strings.Split(s, "?")` with numbered markers numbers the
placeholders of `s` from left to right. -/
theorem rebind_loop_split (dbType : String) (s : GoString) :
    ∀ (i : Nat) (str0 : GoString) (strs : List GoString),
      stringsSplit '?' s = str0 :: strs →
      str0 ++ rebind.loop dbType i strs = renumber (rebind.marker dbType) i s := by
  induction s with
  | nil =>
    intro i str0 strs h
    simp only [stringsSplit, List.cons.injEq] at h
    obtain ⟨rfl, rfl⟩ := h
    rfl
  | cons c cs ih =>
    intro i str0 strs h
    rcases hs : stringsSplit '?' cs with _ | ⟨p0, ps⟩
    · exact absurd hs (stringsSplit_ne_nil _ _)
    · unfold stringsSplit at h
      by_cases hc : c = '?'
      · rw [if_pos hc, hs] at h
        simp only [List.cons.injEq] at h
        obtain ⟨rfl, rfl⟩ := h
        simp only [renumber, if_pos hc, rebind.loop, List.nil_append, List.append_assoc]
        rw [ih (i + 1) p0 ps hs]
      · rw [if_neg hc, hs] at h
        simp only [List.cons.injEq] at h
        obtain ⟨rfl, rfl⟩ := h
        simp only [renumber, if_neg hc, List.cons_append]
        rw [ih i p0 ps hs]

theorem rebind_eq_renumber (dbType : String) (s : GoString)
    (h : ¬ (dbType = "mysql" ∨ dbType = "sqlite")) :
    rebind dbType s = renumber (rebind.marker dbType) 1 s := by
  unfold rebind
  rw [if_neg h]
  rcases hs : stringsSplit '?' s with _ | ⟨p0, ps⟩
  · exact absurd hs (stringsSplit_ne_nil _ _)
  · exact rebind_loop_split dbType s 1 p0 ps hs

theorem renumber_count_mark (mark : Nat → GoString) (x : Char) (hx : x ≠ '?')
    (hmark : ∀ k, (mark k).count x = 1) (s : GoString) :
    ∀ k, (renumber mark k s).count x = s.count x + s.count '?' := by
  induction s with
  | nil => intro k; simp [renumber]
  | cons c cs ih =>
    intro k
    unfold renumber
    by_cases hc : c = '?'
    · subst hc
      rw [if_pos rfl, List.count_append, hmark, ih]
      have : ('?' == x) = false := by simpa using Ne.symm hx
      simp [List.count_cons, this]
      omega
    · rw [if_neg hc, List.count_cons, ih]
      have : (c == '?') = false := by simpa using hc
      simp [List.count_cons, this]
      omega

theorem renumber_count_question (mark : Nat → GoString)
    (hmark : ∀ k, (mark k).count '?' = 0) (s : GoString) :
    ∀ k, (renumber mark k s).count '?' = 0 := by
  induction s with
  | nil => intro k; simp [renumber]
  | cons c cs ih =>
    intro k
    unfold renumber
    by_cases hc : c = '?'
    · rw [if_pos hc, List.count_append, hmark, ih]
    · rw [if_neg hc, List.count_cons, ih]
      simpa using hc

theorem marker_postgresql : rebind.marker "postgresql" = fun k : Nat => '$' :: Itoa k := by
  funext k
  simp [rebind.marker]

theorem marker_mssql : rebind.marker "mssql" = fun k : Nat => '@' :: 'p' :: Itoa k := by
  funext k
  simp [rebind.marker]

theorem marker_oracle : rebind.marker "oracle" = fun k : Nat => ':' :: Itoa k := by
  funext k
  simp [rebind.marker]

theorem renumber_question (s : GoString) : ∀ k, renumber (fun _ => ['?']) k s = s := by
  induction s with
  | nil => intro k; rfl
  | cons c cs ih =>
    intro k
    unfold renumber
    by_cases hc : c = '?'
    · rw [if_pos hc, ih, hc]; rfl
    · rw [if_neg hc, ih]

theorem rebind_postgresql (s : GoString) :
    rebind "postgresql" s = renumber (fun k : Nat => '$' :: Itoa k) 1 s := by
  rw [rebind_eq_renumber _ _ (by decide), marker_postgresql]

/-- C5: for the dialects postgresql, mssql and oracle, `rebind` returns the statement
with its `k`-th `?` (counted from 1, left to right) replaced by `$k`, `@pk` and `:k`
and every other character kept in place; the result holds no `?`, and it holds one
marker sign per placeholder of the statement, besides the signs the statement already
had. -/
theorem C5_rebind_numbers_placeholders (s : GoString) :
    rebind "postgresql" s = renumber (fun k => '$' :: Itoa k) 1 s ∧
    rebind "mssql" s = renumber (fun k => '@' :: 'p' :: Itoa k) 1 s ∧
    rebind "oracle" s = renumber (fun k => ':' :: Itoa k) 1 s ∧
    (rebind "postgresql" s).count '?' = 0 ∧
    (rebind "mssql" s).count '?' = 0 ∧
    (rebind "oracle" s).count '?' = 0 ∧
    (rebind "postgresql" s).count '$' = s.count '$' + s.count '?' ∧
    (rebind "mssql" s).count '@' = s.count '@' + s.count '?' ∧
    (rebind "oracle" s).count ':' = s.count ':' + s.count '?' := by
  have hp := rebind_postgresql s
  have hm : rebind "mssql" s = renumber (fun k => '@' :: 'p' :: Itoa k) 1 s := by
    rw [rebind_eq_renumber _ _ (by decide), marker_mssql]
  have ho : rebind "oracle" s = renumber (fun k => ':' :: Itoa k) 1 s := by
    rw [rebind_eq_renumber _ _ (by decide), marker_oracle]
  have hq : ∀ k : Nat, (Itoa k).count '?' = 0 := fun k =>
    Itoa_count _ '?' (by decide) (by decide)
  refine ⟨hp, hm, ho, ?_, ?_, ?_, ?_, ?_, ?_⟩
  · rw [hp]
    exact renumber_count_question _ (fun k => by simp [List.count_cons, hq]) s 1
  · rw [hm]
    exact renumber_count_question _ (fun k => by simp [List.count_cons, hq]) s 1
  · rw [ho]
    exact renumber_count_question _ (fun k => by simp [List.count_cons, hq]) s 1
  · rw [hp]
    exact renumber_count_mark _ '$' (by decide)
      (fun k => by simp [List.count_cons, Itoa_count _ '$' (by decide) (by decide)]) s 1
  · rw [hm]
    exact renumber_count_mark _ '@' (by decide)
      (fun k => by simp [List.count_cons, Itoa_count _ '@' (by decide) (by decide)]) s 1
  · rw [ho]
    exact renumber_count_mark _ ':' (by decide)
      (fun k => by simp [List.count_cons, Itoa_count _ ':' (by decide) (by decide)]) s 1

/-- C6: for every dialect tag other than postgresql, mssql and oracle (mysql, sqlite,
the empty tag and any other text), `rebind` returns the statement unchanged, and
`wrapSQL` returns it unchanged with a nil error. -/
theorem C6_rebind_identity_on_other_dialects (dbType : String) (s : GoString)
    (hp : dbType ≠ "postgresql") (hm : dbType ≠ "mssql") (ho : dbType ≠ "oracle") :
    rebind dbType s = s ∧ wrapSQL dbType s = (s, none) := by
  have hr : rebind dbType s = s := by
    by_cases h : dbType = "mysql" ∨ dbType = "sqlite"
    · unfold rebind
      rw [if_pos h]
    · rw [rebind_eq_renumber _ _ h]
      have hmk : rebind.marker dbType = fun _ => ['?'] := by
        funext k
        simp [rebind.marker, hp, hm, ho]
      rw [hmk]
      exact renumber_question s 1
  exact ⟨hr, by unfold wrapSQL; rw [hr]⟩

/-- Witness of C6: a dialect tag the code does not know, and the empty tag. -/
theorem C6_rebind_identity_on_other_dialects_witness :
    (rebind "db2" "UPDATE t SET a=? WHERE id=?".toList = "UPDATE t SET a=? WHERE id=?".toList ∧
      wrapSQL "db2" "UPDATE t SET a=? WHERE id=?".toList =
        ("UPDATE t SET a=? WHERE id=?".toList, none)) ∧
    rebind "" "a=?".toList = "a=?".toList :=
  ⟨C6_rebind_identity_on_other_dialects "db2" "UPDATE t SET a=? WHERE id=?".toList
      (by decide) (by decide) (by decide),
    (C6_rebind_identity_on_other_dialects "" "a=?".toList (by decide) (by decide) (by decide)).1⟩

/-! ## Theorems: detection of ORDER BY -/

theorem reLit_eq_some (lit s r : GoString) : reLit lit s = some r ↔ s = lit ++ r := by
  induction lit generalizing s with
  | nil => simp [reLit, eq_comm]
  | cons a lit ih =>
    cases s with
    | nil => simp [reLit]
    | cons c s =>
      unfold reLit
      by_cases h : a = c
      · subst h
        simp [ih]
      · simp [h, Ne.symm h]

theorem reSpace_eq_some (s r : GoString) :
    reSpace s = some r ↔ ∃ c, isSpace c = true ∧ s = c :: r := by
  cases s with
  | nil => simp [reSpace]
  | cons c s =>
    unfold reSpace
    by_cases h : isSpace c = true
    · simp only [h, if_true, Option.some.injEq, List.cons.injEq]
      constructor
      · rintro rfl
        exact ⟨c, h, rfl, rfl⟩
      · rintro ⟨d, -, -, rfl⟩
        rfl
    · simp only [h, if_false]
      constructor
      · intro h0
        cases h0
      · rintro ⟨d, hd, h1⟩
        simp only [List.cons.injEq] at h1
        exact absurd (h1.1 ▸ hd) h

theorem reSpaces_some (s r : GoString) (h : reSpaces s = some r) :
    ∃ ws, ws ≠ [] ∧ (∀ x ∈ ws, isSpace x = true) ∧ s = ws ++ r := by
  cases s with
  | nil => simp [reSpaces] at h
  | cons c s =>
    unfold reSpaces at h
    by_cases hc : isSpace c = true
    · simp only [hc, if_true, Option.some.injEq] at h
      refine ⟨c :: s.takeWhile isSpace, by simp, ?_, ?_⟩
      · intro x hx
        rcases List.mem_cons.1 hx with rfl | hx
        · exact hc
        · exact List.mem_takeWhile_imp hx
      · rw [← h]
        simp
    · simp [hc] at h

theorem dropWhile_spaces_append (ws r : GoString) (hws : ∀ x ∈ ws, isSpace x = true)
    (hr : ∀ x, r.head? = some x → isSpace x = false) : (ws ++ r).dropWhile isSpace = r := by
  induction ws with
  | nil =>
    cases r with
    | nil => rfl
    | cons x r =>
      have := hr x rfl
      simp [List.dropWhile, this]
  | cons c ws ih =>
    have hc := hws c (List.mem_cons_self _ _)
    simp only [List.cons_append, List.dropWhile, hc]
    exact ih (fun x hx => hws x (List.mem_cons_of_mem _ hx))

theorem reSpaces_append (ws r : GoString) (hne : ws ≠ [])
    (hws : ∀ x ∈ ws, isSpace x = true)
    (hr : ∀ x, r.head? = some x → isSpace x = false) : reSpaces (ws ++ r) = some r := by
  cases ws with
  | nil => exact absurd rfl hne
  | cons c ws =>
    have hc := hws c (List.mem_cons_self _ _)
    simp only [List.cons_append, reSpaces, hc, if_true]
    rw [dropWhile_spaces_append ws r (fun x hx => hws x (List.mem_cons_of_mem _ hx)) hr]

theorem reStar_sound (lit : GoString) (fuel : Nat) (s : GoString) :
    ∃ j, s = repeatText lit j ++ reStar lit fuel s := by
  induction fuel generalizing s with
  | zero => exact ⟨0, rfl⟩
  | succ fuel ih =>
    unfold reStar
    cases h : reLit lit s with
    | none => exact ⟨0, rfl⟩
    | some rest =>
      obtain ⟨j, hj⟩ := ih rest
      refine ⟨j + 1, ?_⟩
      rw [(reLit_eq_some _ _ _).1 h]
      simp only [repeatText, List.append_assoc]
      rw [← hj]

theorem reStar_complete (lit : GoString) (k : Nat) (t : GoString) (ht : reLit lit t = none) :
    ∀ fuel, k ≤ fuel → reStar lit fuel (repeatText lit k ++ t) = t := by
  induction k with
  | zero =>
    intro fuel _
    cases fuel with
    | zero => rfl
    | succ fuel => simp [reStar, repeatText, ht]
  | succ k ih =>
    intro fuel hf
    cases fuel with
    | zero => omega
    | succ fuel =>
      have h : reLit lit (repeatText lit (k + 1) ++ t) = some (repeatText lit k ++ t) := by
        rw [reLit_eq_some]
        simp [repeatText]
      simp only [reStar, h]
      exact ih fuel (by omega)

theorem length_repeatText_le (lit : GoString) (hl : lit ≠ []) (k : Nat) :
    k ≤ (repeatText lit k).length := by
  induction k with
  | zero => simp
  | succ k ih =>
    have : 0 < lit.length := List.length_pos.2 hl
    simp only [repeatText, List.length_append]
    omega

/-- The greedy `(lit)+\s` finds what `(lit){k}\s` finds for some `k ≥ 1`, when the
literal does not begin with white space. -/
theorem rePlus_reSpace (a : Char) (l s r : GoString) (ha : isSpace a = false) :
    (rePlus (a :: l) s).bind reSpace = some r ↔
      ∃ k, 1 ≤ k ∧ (reLit (repeatText (a :: l) k) s).bind reSpace = some r := by
  constructor
  · intro h
    unfold rePlus at h
    cases hl : reLit (a :: l) s with
    | none => simp [hl] at h
    | some rest =>
      simp only [hl, Option.map_some', Option.some_bind] at h
      obtain ⟨j, hj⟩ := reStar_sound (a :: l) rest.length rest
      refine ⟨j + 1, by omega, ?_⟩
      have hs : reLit (repeatText (a :: l) (j + 1)) s =
          some (reStar (a :: l) rest.length rest) := by
        rw [reLit_eq_some, (reLit_eq_some _ _ _).1 hl]
        simp only [repeatText, List.append_assoc]
        rw [← hj]
      rw [hs]
      exact h
  · rintro ⟨k, hk, h⟩
    cases hl : reLit (repeatText (a :: l) k) s with
    | none => simp [hl] at h
    | some rest =>
      simp only [hl, Option.some_bind] at h
      obtain ⟨c, hc, rfl⟩ := (reSpace_eq_some _ _).1 h
      obtain ⟨k, rfl⟩ : ∃ j, k = j + 1 := ⟨k - 1, by omega⟩
      have hs := (reLit_eq_some _ _ _).1 hl
      have hnone : reLit (a :: l) (c :: r) = none := by
        have : a ≠ c := by
          rintro rfl
          rw [ha] at hc
          exact absurd hc (by decide)
        simp [reLit, this]
      have h1 : reLit (a :: l) s = some (repeatText (a :: l) k ++ c :: r) := by
        rw [reLit_eq_some, hs]
        simp [repeatText]
      unfold rePlus
      simp only [h1, Option.map_some', Option.some_bind]
      rw [reStar_complete (a :: l) k (c :: r) hnone]
      · exact (reSpace_eq_some _ _).2 ⟨c, hc, rfl⟩
      · have := length_repeatText_le (a :: l) (by simp) k
        simp only [List.length_append]
        omega

theorem orderByRegexp_iff_exact (s r : GoString) :
    orderByRegexp s = some r ↔ ∃ k, 1 ≤ k ∧ orderByExact k s = some r := by
  unfold orderByRegexp orderByExact
  cases ((reSpaces s).bind (reLit "order".toList)).bind reSpaces with
  | none => simp
  | some t =>
    simp only [Option.some_bind]
    exact rePlus_reSpace 'b' ['y'] t r (by decide)

theorem orderByExact_some (k : Nat) (s r : GoString) (h : orderByExact k s = some r) :
    ∃ ws1 ws2 c,
      ws1 ≠ [] ∧ (∀ x ∈ ws1, isSpace x = true) ∧
      ws2 ≠ [] ∧ (∀ x ∈ ws2, isSpace x = true) ∧
      isSpace c = true ∧
      s = ws1 ++ "order".toList ++ ws2 ++ repeatText "by".toList k ++ c :: r := by
  unfold orderByExact at h
  cases h1 : reSpaces s with
  | none => rw [h1] at h; cases h
  | some r1 =>
    rw [h1, Option.some_bind] at h
    cases h2 : reLit "order".toList r1 with
    | none => rw [h2] at h; cases h
    | some r2 =>
      rw [h2, Option.some_bind] at h
      cases h3 : reSpaces r2 with
      | none => rw [h3] at h; cases h
      | some r3 =>
        rw [h3, Option.some_bind] at h
        cases h4 : reLit (repeatText "by".toList k) r3 with
        | none => rw [h4] at h; cases h
        | some r4 =>
          rw [h4, Option.some_bind] at h
          obtain ⟨ws1, hne1, hws1, e1⟩ := reSpaces_some _ _ h1
          obtain ⟨ws2, hne2, hws2, e3⟩ := reSpaces_some _ _ h3
          obtain ⟨c, hc, e5⟩ := (reSpace_eq_some _ _).1 h
          have e2 := (reLit_eq_some _ _ _).1 h2
          have e4 := (reLit_eq_some _ _ _).1 h4
          refine ⟨ws1, ws2, c, hne1, hws1, hne2, hws2, hc, ?_⟩
          rw [e1, e2, e3, e4, e5]
          simp only [List.append_assoc]

theorem orderByExact_append (k : Nat) (ws1 ws2 : GoString) (c : Char) (r : GoString)
    (hne1 : ws1 ≠ []) (hws1 : ∀ x ∈ ws1, isSpace x = true)
    (hne2 : ws2 ≠ []) (hws2 : ∀ x ∈ ws2, isSpace x = true)
    (hc : isSpace c = true) :
    orderByExact (k + 1)
      (ws1 ++ "order".toList ++ ws2 ++ repeatText "by".toList (k + 1) ++ c :: r) = some r := by
  have h1 : reSpaces
      (ws1 ++ ("order".toList ++ (ws2 ++ (repeatText "by".toList (k + 1) ++ c :: r)))) =
      some ("order".toList ++ (ws2 ++ (repeatText "by".toList (k + 1) ++ c :: r))) := by
    apply reSpaces_append _ _ hne1 hws1
    intro x hx
    have : x = 'o' := by
      have h0 : ("order".toList ++ (ws2 ++ (repeatText "by".toList (k + 1) ++ c :: r))).head?
          = some 'o' := rfl
      rw [h0] at hx
      exact (Option.some.inj hx).symm
    rw [this]
    decide
  have h3 : reSpaces (ws2 ++ (repeatText "by".toList (k + 1) ++ c :: r)) =
      some (repeatText "by".toList (k + 1) ++ c :: r) := by
    apply reSpaces_append _ _ hne2 hws2
    intro x hx
    have : x = 'b' := by
      have h0 : (repeatText "by".toList (k + 1) ++ c :: r).head? = some 'b' := rfl
      rw [h0] at hx
      exact (Option.some.inj hx).symm
    rw [this]
    decide
  unfold orderByExact
  simp only [List.append_assoc]
  rw [h1]
  simp only [Option.some_bind]
  rw [(reLit_eq_some _ _ _).2 rfl]
  simp only [Option.some_bind]
  rw [h3]
  simp only [Option.some_bind]
  rw [(reLit_eq_some _ _ _).2 rfl]
  simp only [Option.some_bind]
  exact (reSpace_eq_some _ _).2 ⟨c, hc, rfl⟩

/-- The search finds a match exactly when the matcher succeeds at the head of some
suffix of the text. -/
theorem reFindIndex_ne_nil (m : GoString → Option GoString) (s : GoString) :
    ∀ i, reFindIndex m i s ≠ [] ↔ ∃ pre suf r, s = pre ++ suf ∧ m suf = some r := by
  induction s with
  | nil =>
    intro i
    unfold reFindIndex
    cases h : m [] with
    | none =>
      simp only [ne_eq, not_true_eq_false, false_iff]
      rintro ⟨pre, suf, r, hs, hm⟩
      have hsuf : suf = [] := (List.append_eq_nil.1 hs.symm).2
      rw [hsuf, h] at hm
      cases hm
    | some r =>
      simp only [ne_eq, List.cons_ne_self, not_false_eq_true, true_iff, reduceCtorEq]
      exact ⟨[], [], r, rfl, h⟩
  | cons c cs ih =>
    intro i
    unfold reFindIndex
    cases h : m (c :: cs) with
    | some r =>
      simp only [ne_eq, reduceCtorEq, not_false_eq_true, true_iff]
      exact ⟨[], c :: cs, r, rfl, h⟩
    | none =>
      simp only
      rw [ih (i + 1)]
      constructor
      · rintro ⟨pre, suf, r, hs, hm⟩
        exact ⟨c :: pre, suf, r, by rw [hs]; rfl, hm⟩
      · rintro ⟨pre, suf, r, hs, hm⟩
        cases pre with
        | nil =>
          simp only [List.nil_append] at hs
          rw [← hs, h] at hm
          cases hm
        | cons d pre =>
          simp only [List.cons_append, List.cons.injEq] at hs
          exact ⟨pre, suf, r, hs.2, hm⟩

/-- The search for `k` copies of `by` decides `OrderByWith k`, for `k ≥ 1`. -/
theorem OrderByWith_iff_find (k : Nat) (t : GoString) :
    OrderByWith (k + 1) t ↔ reFindIndex (orderByExact (k + 1)) 0 t ≠ [] := by
  rw [reFindIndex_ne_nil]
  constructor
  · rintro ⟨pre, ws1, ws2, c, post, hne1, hws1, hne2, hws2, hc, rfl⟩
    refine ⟨pre, ws1 ++ "order".toList ++ ws2 ++ repeatText "by".toList (k + 1) ++ c :: post,
      post, by simp only [List.append_assoc], ?_⟩
    exact orderByExact_append k ws1 ws2 c post hne1 hws1 hne2 hws2 hc
  · rintro ⟨pre, suf, r, rfl, hm⟩
    obtain ⟨ws1, ws2, c, hne1, hws1, hne2, hws2, hc, rfl⟩ := orderByExact_some _ _ _ hm
    exact ⟨pre, ws1, ws2, c, r, hne1, hws1, hne2, hws2, hc, by simp only [List.append_assoc]⟩

/-- The detection of the code: `findOrderByIndex` returns a location exactly for the
statements in the language of its expression. -/
theorem findOrderByIndex_ne_nil_iff (s : GoString) :
    findOrderByIndex s ≠ [] ↔ hasOrderByMatch s := by
  unfold findOrderByIndex hasOrderByMatch
  rw [reFindIndex_ne_nil]
  constructor
  · rintro ⟨pre, suf, r, hs, hm⟩
    obtain ⟨k, hk, hk2⟩ := (orderByRegexp_iff_exact _ _).1 hm
    obtain ⟨k, rfl⟩ : ∃ j, k = j + 1 := ⟨k - 1, by omega⟩
    refine ⟨k + 1, hk, ?_⟩
    rw [OrderByWith_iff_find, reFindIndex_ne_nil]
    exact ⟨pre, suf, r, hs, hk2⟩
  · rintro ⟨k, hk, hw⟩
    obtain ⟨k, rfl⟩ : ∃ j, k = j + 1 := ⟨k - 1, by omega⟩
    rw [OrderByWith_iff_find, reFindIndex_ne_nil] at hw
    obtain ⟨pre, suf, r, hs, hm⟩ := hw
    exact ⟨pre, suf, r, hs, (orderByRegexp_iff_exact _ _).2 ⟨k + 1, hk, hm⟩⟩

theorem hasOrderByMatch_of_clause (s : GoString) (h : hasOrderByClause s) :
    hasOrderByMatch s := ⟨1, le_refl 1, h⟩

/-- C7 (counterexample): the statement `select * from t order byby x` holds no `order by`
delimited by white space, yet `wrapPageSQL` returns a statement and no error for it. -/
theorem C7_order_byby_is_accepted :
    ¬ hasOrderByClause "select * from t order byby x".toList ∧
    wrapPageSQL "mysql" "select * from t order byby x".toList { PageNo := 1, PageSize := 10 } =
      ("select * from t order byby x LIMIT 0,10".toList, none) := by
  constructor
  · unfold hasOrderByClause
    rw [OrderByWith_iff_find 0]
    decide
  · decide

/-- C7 (amended): for every dialect tag and every page, `wrapPageSQL` returns the empty
statement and an error whenever the lower-cased statement holds no run of white space,
`order`, run of white space, `by` written one or more times in a row, white space
character; it returns no error whenever the statement holds one; and every statement
with an `order by` delimited by white space holds one. -/
theorem C7_wrapPageSQL_requires_order_by (dbType : String) (s : GoString) (page : Page) :
    (¬ hasOrderByMatch s →
      wrapPageSQL dbType s page = ([], some (.new "分页语句必须有 order by"))) ∧
    (hasOrderByMatch s → (wrapPageSQL dbType s page).2 = none) ∧
    (hasOrderByClause s → hasOrderByMatch s) := by
  refine ⟨?_, ?_, hasOrderByMatch_of_clause s⟩
  · intro h
    have h0 : findOrderByIndex s = [] := by
      by_contra hne
      exact h ((findOrderByIndex_ne_nil_iff s).1 hne)
    simp [wrapPageSQL, h0]
  · intro h
    have h0 := (findOrderByIndex_ne_nil_iff s).2 h
    have h1 : ¬ (findOrderByIndex s).length ≤ 0 := by
      intro hl
      exact h0 (List.length_eq_zero.1 (Nat.le_zero.1 hl))
    simp only [wrapPageSQL, if_neg h1, wrapSQL]

/-- Witness of C7: a statement without ORDER BY, for a dialect tag the code does not
know, and a statement with ORDER BY in capitals. -/
theorem C7_wrapPageSQL_requires_order_by_witness :
    wrapPageSQL "db2" "SELECT * FROM t".toList { PageNo := 1, PageSize := 10 } =
      ([], some (.new "分页语句必须有 order by")) ∧
    (wrapPageSQL "db2" "SELECT * FROM t ORDER BY id".toList { PageNo := 1, PageSize := 10 }).2 =
      none :=
  ⟨(C7_wrapPageSQL_requires_order_by "db2" "SELECT * FROM t".toList
      { PageNo := 1, PageSize := 10 }).1
      (fun h => absurd ((findOrderByIndex_ne_nil_iff _).2 h) (by decide)),
    (C7_wrapPageSQL_requires_order_by "db2" "SELECT * FROM t ORDER BY id".toList
      { PageNo := 1, PageSize := 10 }).2.1
      ((findOrderByIndex_ne_nil_iff _).1 (by decide))⟩

/-! ## Theorems: pagination -/

theorem wrapInt_of_isInt (x : Int) (h : isInt x) : wrapInt x = x := by
  unfold isInt at h
  unfold wrapInt
  norm_num at h ⊢
  omega

/-- When the page number is at least 1 and the exact product is a Go `int`, the offset
computed by the code is the exact product. -/
theorem Page.offset_exact (page : Page) (hp : 1 ≤ page.PageNo) (hno : isInt page.PageNo)
    (hprod : isInt (page.PageSize * (page.PageNo - 1))) :
    page.offset = page.PageSize * (page.PageNo - 1) := by
  have h1 : isInt (page.PageNo - 1) := by
    unfold isInt at hno ⊢
    constructor <;> omega
  unfold Page.offset
  rw [wrapInt_of_isInt _ h1, wrapInt_of_isInt _ hprod]

theorem wrapPageSQL_of_clause (dbType : String) (s : GoString) (page : Page)
    (hs : hasOrderByClause s) :
    wrapPageSQL dbType s page = (rebind dbType (s ++ wrapPageSQL.clause dbType page), none) := by
  have h0 := (findOrderByIndex_ne_nil_iff s).2 (hasOrderByMatch_of_clause s hs)
  have h1 : ¬ (findOrderByIndex s).length ≤ 0 := by
    intro hl
    exact h0 (List.length_eq_zero.1 (Nat.le_zero.1 hl))
  simp only [wrapPageSQL, if_neg h1, wrapSQL]

theorem renumber_append (mark : Nat → GoString) (t : GoString) (ht : ∀ c ∈ t, c ≠ '?')
    (s : GoString) : ∀ k, renumber mark k (s ++ t) = renumber mark k s ++ t := by
  induction s with
  | nil =>
    intro k
    induction t generalizing k with
    | nil => rfl
    | cons c t ih =>
      have hc := ht c (List.mem_cons_self _ _)
      simp only [List.nil_append, renumber, if_neg hc] at ih ⊢
      rw [ih (fun x hx => ht x (List.mem_cons_of_mem _ hx))]
  | cons c cs ih =>
    intro k
    rw [List.cons_append]
    unfold renumber
    by_cases hc : c = '?'
    · rw [if_pos hc, if_pos hc, ih, List.append_assoc]
    · rw [if_neg hc, if_neg hc, ih, List.cons_append]

theorem Itoa_ne_question (i : Int) : ∀ c ∈ Itoa i, c ≠ '?' := by
  intro c hc
  rcases Itoa_chars i c hc with h | h
  · rintro rfl
    exact absurd h (by decide)
  · rw [h]
    decide

/-- For a dialect that numbers its placeholders, rebinding leaves untouched a text
without `?` written after the statement. -/
theorem rebind_append (dbType : String) (s t : GoString) (ht : ∀ c ∈ t, c ≠ '?') :
    rebind dbType (s ++ t) = rebind dbType s ++ t := by
  by_cases h : dbType = "mysql" ∨ dbType = "sqlite"
  · unfold rebind
    rw [if_pos h, if_pos h]
  · rw [rebind_eq_renumber _ _ h, rebind_eq_renumber _ _ h, renumber_append _ _ ht]

/-- C8: for the dialects mysql and sqlite, every statement with an ORDER BY clause and
every page with a page number of at least 1, `wrapPageSQL` returns, with a nil error,
the statement followed by ` LIMIT `, the offset in decimal, a comma and the page size
in decimal; the offset is the product `PageSize * (PageNo - 1)` of Go, which is the
exact product whenever that is a Go `int`. -/
theorem C8_mysql_sqlite_limit (dbType : String) (s : GoString) (page : Page)
    (hd : dbType = "mysql" ∨ dbType = "sqlite") (hs : hasOrderByClause s)
    (hp : 1 ≤ page.PageNo) :
    wrapPageSQL dbType s page =
      (s ++ " LIMIT ".toList ++ Itoa page.offset ++ ",".toList ++ Itoa page.PageSize, none) ∧
    (isInt page.PageNo → isInt (page.PageSize * (page.PageNo - 1)) →
      page.offset = page.PageSize * (page.PageNo - 1)) := by
  refine ⟨?_, Page.offset_exact page hp⟩
  rw [wrapPageSQL_of_clause dbType s page hs]
  have hr : ∀ t, rebind dbType t = t := fun t => by
    unfold rebind
    rw [if_pos hd]
  rw [hr]
  rcases hd with rfl | rfl <;> simp [wrapPageSQL.clause]

/-- Witness of C8: `SELECT * FROM t ORDER BY id` with page 2 of size 10, for mysql and
for sqlite. -/
theorem C8_mysql_sqlite_limit_witness :
    wrapPageSQL "mysql" "SELECT * FROM t ORDER BY id".toList { PageNo := 2, PageSize := 10 } =
      ("SELECT * FROM t ORDER BY id LIMIT 10,10".toList, none) ∧
    wrapPageSQL "sqlite" "SELECT * FROM t ORDER BY id".toList { PageNo := 2, PageSize := 10 } =
      ("SELECT * FROM t ORDER BY id LIMIT 10,10".toList, none) :=
  ⟨(C8_mysql_sqlite_limit "mysql" "SELECT * FROM t ORDER BY id".toList
      { PageNo := 2, PageSize := 10 } (Or.inl rfl)
      ((OrderByWith_iff_find 0 _).2 (by decide)) (by decide)).1.trans (by decide),
    (C8_mysql_sqlite_limit "sqlite" "SELECT * FROM t ORDER BY id".toList
      { PageNo := 2, PageSize := 10 } (Or.inr rfl)
      ((OrderByWith_iff_find 0 _).2 (by decide)) (by decide)).1.trans (by decide)⟩

theorem ne_question_append (a b : GoString) (ha : ∀ c ∈ a, c ≠ '?') (hb : ∀ c ∈ b, c ≠ '?') :
    ∀ c ∈ a ++ b, c ≠ '?' :=
  fun c hc => (List.mem_append.1 hc).elim (ha c) (hb c)

/-- The pagination clause of every dialect holds no `?`. -/
theorem clause_ne_question (dbType : String) (page : Page) :
    ∀ c ∈ wrapPageSQL.clause dbType page, c ≠ '?' := by
  have hI := Itoa_ne_question
  unfold wrapPageSQL.clause
  split_ifs
  · exact ne_question_append _ _ (ne_question_append _ _
      (ne_question_append _ _ (by decide) (hI _)) (by decide)) (hI _)
  · exact ne_question_append _ _ (ne_question_append _ _
      (ne_question_append _ _ (by decide) (hI _)) (by decide)) (hI _)
  · exact ne_question_append _ _ (ne_question_append _ _ (ne_question_append _ _
      (ne_question_append _ _ (by decide) (hI _)) (by decide)) (hI _)) (by decide)
  · exact ne_question_append _ _ (ne_question_append _ _ (ne_question_append _ _
      (ne_question_append _ _ (by decide) (hI _)) (by decide)) (hI _)) (by decide)
  · exact ne_question_append _ _ (ne_question_append _ _
      (ne_question_append _ _ (by decide) (hI _)) (by decide)) (hI _)
  · intro c hc
    exact absurd hc (List.not_mem_nil c)

/-- C9: for the dialect postgresql, every statement with an ORDER BY clause and every
page with a page number of at least 1, `wrapPageSQL` returns, with a nil error, the
rebound statement (its placeholders numbered `$1`, `$2`, ... from left to right)
followed by ` LIMIT `, the page size, ` OFFSET ` and the offset, a clause that the
rebinding leaves as it was written; the offset is the product `PageSize * (PageNo - 1)`
of Go, which is the exact product whenever that is a Go `int`. -/
theorem C9_postgresql_limit_offset (s : GoString) (page : Page)
    (hs : hasOrderByClause s) (hp : 1 ≤ page.PageNo) :
    wrapPageSQL "postgresql" s page =
      (rebind "postgresql" s ++ " LIMIT ".toList ++ Itoa page.PageSize ++
        " OFFSET ".toList ++ Itoa page.offset, none) ∧
    rebind "postgresql" s = renumber (fun k : Nat => '$' :: Itoa k) 1 s ∧
    (isInt page.PageNo → isInt (page.PageSize * (page.PageNo - 1)) →
      page.offset = page.PageSize * (page.PageNo - 1)) := by
  refine ⟨?_, rebind_postgresql s, Page.offset_exact page hp⟩
  rw [wrapPageSQL_of_clause "postgresql" s page hs,
    rebind_append _ _ _ (clause_ne_question "postgresql" page)]
  simp [wrapPageSQL.clause]

/-- Witness of C9: a statement with two placeholders, page 2 of size 10. -/
theorem C9_postgresql_limit_offset_witness :
    wrapPageSQL "postgresql" "SELECT * FROM t WHERE a=? AND b=? ORDER BY id".toList
        { PageNo := 2, PageSize := 10 } =
      ("SELECT * FROM t WHERE a=$1 AND b=$2 ORDER BY id LIMIT 10 OFFSET 10".toList, none) :=
  (C9_postgresql_limit_offset "SELECT * FROM t WHERE a=? AND b=? ORDER BY id".toList
    { PageNo := 2, PageSize := 10 } ((OrderByWith_iff_find 0 _).2 (by decide))
    (by decide)).1.trans (by decide)

/-- C10 (counterexample): for mssql and for oracle, the statement returned for
`SELECT * FROM t ORDER BY id` and page 2 of size 10 ends with a space after `ROWS ONLY`;
it is not the statement of the claim. -/
theorem C10_rows_only_has_trailing_space :
    wrapPageSQL "mssql" "SELECT * FROM t ORDER BY id".toList { PageNo := 2, PageSize := 10 } =
      ("SELECT * FROM t ORDER BY id OFFSET 10 ROWS FETCH NEXT 10 ROWS ONLY ".toList, none) ∧
    wrapPageSQL "mssql" "SELECT * FROM t ORDER BY id".toList { PageNo := 2, PageSize := 10 } ≠
      ("SELECT * FROM t ORDER BY id OFFSET 10 ROWS FETCH NEXT 10 ROWS ONLY".toList, none) ∧
    wrapPageSQL "oracle" "SELECT * FROM t ORDER BY id".toList { PageNo := 2, PageSize := 10 } ≠
      ("SELECT * FROM t ORDER BY id OFFSET 10 ROWS FETCH NEXT 10 ROWS ONLY".toList, none) := by
  refine ⟨?_, ?_, ?_⟩ <;> decide

/-- C10 (amended): for the dialects mssql and oracle, every statement with an ORDER BY
clause and every page with a page number of at least 1, `wrapPageSQL` returns, with a
nil error, the rebound statement followed by ` OFFSET `, the offset, ` ROWS FETCH NEXT `,
the page size and ` ROWS ONLY ` with a space at its end; the offset is the product
`PageSize * (PageNo - 1)` of Go, which is the exact product whenever that is a Go `int`. -/
theorem C10_mssql_oracle_offset_fetch (dbType : String) (s : GoString) (page : Page)
    (hd : dbType = "mssql" ∨ dbType = "oracle") (hs : hasOrderByClause s)
    (hp : 1 ≤ page.PageNo) :
    wrapPageSQL dbType s page =
      (rebind dbType s ++ " OFFSET ".toList ++ Itoa page.offset ++
        " ROWS FETCH NEXT ".toList ++ Itoa page.PageSize ++ " ROWS ONLY ".toList, none) ∧
    (isInt page.PageNo → isInt (page.PageSize * (page.PageNo - 1)) →
      page.offset = page.PageSize * (page.PageNo - 1)) := by
  refine ⟨?_, Page.offset_exact page hp⟩
  rw [wrapPageSQL_of_clause dbType s page hs,
    rebind_append _ _ _ (clause_ne_question dbType page)]
  rcases hd with rfl | rfl <;> simp [wrapPageSQL.clause]

/-- Witness of C10 (amended): `SELECT * FROM t ORDER BY id` with page 2 of size 10 for
oracle, and a statement with a placeholder for mssql. -/
theorem C10_mssql_oracle_offset_fetch_witness :
    wrapPageSQL "oracle" "SELECT * FROM t ORDER BY id".toList { PageNo := 2, PageSize := 10 } =
      ("SELECT * FROM t ORDER BY id OFFSET 10 ROWS FETCH NEXT 10 ROWS ONLY ".toList, none) ∧
    wrapPageSQL "mssql" "SELECT * FROM t WHERE a=? ORDER BY id".toList
        { PageNo := 3, PageSize := 5 } =
      ("SELECT * FROM t WHERE a=@p1 ORDER BY id OFFSET 10 ROWS FETCH NEXT 5 ROWS ONLY ".toList,
        none) :=
  ⟨(C10_mssql_oracle_offset_fetch "oracle" "SELECT * FROM t ORDER BY id".toList
      { PageNo := 2, PageSize := 10 } (Or.inr rfl)
      ((OrderByWith_iff_find 0 _).2 (by decide)) (by decide)).1.trans (by decide),
    (C10_mssql_oracle_offset_fetch "mssql" "SELECT * FROM t WHERE a=? ORDER BY id".toList
      { PageNo := 3, PageSize := 5 } (Or.inl rfl)
      ((OrderByWith_iff_find 0 _).2 (by decide)) (by decide)).1.trans (by decide)⟩

/-! ## Theorems: count queries -/

/-- The location returned by the search: the matcher succeeds at that position and at
no position before it. -/
theorem reFindIndex_head (m : GoString → Option GoString) (s : GoString) :
    ∀ i a l, reFindIndex m i s = a :: l →
      ∃ n r, a = i + n ∧ n ≤ s.length ∧ m (s.drop n) = some r ∧
        ∀ b, b < n → m (s.drop b) = none := by
  induction s with
  | nil =>
    intro i a l h
    unfold reFindIndex at h
    cases hm : m [] with
    | none => rw [hm] at h; cases h
    | some r =>
      rw [hm] at h
      simp only [List.cons.injEq] at h
      exact ⟨0, r, by omega, by simp, by simpa using hm, by intro b hb; omega⟩
  | cons c cs ih =>
    intro i a l h
    unfold reFindIndex at h
    cases hm : m (c :: cs) with
    | some r =>
      rw [hm] at h
      simp only [List.cons.injEq] at h
      exact ⟨0, r, by omega, by simp, by simpa using hm, by intro b hb; omega⟩
    | none =>
      rw [hm] at h
      simp only at h
      obtain ⟨n, r, ha, hn, hmn, hleft⟩ := ih (i + 1) a l h
      refine ⟨n + 1, r, by omega, by simp; omega, by simpa using hmn, ?_⟩
      intro b hb
      cases b with
      | zero => simpa using hm
      | succ b => simpa using hleft b (by omega)

theorem stringsToLower_append (a b : GoString) :
    stringsToLower (a ++ b) = stringsToLower a ++ stringsToLower b := by
  simp [stringsToLower]

theorem stringsToLower_drop (n : Nat) (s : GoString) :
    stringsToLower (s.drop n) = (stringsToLower s).drop n := by
  simp [stringsToLower, List.map_drop]

theorem stringsToLower_length (s : GoString) : (stringsToLower s).length = s.length := by
  simp [stringsToLower]

/-- The check `strings.Index(s, substr) > -1` holds exactly when `s` holds `substr`. -/
theorem stringsIndex_gt_iff (s substr : GoString) :
    stringsIndex s substr > -1 ↔ containsText s substr := by
  unfold stringsIndex containsText
  have h := reFindIndex_ne_nil (reLit substr) s 0
  cases hf : reFindIndex (reLit substr) 0 s with
  | nil =>
    rw [hf] at h
    simp only [ne_eq, not_true_eq_false, false_iff, not_exists] at h
    constructor
    · intro h0
      exact absurd h0 (by decide)
    · rintro ⟨pre, post, rfl⟩
      exact absurd ⟨by simp only [List.append_assoc], (reLit_eq_some _ _ _).2 rfl⟩
        (h pre (substr ++ post) post)
  | cons a l =>
    rw [hf] at h
    have h1 := h.1 (by simp)
    obtain ⟨pre, suf, r, hs, hm⟩ := h1
    constructor
    · intro _
      exact ⟨pre, r, by rw [hs, (reLit_eq_some _ _ _).1 hm, List.append_assoc]⟩
    · intro _
      simp only [gt_iff_lt]
      omega

theorem groupByRegexp_iff_exact (s r : GoString) :
    groupByRegexp s = some r ↔ ∃ k, 1 ≤ k ∧ groupByExact k s = some r := by
  unfold groupByRegexp groupByExact
  cases ((reSpaces s).bind (reLit "group".toList)).bind reSpaces with
  | none => simp
  | some t =>
    simp only [Option.some_bind]
    exact rePlus_reSpace 'b' ['y'] t r (by decide)

theorem groupByExact_some (k : Nat) (s r : GoString) (h : groupByExact k s = some r) :
    ∃ ws1 ws2 c,
      ws1 ≠ [] ∧ (∀ x ∈ ws1, isSpace x = true) ∧
      ws2 ≠ [] ∧ (∀ x ∈ ws2, isSpace x = true) ∧
      isSpace c = true ∧
      s = ws1 ++ "group".toList ++ ws2 ++ repeatText "by".toList k ++ c :: r := by
  unfold groupByExact at h
  cases h1 : reSpaces s with
  | none => rw [h1] at h; cases h
  | some r1 =>
    rw [h1, Option.some_bind] at h
    cases h2 : reLit "group".toList r1 with
    | none => rw [h2] at h; cases h
    | some r2 =>
      rw [h2, Option.some_bind] at h
      cases h3 : reSpaces r2 with
      | none => rw [h3] at h; cases h
      | some r3 =>
        rw [h3, Option.some_bind] at h
        cases h4 : reLit (repeatText "by".toList k) r3 with
        | none => rw [h4] at h; cases h
        | some r4 =>
          rw [h4, Option.some_bind] at h
          obtain ⟨ws1, hne1, hws1, e1⟩ := reSpaces_some _ _ h1
          obtain ⟨ws2, hne2, hws2, e3⟩ := reSpaces_some _ _ h3
          obtain ⟨c, hc, e5⟩ := (reSpace_eq_some _ _).1 h
          have e2 := (reLit_eq_some _ _ _).1 h2
          have e4 := (reLit_eq_some _ _ _).1 h4
          refine ⟨ws1, ws2, c, hne1, hws1, hne2, hws2, hc, ?_⟩
          rw [e1, e2, e3, e4, e5]
          simp only [List.append_assoc]

theorem groupByExact_append (k : Nat) (ws1 ws2 : GoString) (c : Char) (r : GoString)
    (hne1 : ws1 ≠ []) (hws1 : ∀ x ∈ ws1, isSpace x = true)
    (hne2 : ws2 ≠ []) (hws2 : ∀ x ∈ ws2, isSpace x = true)
    (hc : isSpace c = true) :
    groupByExact (k + 1)
      (ws1 ++ "group".toList ++ ws2 ++ repeatText "by".toList (k + 1) ++ c :: r) = some r := by
  have h1 : reSpaces
      (ws1 ++ ("group".toList ++ (ws2 ++ (repeatText "by".toList (k + 1) ++ c :: r)))) =
      some ("group".toList ++ (ws2 ++ (repeatText "by".toList (k + 1) ++ c :: r))) := by
    apply reSpaces_append _ _ hne1 hws1
    intro x hx
    have : x = 'g' := by
      have h0 : ("group".toList ++ (ws2 ++ (repeatText "by".toList (k + 1) ++ c :: r))).head?
          = some 'g' := rfl
      rw [h0] at hx
      exact (Option.some.inj hx).symm
    rw [this]
    decide
  have h3 : reSpaces (ws2 ++ (repeatText "by".toList (k + 1) ++ c :: r)) =
      some (repeatText "by".toList (k + 1) ++ c :: r) := by
    apply reSpaces_append _ _ hne2 hws2
    intro x hx
    have : x = 'b' := by
      have h0 : (repeatText "by".toList (k + 1) ++ c :: r).head? = some 'b' := rfl
      rw [h0] at hx
      exact (Option.some.inj hx).symm
    rw [this]
    decide
  unfold groupByExact
  simp only [List.append_assoc]
  rw [h1]
  simp only [Option.some_bind]
  rw [(reLit_eq_some _ _ _).2 rfl]
  simp only [Option.some_bind]
  rw [h3]
  simp only [Option.some_bind]
  rw [(reLit_eq_some _ _ _).2 rfl]
  simp only [Option.some_bind]
  exact (reSpace_eq_some _ _).2 ⟨c, hc, rfl⟩

/-- The detection of GROUP BY by the code: `findGroupByIndex` returns a location exactly
for the statements in the language of its expression. -/
theorem findGroupByIndex_ne_nil_iff (s : GoString) :
    findGroupByIndex s ≠ [] ↔ hasGroupByMatch s := by
  unfold findGroupByIndex hasGroupByMatch
  rw [reFindIndex_ne_nil]
  constructor
  · rintro ⟨pre, suf, r, hs, hm⟩
    obtain ⟨k, hk, hk2⟩ := (groupByRegexp_iff_exact _ _).1 hm
    obtain ⟨ws1, ws2, c, hne1, hws1, hne2, hws2, hc, rfl⟩ := groupByExact_some _ _ _ hk2
    exact ⟨k, hk, pre, ws1, ws2, c, r, hne1, hws1, hne2, hws2, hc,
      by rw [hs]; simp only [List.append_assoc]⟩
  · rintro ⟨k, hk, pre, ws1, ws2, c, post, hne1, hws1, hne2, hws2, hc, ht⟩
    obtain ⟨k, rfl⟩ : ∃ j, k = j + 1 := ⟨k - 1, by omega⟩
    refine ⟨pre, ws1 ++ "group".toList ++ ws2 ++ repeatText "by".toList (k + 1) ++ c :: post,
      post, by rw [ht]; simp only [List.append_assoc], ?_⟩
    exact (groupByRegexp_iff_exact _ _).2
      ⟨k + 1, hk, groupByExact_append k ws1 ws2 c post hne1 hws1 hne2 hws2 hc⟩

theorem fromRegexp_some (s r : GoString) (h : fromRegexp s = some r) :
    ∃ k ws c, 1 ≤ k ∧ ws ≠ [] ∧ (∀ x ∈ ws, isSpace x = true) ∧ isSpace c = true ∧
      s = ws ++ repeatText "from".toList k ++ c :: r := by
  unfold fromRegexp at h
  cases h1 : reSpaces s with
  | none => rw [h1] at h; cases h
  | some r1 =>
    rw [h1, Option.some_bind] at h
    obtain ⟨k, hk, h2⟩ := (rePlus_reSpace 'f' "rom".toList r1 r (by decide)).1 h
    cases h3 : reLit (repeatText ('f' :: "rom".toList) k) r1 with
    | none => rw [h3] at h2; cases h2
    | some r2 =>
      rw [h3, Option.some_bind] at h2
      obtain ⟨ws, hne, hws, e1⟩ := reSpaces_some _ _ h1
      obtain ⟨c, hc, e3⟩ := (reSpace_eq_some _ _).1 h2
      have e2 := (reLit_eq_some _ _ _).1 h3
      refine ⟨k, ws, c, hk, hne, hws, hc, ?_⟩
      rw [e1, e2, e3]
      simp only [List.append_assoc]
      rfl

theorem fromRegexp_append (k : Nat) (ws : GoString) (c : Char) (r : GoString)
    (hne : ws ≠ []) (hws : ∀ x ∈ ws, isSpace x = true) (hc : isSpace c = true) :
    fromRegexp (ws ++ repeatText "from".toList (k + 1) ++ c :: r) = some r := by
  have h1 : reSpaces (ws ++ (repeatText "from".toList (k + 1) ++ c :: r)) =
      some (repeatText "from".toList (k + 1) ++ c :: r) := by
    apply reSpaces_append _ _ hne hws
    intro x hx
    have : x = 'f' := by
      have h0 : (repeatText "from".toList (k + 1) ++ c :: r).head? = some 'f' := rfl
      rw [h0] at hx
      exact (Option.some.inj hx).symm
    rw [this]
    decide
  unfold fromRegexp
  simp only [List.append_assoc]
  rw [h1]
  simp only [Option.some_bind]
  apply (rePlus_reSpace 'f' "rom".toList _ r (by decide)).2
  refine ⟨k + 1, by omega, ?_⟩
  have h2 : reLit (repeatText ('f' :: "rom".toList) (k + 1))
      (repeatText "from".toList (k + 1) ++ c :: r) = some (c :: r) :=
    (reLit_eq_some _ _ _).2 rfl
  rw [h2]
  exact (reSpace_eq_some _ _).2 ⟨c, hc, rfl⟩

/-- The detection of FROM by the code: `findFromIndex` returns a location exactly for
the statements in the language of its expression. -/
theorem findFromIndex_ne_nil_iff (s : GoString) :
    findFromIndex s ≠ [] ↔ hasFromMatch s := by
  unfold findFromIndex hasFromMatch
  rw [reFindIndex_ne_nil]
  constructor
  · rintro ⟨pre, suf, r, hs, hm⟩
    obtain ⟨k, ws, c, hk, hne, hws, hc, e⟩ := fromRegexp_some _ _ hm
    exact ⟨k, pre, suf, hk, hs, ws, c, r, hne, hws, hc, e⟩
  · rintro ⟨k, pre, suf, hk, hs, ws, c, post, hne, hws, hc, rfl⟩
    obtain ⟨k, rfl⟩ : ∃ j, k = j + 1 := ⟨k - 1, by omega⟩
    exact ⟨pre, _, post, hs, fromRegexp_append k ws c post hne hws hc⟩

/-! ### Byte offsets in ASCII text -/

/-- The lower case of an ASCII character is an ASCII character. -/
theorem toLowerRune_ascii (c : Char) (h : c.toNat < 128) : (toLowerRune c).toNat < 128 := by
  unfold toLowerRune
  rw [if_pos h]
  unfold Char.toLower
  simp only
  split
  · rename_i hr
    obtain ⟨h1, h2⟩ := hr
    generalize c.toNat = n at h1 h2
    interval_cases n <;> decide
  · exact h

/-- Lower-casing keeps a text of ASCII characters one. -/
theorem isAscii_stringsToLower (s : GoString) (h : isAscii s = true) :
    isAscii (stringsToLower s) = true := by
  unfold isAscii stringsToLower at *
  simp only [List.all_eq_true, decide_eq_true_eq, List.mem_map, forall_exists_index,
    and_imp, forall_apply_eq_imp_iff₂] at *
  exact fun c hc => toLowerRune_ascii c (h c hc)

/-- An ASCII text, character by character. -/
theorem isAscii_cons (c : Char) (s : GoString) :
    isAscii (c :: s) = true ↔ c.toNat < 128 ∧ isAscii s = true := by
  simp [isAscii]

/-- A part of an ASCII text is ASCII. -/
theorem isAscii_take (s : GoString) (n : Nat) (h : isAscii s = true) :
    isAscii (s.take n) = true := by
  unfold isAscii at *
  simp only [List.all_eq_true, decide_eq_true_eq] at *
  exact fun c hc => h c (List.mem_of_mem_take hc)

/-- An ASCII text has one byte per character. -/
theorem byteLen_ascii (s : GoString) (h : isAscii s = true) : byteLen s = s.length := by
  induction s with
  | nil => rfl
  | cons c cs ih =>
    obtain ⟨h1, h2⟩ := (isAscii_cons c cs).1 h
    simp only [byteLen, utf8Len, h1, if_true, ih h2, List.length_cons]
    omega

/-- In an ASCII text byte offsets are positions in characters. -/
theorem byteOffset_ascii (s : GoString) (i : Nat) (h : isAscii s = true)
    (hi : i ≤ s.length) : byteOffset s i = i := by
  unfold byteOffset
  rw [byteLen_ascii _ (isAscii_take s i h), List.length_take]
  omega

/-- Cutting an ASCII text at a byte offset cuts it at that position in characters. -/
theorem bytesBefore_ascii (s : GoString) (h : isAscii s = true) :
    ∀ n, bytesBefore s n = s.take n := by
  induction s with
  | nil => intro n; cases n <;> rfl
  | cons c cs ih =>
    intro n
    obtain ⟨h1, h2⟩ := (isAscii_cons c cs).1 h
    cases n with
    | zero => rfl
    | succ n =>
      have hu : utf8Len c = 1 := by simp [utf8Len, h1]
      simp only [bytesBefore, hu, List.take_succ_cons]
      rw [if_pos (by omega), ih h2]
      simp

/-- Dropping the bytes of an ASCII text in front of an offset drops that many characters. -/
theorem bytesFrom_ascii (s : GoString) (h : isAscii s = true) :
    ∀ n, bytesFrom s n = s.drop n := by
  induction s with
  | nil => intro n; cases n <;> rfl
  | cons c cs ih =>
    intro n
    obtain ⟨h1, h2⟩ := (isAscii_cons c cs).1 h
    cases n with
    | zero => rfl
    | succ n =>
      have hu : utf8Len c = 1 := by simp [utf8Len, h1]
      simp only [bytesFrom, hu, List.drop_succ_cons]
      rw [if_pos (by omega), ih h2]
      simp

/-- Go's `s[:n]` on an ASCII text, for an offset within the text. -/
theorem sliceTo_ascii (s : GoString) (n : Nat) (h : isAscii s = true) (hn : n ≤ s.length) :
    sliceTo s n = .returned (s.take n) := by
  unfold sliceTo
  rw [byteLen_ascii s h, if_neg (by omega), bytesBefore_ascii s h]

/-- Go's `s[n:]` on an ASCII text, for an offset within the text. -/
theorem sliceFrom_ascii (s : GoString) (n : Nat) (h : isAscii s = true) (hn : n ≤ s.length) :
    sliceFrom s n = .returned (s.drop n) := by
  unfold sliceFrom
  rw [byteLen_ascii s h, if_neg (by omega), bytesFrom_ascii s h]

/-- The location found by a search lies within the text. -/
theorem reFindIndex_le (m : GoString → Option GoString) (s : GoString) (a : Nat)
    (l : List Nat) (h : reFindIndex m 0 s = a :: l) : a ≤ s.length := by
  obtain ⟨n, r, ha, hn, -, -⟩ := reFindIndex_head m s 0 a l h
  omega

/-- On an ASCII statement the cut of lines 1189-1193 is the cut in characters. -/
theorem selectCount.truncate_ascii (s : GoString) (h : isAscii s = true) :
    selectCount.truncate s = .returned (beforeOrderBy s) := by
  unfold selectCount.truncate beforeOrderBy
  cases hf : findOrderByIndex s with
  | nil => rfl
  | cons a l =>
    have hle : a ≤ s.length := by
      unfold findOrderByIndex at hf
      have := reFindIndex_le _ _ a l hf
      simpa [stringsToLower] using this
    simp only
    rw [byteOffset_ascii _ _ (isAscii_stringsToLower s h) (by simpa [stringsToLower] using hle),
      sliceTo_ascii s a h hle]

/-- The statement cut before its ORDER BY clause is ASCII when the statement is. -/
theorem isAscii_beforeOrderBy (s : GoString) (h : isAscii s = true) :
    isAscii (beforeOrderBy s) = true := by
  unfold beforeOrderBy
  cases findOrderByIndex s with
  | nil => exact h
  | cons a l => exact isAscii_take s a h

/-! ### The count statement -/

/-- The test of line 1201 holds exactly when the lower-cased statement holds
` distinct ` or ` union ` between two spaces, or a match of the expression of GROUP BY. -/
theorem selectCount.special_iff (t : GoString) :
    selectCount.special t = true ↔
      (containsText (stringsToLower t) " distinct ".toList ∨
        containsText (stringsToLower t) " union ".toList ∨ hasGroupByMatch t) := by
  unfold selectCount.special
  simp only [Bool.or_eq_true, decide_eq_true_eq, stringsIndex_gt_iff, or_assoc]
  rw [← findGroupByIndex_ne_nil_iff]
  cases findGroupByIndex t with
  | nil => simp
  | cons a l =>
    have h1 : (a : Int) > -1 := by
      have : (0 : Int) ≤ (a : Int) := Int.ofNat_nonneg a
      omega
    simp [h1]

/-- The cut in characters is the statement before its ORDER BY clause. -/
theorem beforeOrderBy_spec (s : GoString) :
    TruncatedBeforeOrderBy s (beforeOrderBy s) := by
  unfold beforeOrderBy
  cases hf : findOrderByIndex s with
  | nil =>
    left
    refine ⟨?_, rfl⟩
    intro h
    exact (findOrderByIndex_ne_nil_iff s).2 h hf
  | cons a l =>
    right
    unfold findOrderByIndex at hf
    obtain ⟨n, r, ha, hn, hm, hleft⟩ := reFindIndex_head _ _ 0 a l hf
    have han : a = n := by omega
    subst han
    refine ⟨s.drop a, r, (List.take_append_drop a s).symm, ?_, ?_⟩
    · rw [stringsToLower_drop]
      exact hm
    · intro b hb
      rw [stringsToLower_drop]
      apply hleft
      simp only [List.length_take] at hb
      omega

/-- The derivation of the count statement never ends in an error: it yields a
statement, or it faults. -/
theorem selectCount.countsql_shape (s : GoString) :
    (∃ stmt, selectCount.countsql s = .returns (some stmt) none) ∨
      (∃ r, selectCount.countsql s = .panics r) := by
  unfold selectCount.countsql
  cases selectCount.truncate s with
  | panicked r => exact Or.inr ⟨r, rfl⟩
  | returned t =>
    simp only
    split
    · exact Or.inl ⟨_, rfl⟩
    · have hlen : ¬ ((findFromIndex t).length : Int) < 0 := by
        have := Int.ofNat_nonneg (findFromIndex t).length
        omega
      rw [if_neg hlen]
      cases findFromIndex t with
      | nil => exact Or.inr ⟨_, rfl⟩
      | cons a l =>
        simp only
        cases sliceFrom t (byteOffset (stringsToLower t) a) with
        | panicked r => exact Or.inr ⟨r, rfl⟩
        | returned rest => exact Or.inl ⟨_, rfl⟩

/-- Without special keyword and without a match of FROM in the truncated statement, the
derivation faults. -/
theorem selectCount.countsql_without_from (s t : GoString)
    (ht : selectCount.truncate s = .returned t)
    (hsp : selectCount.special t = false)
    (hfrom : ¬ hasFromMatch t) :
    selectCount.countsql s =
      .panics (.err (.new "runtime error: index out of range [0] with length 0")) := by
  have hnil : findFromIndex t = [] := by
    by_contra hne
    exact hfrom ((findFromIndex_ne_nil_iff _).1 hne)
  unfold selectCount.countsql
  simp [ht, hsp, hnil]

/-- The code at statements whose lower-casing shortens a character: the Kelvin sign
takes three bytes, its lower case `k` one, so the location of ORDER BY found in the
lower-cased copy lies two bytes in front of the clause in the statement, and the cut
loses `12`; the dotted capital I takes two bytes, its lower case `i` one, and the cut
loses `x`. -/
theorem selectCount.countsql_lower_case_offsets :
    selectCount.truncate "SELECT a FROM t WHERE n=\u212A12 ORDER BY a".toList =
      .returned "SELECT a FROM t WHERE n=\u212A".toList ∧
    selectCount.countsql "SELECT a FROM t WHERE n=\u212A12 ORDER BY a".toList =
      .returns (some "SELECT COUNT(*)  FROM t WHERE n=\u212A".toList) none ∧
    selectCount.countsql "SELECT a FROM t WHERE n=\u0130x ORDER BY a".toList =
      .returns (some "SELECT COUNT(*)  FROM t WHERE n=\u0130".toList) none := by
  refine ⟨?_, ?_, ?_⟩ <;> decide

/-- C11 (the code at the failing input): for the finder of `SELECT 1`, without count
override, the derivation of the count statement takes the path without special keyword,
finds no FROM, and indexes the empty location slice: `selectCount` panics, it returns no
error. -/
theorem C11_select_without_from_panics :
    selectCount.countsql "SELECT 1".toList =
      .panics (.err (.new "runtime error: index out of range [0] with length 0")) ∧
    selectCount quietEnv (sampleDatabase [intRow 1]) (some .absent)
        (some (Finder.ofSQL "SELECT 1".toList [])) World.empty =
      (.panics (.err (.new "runtime error: index out of range [0] with length 0")),
        World.empty) := by
  constructor <;> decide

/-- C12 (counterexample): for `SELECT a,b FROM t WHERE x=1 ORDER BY a` the count statement
derived by the code has two spaces between `SELECT COUNT(*)` and `FROM`; it is not the
statement of the claim. -/
theorem C12_count_statement_has_two_spaces :
    selectCount.countsql "SELECT a,b FROM t WHERE x=1 ORDER BY a".toList =
      .returns (some "SELECT COUNT(*)  FROM t WHERE x=1".toList) none ∧
    selectCount.countsql "SELECT a,b FROM t WHERE x=1 ORDER BY a".toList ≠
      .returns (some "SELECT COUNT(*) FROM t WHERE x=1".toList) none := by
  constructor <;> decide

/-- A text that holds a word between two spaces holds the word. -/
theorem containsText_between_spaces (t kw : GoString)
    (h : containsText t (' ' :: kw ++ [' '])) : containsText t kw := by
  obtain ⟨pre, post, e⟩ := h
  exact ⟨pre ++ [' '], ' ' :: post, by rw [e]; simp⟩

/-- A match of the expression of GROUP BY holds `group`, white space and `by`. -/
theorem mentionsGroupBy_of_match (s : GoString) (h : hasGroupByMatch s) :
    mentionsGroupBy s := by
  obtain ⟨k, hk, pre, ws1, ws2, c, post, h1, h2, h3, h4, h5, e⟩ := h
  obtain ⟨j, rfl⟩ : ∃ j, k = j + 1 := ⟨k - 1, by omega⟩
  refine ⟨pre ++ ws1, ws2, repeatText "by".toList j ++ c :: post, h3, h4, ?_⟩
  rw [e]
  simp only [repeatText, List.append_assoc]

/-- On an ASCII statement without special keyword in front of its ORDER BY clause, the
count statement is `SELECT COUNT(*) ` followed by the cut statement from the leftmost
match of FROM on. -/
theorem selectCount.countsql_from (s : GoString) (hascii : isAscii s = true)
    (hsp : selectCount.special (beforeOrderBy s) = false)
    (hf : hasFromMatch (beforeOrderBy s)) :
    ∃ a k, 1 ≤ k ∧
      BeginsWithFrom k (stringsToLower ((beforeOrderBy s).drop a)) ∧
      (∀ b j, b < a → 1 ≤ j →
        ¬ BeginsWithFrom j (stringsToLower ((beforeOrderBy s).drop b))) ∧
      selectCount.countsql s =
        .returns (some ("SELECT COUNT(*) ".toList ++ (beforeOrderBy s).drop a)) none := by
  have hta := isAscii_beforeOrderBy s hascii
  have hne := (findFromIndex_ne_nil_iff _).2 hf
  rcases hfi : findFromIndex (beforeOrderBy s) with _ | ⟨a, l⟩
  · exact absurd hfi hne
  · have hfi2 := hfi
    unfold findFromIndex at hfi2
    obtain ⟨n, r, ha, hn, hm, hleft⟩ := reFindIndex_head _ _ 0 a l hfi2
    have han : a = n := by omega
    subst han
    rw [stringsToLower_length] at hn
    obtain ⟨k, ws, c, hk, hwne, hws, hc, e⟩ := fromRegexp_some _ _ hm
    have hcs : selectCount.countsql s =
        .returns (some ("SELECT COUNT(*) ".toList ++ (beforeOrderBy s).drop a)) none := by
      unfold selectCount.countsql
      have hlen : ¬ (((a :: l).length : Int) < 0) := by
        have := Int.ofNat_nonneg (a :: l).length
        omega
      rw [selectCount.truncate_ascii s hascii]
      simp only [hsp, hfi, Bool.false_eq_true, if_false, if_neg hlen]
      rw [byteOffset_ascii _ _ (isAscii_stringsToLower _ hta)
        (by rw [stringsToLower_length]; exact hn), sliceFrom_ascii _ _ hta hn]
    refine ⟨a, k, hk, ⟨ws, c, r, hwne, hws, hc, by rw [stringsToLower_drop]; exact e⟩, ?_,
      hcs⟩
    rintro b j hb hj ⟨ws', c', post', hne', hws', hc', e'⟩
    obtain ⟨j, rfl⟩ : ∃ i, j = i + 1 := ⟨j - 1, by omega⟩
    have h1 := hleft b hb
    rw [← stringsToLower_drop, e', fromRegexp_append j ws' c' post' hne' hws' hc'] at h1
    cases h1

/-- C12 (amended): for every finder without count override whose statement is ASCII text
and, cut before its ORDER BY clause, holds in no letter case the words `distinct` or
`union` or `group`, white space, `by`, and holds a match of FROM (white space, `from`
one or more times, white space): the count statement is `SELECT COUNT(*) ` followed by
the cut statement from the white space in front of its leftmost FROM on, and
`selectCount` queries it with the values of the original finder. -/
theorem C12_count_statement_from (env : Env) (db : Database) (ctx : Context)
    (finder : Finder) (w : World)
    (hNo : finder.hasCountFinder = false)
    (hascii : isAscii finder.sqlstr = true)
    (hd : ¬ containsText (stringsToLower (beforeOrderBy finder.sqlstr)) "distinct".toList)
    (hu : ¬ containsText (stringsToLower (beforeOrderBy finder.sqlstr)) "union".toList)
    (hg : ¬ mentionsGroupBy (beforeOrderBy finder.sqlstr))
    (hf : hasFromMatch (beforeOrderBy finder.sqlstr)) :
    TruncatedBeforeOrderBy finder.sqlstr (beforeOrderBy finder.sqlstr) ∧
    ∃ a k, 1 ≤ k ∧
      BeginsWithFrom k (stringsToLower ((beforeOrderBy finder.sqlstr).drop a)) ∧
      (∀ b j, b < a → 1 ≤ j →
        ¬ BeginsWithFrom j (stringsToLower ((beforeOrderBy finder.sqlstr).drop b))) ∧
      selectCount.countsql finder.sqlstr =
        .returns (some ("SELECT COUNT(*) ".toList ++
          (beforeOrderBy finder.sqlstr).drop a)) none ∧
      selectCount env db ctx (some finder) w =
        selectCount.query env db ctx
          (Finder.ofSQL ("SELECT COUNT(*) ".toList ++
            (beforeOrderBy finder.sqlstr).drop a) finder.values) w := by
  refine ⟨beforeOrderBy_spec _, ?_⟩
  have hsp : selectCount.special (beforeOrderBy finder.sqlstr) = false := by
    cases h : selectCount.special (beforeOrderBy finder.sqlstr) with
    | false => rfl
    | true =>
      rcases (selectCount.special_iff _).1 h with h1 | h1 | h1
      · exact absurd (containsText_between_spaces _ "distinct".toList h1) hd
      · exact absurd (containsText_between_spaces _ "union".toList h1) hu
      · exact absurd (mentionsGroupBy_of_match _ h1) hg
  obtain ⟨a, k, hk, hb, hleft, hcs⟩ := selectCount.countsql_from finder.sqlstr hascii hsp hf
  refine ⟨a, k, hk, hb, hleft, hcs, ?_⟩
  unfold selectCount
  simp only [Finder.CountFinder, hNo, Bool.false_eq_true, if_false, Finder.GetSQL, hcs]

/-- A text that holds `group`, white space and `by` holds `group`. -/
theorem containsText_of_mentionsGroupBy (s : GoString) (h : mentionsGroupBy s) :
    containsText (stringsToLower s) "group".toList := by
  obtain ⟨pre, ws, post, -, -, e⟩ := h
  exact ⟨pre, ws ++ "by".toList ++ post, by rw [e]; simp only [List.append_assoc]⟩

/-- Witness of C12 (amended): the finder of `SELECT a,b FROM t WHERE x=1 ORDER BY a` with
the value 1 bound; the count statement queried has two spaces in front of `FROM`. -/
theorem C12_count_statement_from_witness :
    selectCount quietEnv (sampleDatabase [intRow 5]) (some .absent)
        (some (Finder.ofSQL "SELECT a,b FROM t WHERE x=1 ORDER BY a".toList [.int 1]))
        World.empty =
      selectCount.query quietEnv (sampleDatabase [intRow 5]) (some .absent)
        (Finder.ofSQL "SELECT COUNT(*)  FROM t WHERE x=1".toList [.int 1]) World.empty := by
  obtain ⟨-, a, k, -, -, -, hc, hs⟩ :=
    C12_count_statement_from quietEnv (sampleDatabase [intRow 5]) (some .absent)
      (Finder.ofSQL "SELECT a,b FROM t WHERE x=1 ORDER BY a".toList [.int 1]) World.empty rfl
      (by decide)
      (fun h => absurd ((stringsIndex_gt_iff _ _).2 h) (by decide))
      (fun h => absurd ((stringsIndex_gt_iff _ _).2 h) (by decide))
      (fun h => absurd ((stringsIndex_gt_iff _ _).2 (containsText_of_mentionsGroupBy _ h))
        (by decide))
      ((findFromIndex_ne_nil_iff _).1 (by decide))
  have e : selectCount.countsql
      (Finder.ofSQL "SELECT a,b FROM t WHERE x=1 ORDER BY a".toList [.int 1]).sqlstr =
      .returns (some "SELECT COUNT(*)  FROM t WHERE x=1".toList) none := by decide
  rw [hc] at e
  simp only [Outcome.returns.injEq, Option.some.injEq, and_true] at e
  rw [hs, e]
  rfl

/-- C13 (counterexample): for `SELECT DISTINCT a FROM t ORDER BY a` the statement derived
by the code has two spaces after `SELECT COUNT(*)` and a space at its end; it is not the
statement of the claim. -/
theorem C13_wrapped_text_has_other_spaces :
    selectCount.countsql "SELECT DISTINCT a FROM t ORDER BY a".toList =
      .returns (some ("SELECT COUNT(*)  frame_row_count FROM (SELECT DISTINCT a FROM t) " ++
        "temp_frame_noob_table_name WHERE 1=1 ").toList) none ∧
    selectCount.countsql "SELECT DISTINCT a FROM t ORDER BY a".toList ≠
      .returns (some ("SELECT COUNT(*) frame_row_count FROM (SELECT DISTINCT a FROM t) " ++
        "temp_frame_noob_table_name WHERE 1=1").toList) none := by
  constructor <;> decide

/-- C13 (amended): for every finder without count override whose statement is ASCII text
and, cut before its ORDER BY clause, holds `distinct` or `union` between two spaces (in
any letter case) or GROUP BY (white space, `group`, white space, `by`, white space, in
any letter case): the count statement is `SELECT COUNT(*)  frame_row_count FROM (`, the
cut statement and `) temp_frame_noob_table_name WHERE 1=1 `, with two spaces after
`COUNT(*)` and one at the end, and `selectCount` queries it with the values of the
original finder. -/
theorem C13_count_statement_wrapped (env : Env) (db : Database) (ctx : Context)
    (finder : Finder) (w : World)
    (hNo : finder.hasCountFinder = false)
    (hascii : isAscii finder.sqlstr = true)
    (h : containsText (stringsToLower (beforeOrderBy finder.sqlstr)) " distinct ".toList ∨
      containsText (stringsToLower (beforeOrderBy finder.sqlstr)) " union ".toList ∨
      GroupByWith 1 (stringsToLower (beforeOrderBy finder.sqlstr))) :
    TruncatedBeforeOrderBy finder.sqlstr (beforeOrderBy finder.sqlstr) ∧
    selectCount.countsql finder.sqlstr =
      .returns (some ("SELECT COUNT(*)  frame_row_count FROM (".toList ++
        beforeOrderBy finder.sqlstr ++
        ") temp_frame_noob_table_name WHERE 1=1 ".toList)) none ∧
    selectCount env db ctx (some finder) w =
      selectCount.query env db ctx
        (Finder.ofSQL ("SELECT COUNT(*)  frame_row_count FROM (".toList ++
          beforeOrderBy finder.sqlstr ++
          ") temp_frame_noob_table_name WHERE 1=1 ".toList) finder.values) w := by
  have hsp : selectCount.special (beforeOrderBy finder.sqlstr) = true :=
    (selectCount.special_iff _).2
      (h.imp id (fun h2 => h2.imp id (fun h3 => ⟨1, Nat.le_refl 1, h3⟩)))
  have hcs : selectCount.countsql finder.sqlstr =
      .returns (some ("SELECT COUNT(*)  frame_row_count FROM (".toList ++
        beforeOrderBy finder.sqlstr ++
        ") temp_frame_noob_table_name WHERE 1=1 ".toList)) none := by
    unfold selectCount.countsql
    rw [selectCount.truncate_ascii _ hascii]
    simp only [hsp, if_true]
  refine ⟨beforeOrderBy_spec _, hcs, ?_⟩
  unfold selectCount
  simp only [Finder.CountFinder, hNo, Bool.false_eq_true, if_false, Finder.GetSQL, hcs]

/-- Witness of C13 (amended): `SELECT DISTINCT a FROM t ORDER BY a`, and a statement with
GROUP BY in capitals delimited by line feeds. -/
theorem C13_count_statement_wrapped_witness :
    selectCount.countsql
        (Finder.ofSQL "SELECT DISTINCT a FROM t ORDER BY a".toList []).sqlstr =
      .returns (some ("SELECT COUNT(*)  frame_row_count FROM (".toList ++
        beforeOrderBy "SELECT DISTINCT a FROM t ORDER BY a".toList ++
        ") temp_frame_noob_table_name WHERE 1=1 ".toList)) none ∧
    selectCount.countsql
        (Finder.ofSQL "SELECT a FROM t\nGROUP\nBY\na ORDER BY a".toList []).sqlstr =
      .returns (some ("SELECT COUNT(*)  frame_row_count FROM (".toList ++
        beforeOrderBy "SELECT a FROM t\nGROUP\nBY\na ORDER BY a".toList ++
        ") temp_frame_noob_table_name WHERE 1=1 ".toList)) none :=
  ⟨(C13_count_statement_wrapped quietEnv (sampleDatabase []) (some .absent)
      (Finder.ofSQL "SELECT DISTINCT a FROM t ORDER BY a".toList []) World.empty rfl
      (by decide) (Or.inl ((stringsIndex_gt_iff _ _).1 (by decide)))).2.1,
    (C13_count_statement_wrapped quietEnv (sampleDatabase []) (some .absent)
      (Finder.ofSQL "SELECT a FROM t\nGROUP\nBY\na ORDER BY a".toList []) World.empty rfl
      (by decide)
      (Or.inr (Or.inr ⟨"select a from t".toList, ['\n'], ['\n'], '\n', "a".toList,
        by decide, by decide, by decide, by decide, by decide, by decide⟩))).2.1⟩

/-! ## Theorems: single-row queries -/

/-- When every scan succeeds, the loop over the rows of a base-type target ends without
error for up to two rows, and with the multiple-rows error from three rows on. -/
theorem QueryStruct.scanBase_rows (rows : List Row) (scalar : GoValue)
    (h : ∀ r ∈ rows, r.scanErr = none) :
    (rows.length ≤ 2 → (QueryStruct.scanBase 0 rows scalar).1 = none) ∧
    (3 ≤ rows.length →
      (QueryStruct.scanBase 0 rows scalar).1 = some (.new "查询出多条数据")) := by
  rcases rows with _ | ⟨r1, _ | ⟨r2, _ | ⟨r3, rest⟩⟩⟩
  · exact ⟨fun _ => rfl, fun h3 => by simp at h3⟩
  · have h1 := h r1 (by simp)
    exact ⟨fun _ => by simp [QueryStruct.scanBase, h1], fun h3 => by simp at h3⟩
  · have h1 := h r1 (by simp)
    have h2 := h r2 (by simp)
    exact ⟨fun _ => by simp [QueryStruct.scanBase, h1, h2], fun h3 => by simp at h3⟩
  · have h1 := h r1 (by simp)
    have h2 := h r2 (by simp)
    exact ⟨fun hl => by simp at hl, fun _ => by simp [QueryStruct.scanBase, h1, h2]⟩

/-- When every scan succeeds, the loop over the rows of a struct target ends without
error for up to two rows, and with the multiple-rows error from three rows on. -/
theorem QueryStruct.scanStruct_rows (dbMap : List (GoString × StructField))
    (columns : List GoString) (rows : List Row) (fields : List (GoString × GoValue))
    (h : ∀ r ∈ rows, r.scanErr = none) :
    (rows.length ≤ 2 → (QueryStruct.scanStruct dbMap columns 0 rows fields).1 = none) ∧
    (3 ≤ rows.length →
      (QueryStruct.scanStruct dbMap columns 0 rows fields).1 =
        some (.new "查询出多条数据")) := by
  rcases rows with _ | ⟨r1, _ | ⟨r2, _ | ⟨r3, rest⟩⟩⟩
  · exact ⟨fun _ => rfl, fun h3 => by simp at h3⟩
  · have h1 := h r1 (by simp)
    exact ⟨fun _ => by simp [QueryStruct.scanStruct, h1], fun h3 => by simp at h3⟩
  · have h1 := h r1 (by simp)
    have h2 := h r2 (by simp)
    exact ⟨fun _ => by simp [QueryStruct.scanStruct, h1, h2], fun h3 => by simp at h3⟩
  · have h1 := h r1 (by simp)
    have h2 := h r2 (by simp)
    exact ⟨fun hl => by simp at hl, fun _ => by simp [QueryStruct.scanStruct, h1, h2]⟩

/-- C14 (the code at the failing input): a query that yields exactly two rows, every
driver call and scan succeeding. For an `int` target and for a struct target
`QueryStruct` returns a nil error and leaves the values of the second row in the
target; the multiple-rows error comes with the third row only. -/
theorem C14_two_rows_are_accepted :
    QueryStruct quietEnv (sampleDatabase [intRow 5, intRow 6]) (some .absent)
        (Finder.ofSQL "SELECT a FROM t".toList []) (.pointer intType (.int 0) [])
        World.empty =
      (.returns none none, .pointer intType (.int 6) [],
        { conns := [{ db := true, tx := false, dbType := "mysql", driverName := "mysql",
                      printSQL := false }],
          trace := [] }) ∧
    QueryStruct quietEnv (nameDatabase [nameRow "a", nameRow "b"]) (some .absent)
        (Finder.ofSQL "SELECT name FROM t_user".toList [])
        (.pointer userType .nil userRecord.fields) World.empty =
      (.returns none none,
        .pointer userType .nil
          [("Id".toList, .int 1), ("Name".toList, .str "b".toList), ("Age".toList, .int 31)],
        { conns := [{ db := true, tx := false, dbType := "mysql", driverName := "mysql",
                      printSQL := false }],
          trace := [] }) ∧
    (QueryStruct quietEnv (sampleDatabase [intRow 5, intRow 6, intRow 7]) (some .absent)
        (Finder.ofSQL "SELECT a FROM t".toList []) (.pointer intType (.int 0) [])
        World.empty).1 = .returns none (some (.new "查询出多条数据")) := by
  refine ⟨?_, ?_, ?_⟩ <;> decide

/-! ## Theorems: statements built from a record -/

theorem commaEach_append (xs ys : List GoString) :
    commaEach (xs ++ ys) = commaEach xs ++ commaEach ys := by
  induction xs with
  | nil => rfl
  | cons x xs ih => simp [commaEach, ih]

theorem commaEach_eq (xs : List GoString) (h : xs ≠ []) :
    commaEach xs = commaList xs ++ ",".toList := by
  induction xs with
  | nil => exact absurd rfl h
  | cons x xs ih =>
    cases xs with
    | nil => simp [commaEach, commaList]
    | cons y ys =>
      have := ih (by simp)
      simp only [commaEach, commaList, List.append_assoc] at this ⊢
      rw [this]

/-- Cutting the last character of a text that ends with the comma of a non-empty row of
texts leaves the row with commas between the texts only. -/
theorem dropLast_commaEach (p : GoString) (xs : List GoString) (h : xs ≠ []) :
    (p ++ commaEach xs).dropLast = p ++ commaList xs := by
  rw [commaEach_eq xs h, ← List.append_assoc]
  exact List.dropLast_concat

/-- The loop of `wrapSaveStructSQL` over columns that are not the key: each is kept with
its value, its name is written with a comma and a `?,` is written for it. -/
theorem wrapSaveStructSQL.loop_plain (gen : Nat → GoString) (pk : GoString)
    (cs : List StructField) :
    ∀ (vs : List GoValue) (R : List StructField) (RV : List GoValue) (st : SaveState),
      vs.length = cs.length → (∀ f ∈ cs, f.Name ≠ pk) →
      wrapSaveStructSQL.loop gen pk (cs ++ R) (vs ++ RV) st =
        wrapSaveStructSQL.loop gen pk R RV
          { st with
            columns := st.columns ++ cs
            values := st.values ++ vs
            sqlBuilder := st.sqlBuilder ++ commaEach (columnNames cs)
            valueSQLBuilder := st.valueSQLBuilder ++ commaEach (placeholders cs) } := by
  induction cs with
  | nil =>
    intro vs R RV st hlen _
    have : vs = [] := List.length_eq_zero.1 hlen
    subst this
    simp [commaEach, columnNames, placeholders]
  | cons c cs ih =>
    intro vs R RV st hlen hne
    cases vs with
    | nil => simp at hlen
    | cons v vs =>
      have hc : c.Name ≠ pk := hne c (List.mem_cons_self _ _)
      have hlen' : vs.length = cs.length := by simpa using hlen
      simp only [List.cons_append, wrapSaveStructSQL.loop, if_neg hc, List.head?_cons,
        List.tail_cons, Option.toList, List.append_eq]
      rw [ih vs R RV _ hlen' (fun f hf => hne f (List.mem_cons_of_mem _ hf))]
      simp [commaEach, columnNames, placeholders, List.append_assoc]

/-- The loop of `wrapSaveStructSQL` over the last columns, none of which is the key. -/
theorem wrapSaveStructSQL.loop_tail (gen : Nat → GoString) (pk : GoString)
    (cs : List StructField) (vs : List GoValue) (st : SaveState)
    (hlen : vs.length = cs.length) (hne : ∀ f ∈ cs, f.Name ≠ pk) :
    wrapSaveStructSQL.loop gen pk cs vs st =
      .returned (none,
        { st with
          columns := st.columns ++ cs
          values := st.values ++ vs
          sqlBuilder := st.sqlBuilder ++ commaEach (columnNames cs)
          valueSQLBuilder := st.valueSQLBuilder ++ commaEach (placeholders cs) }) := by
  have h := wrapSaveStructSQL.loop_plain gen pk cs vs [] [] st hlen hne
  simp only [List.append_nil] at h
  rw [h]
  simp [wrapSaveStructSQL.loop]

/-- What `wrapSaveStructSQL` returns once its loop has ended without early return. -/
theorem wrapSaveStructSQL.of_loop (gen : Nat → GoString) (dbType : String)
    (typeOf : ReflectType) (entity : IEntityStruct) (columns : List StructField)
    (values : List GoValue) (pk : GoString) (st : SaveState)
    (hpk : entityPKFieldName entity typeOf = (pk, none))
    (hloop : wrapSaveStructSQL.loop gen pk columns values (wrapSaveStructSQL.start entity) =
      .returned (none, st)) :
    wrapSaveStructSQL gen dbType typeOf entity columns values =
      .returned
        { savesql := rebind dbType
            (st.sqlBuilder.dropLast ++ ")".toList ++ st.valueSQLBuilder.dropLast ++ ")".toList)
          autoIncrement := st.autoIncrement
          err := none
          columns := st.columns
          values := st.values
          entity := st.entity
          idCalls := st.idCalls } := by
  unfold wrapSaveStructSQL.start at hloop
  simp only [wrapSaveStructSQL, hpk, hloop, wrapSQL]

/-- The loop of `wrapSaveStructSQL` up to the key column, which it reaches with the
columns in front of it kept. -/
theorem wrapSaveStructSQL.loop_to_key (gen : Nat → GoString) (pk : GoString)
    (entity : IEntityStruct) (pre post : List StructField) (pkf : StructField)
    (vpre rest : List GoValue)
    (hpre : ∀ f ∈ pre, f.Name ≠ pk) (hlpre : vpre.length = pre.length) :
    wrapSaveStructSQL.loop gen pk (pre ++ pkf :: post) (vpre ++ rest)
        (wrapSaveStructSQL.start entity) =
      wrapSaveStructSQL.loop gen pk (pkf :: post) rest
        { columns := pre, values := vpre,
          sqlBuilder := "INSERT INTO ".toList ++ entity.TableName ++ "(".toList ++
            commaEach (columnNames pre),
          valueSQLBuilder := " VALUES (".toList ++ commaEach (placeholders pre),
          autoIncrement := false, entity := entity, idCalls := 0 } := by
  rw [wrapSaveStructSQL.loop_plain gen pk pre vpre (pkf :: post) rest _ hlpre hpre]
  simp [wrapSaveStructSQL.start]

theorem insert_text (table : GoString) (cols vals : List GoString)
    (hc : cols ≠ []) (hv : vals ≠ []) :
    ("INSERT INTO ".toList ++ table ++ "(".toList ++ commaEach cols).dropLast ++ ")".toList ++
        (" VALUES (".toList ++ commaEach vals).dropLast ++ ")".toList =
      insertStatement table cols vals := by
  rw [dropLast_commaEach _ cols hc, dropLast_commaEach _ vals hv]
  simp only [insertStatement, List.append_assoc]

/-- The step of the loop of `wrapSaveStructSQL` at a key column when the record has a
sequence expression. -/
theorem wrapSaveStructSQL.loop_key_sequence (gen : Nat → GoString) (pk : GoString)
    (pkf : StructField) (post : List StructField) (pkv : GoValue) (vpost : List GoValue)
    (st : SaveState) (hname : pkf.Name = pk)
    (hkind : pkf.Kind = .String ∨ pkf.Kind = .Int)
    (hseq : st.entity.PkSequence ≠ []) :
    wrapSaveStructSQL.loop gen pk (pkf :: post) (pkv :: vpost) st =
      wrapSaveStructSQL.loop gen pk post vpost
        { st with
          sqlBuilder := st.sqlBuilder ++ pkf.column ++ ",".toList
          valueSQLBuilder := st.valueSQLBuilder ++ st.entity.PkSequence ++ ",".toList } := by
  have hlen : st.entity.PkSequence.length > 0 := List.length_pos.2 hseq
  conv_lhs => unfold wrapSaveStructSQL.loop
  simp only [hname, if_true, hkind, not_true_eq_false, if_false, hlen]

/-- The step of the loop of `wrapSaveStructSQL` at a key column of an unsupported kind. -/
theorem wrapSaveStructSQL.loop_key_unsupported (gen : Nat → GoString) (pk : GoString)
    (pkf : StructField) (post : List StructField) (rest : List GoValue)
    (st : SaveState) (hname : pkf.Name = pk)
    (hs : pkf.Kind ≠ .String) (hi : pkf.Kind ≠ .Int) :
    wrapSaveStructSQL.loop gen pk (pkf :: post) rest st =
      .returned (some (.new "不支持的主键类型"),
        { st with columns := st.columns ++ pkf :: post, values := st.values ++ rest }) := by
  conv_lhs => unfold wrapSaveStructSQL.loop
  simp only [hname, if_true, hs, hi, or_self, not_false_eq_true]

/-- The step of the loop of `wrapSaveStructSQL` at a string key that is empty, without
sequence expression: an id is generated. -/
theorem wrapSaveStructSQL.loop_key_generated (gen : Nat → GoString) (pk : GoString)
    (pkf : StructField) (post : List StructField) (vpost : List GoValue)
    (st : SaveState) (hname : pkf.Name = pk) (hkind : pkf.Kind = .String)
    (hseq : st.entity.PkSequence = []) :
    wrapSaveStructSQL.loop gen pk (pkf :: post) (.str [] :: vpost) st =
      wrapSaveStructSQL.loop gen pk post vpost
        { st with
          columns := st.columns ++ [pkf]
          values := st.values ++ [.str (gen st.idCalls)]
          sqlBuilder := st.sqlBuilder ++ pkf.column ++ ",".toList
          valueSQLBuilder := st.valueSQLBuilder ++ "?,".toList
          idCalls := st.idCalls + 1
          entity := { st.entity with
            fields := setField st.entity.fields pkf.Name (.str (gen st.idCalls)) } } := by
  conv_lhs => unfold wrapSaveStructSQL.loop
  simp [hname, hkind, hseq]

/-- The step of the loop of `wrapSaveStructSQL` at an int key that is 0, without sequence
expression: the column is dropped and the statement is flagged auto-increment. -/
theorem wrapSaveStructSQL.loop_key_auto (gen : Nat → GoString) (pk : GoString)
    (pkf : StructField) (post : List StructField) (vpost : List GoValue)
    (st : SaveState) (hname : pkf.Name = pk) (hkind : pkf.Kind = .Int)
    (hseq : st.entity.PkSequence = []) :
    wrapSaveStructSQL.loop gen pk (pkf :: post) (.int 0 :: vpost) st =
      wrapSaveStructSQL.loop gen pk post vpost { st with autoIncrement := true } := by
  conv_lhs => unfold wrapSaveStructSQL.loop
  simp [hname, hkind, hseq]

/-- The step of the loop of `wrapSaveStructSQL` at a key that has a value (a string that
is not empty, an int that is not 0), without sequence expression: the key is kept as an
ordinary column. -/
theorem wrapSaveStructSQL.loop_key_kept (gen : Nat → GoString) (pk : GoString)
    (pkf : StructField) (post : List StructField) (pkv : GoValue) (vpost : List GoValue)
    (st : SaveState) (hname : pkf.Name = pk)
    (htyped : (pkf.Kind = .String ∧ ∃ s, s ≠ [] ∧ pkv = .str s) ∨
      (pkf.Kind = .Int ∧ ∃ n, n ≠ 0 ∧ pkv = .int n))
    (hseq : st.entity.PkSequence = []) :
    wrapSaveStructSQL.loop gen pk (pkf :: post) (pkv :: vpost) st =
      wrapSaveStructSQL.loop gen pk post vpost
        { st with
          columns := st.columns ++ [pkf]
          values := st.values ++ [pkv]
          sqlBuilder := st.sqlBuilder ++ pkf.column ++ ",".toList
          valueSQLBuilder := st.valueSQLBuilder ++ "?,".toList } := by
  conv_lhs => unfold wrapSaveStructSQL.loop
  rcases htyped with ⟨hk, s, hs, rfl⟩ | ⟨hk, n, hn, rfl⟩
  · simp [hname, hk, hseq, hs]
  · simp [hname, hk, hseq, hn]

theorem columnNames_text (table : GoString) (pre post : List StructField)
    (pkf : StructField) :
    "INSERT INTO ".toList ++ table ++ "(".toList ++ commaEach (columnNames pre) ++
        pkf.column ++ ",".toList ++ commaEach (columnNames post) =
      "INSERT INTO ".toList ++ table ++ "(".toList ++
        commaEach (columnNames (pre ++ pkf :: post)) := by
  simp [columnNames, commaEach_append, commaEach, List.append_assoc]

theorem placeholders_text (pre post : List StructField) (pkf : StructField) :
    " VALUES (".toList ++ commaEach (placeholders pre) ++ "?,".toList ++
        commaEach (placeholders post) =
      " VALUES (".toList ++ commaEach (placeholders (pre ++ pkf :: post)) := by
  simp [placeholders, commaEach_append, commaEach, List.append_assoc]

/-- What `wrapSaveStructSQL` returns for a record with a sequence expression. -/
theorem wrapSaveStructSQL.sequence_result (gen : Nat → GoString) (dbType : String)
    (typeOf : ReflectType) (entity : IEntityStruct) (pk : GoString)
    (pre post : List StructField) (pkf : StructField)
    (vpre vpost : List GoValue) (pkv : GoValue)
    (hpk : entityPKFieldName entity typeOf = (pk, none))
    (hname : pkf.Name = pk)
    (hpre : ∀ f ∈ pre, f.Name ≠ pk) (hpost : ∀ f ∈ post, f.Name ≠ pk)
    (hlpre : vpre.length = pre.length) (hlpost : vpost.length = post.length)
    (hkind : pkf.Kind = .String ∨ pkf.Kind = .Int)
    (hseq : entity.PkSequence ≠ []) :
    wrapSaveStructSQL gen dbType typeOf entity (pre ++ pkf :: post) (vpre ++ pkv :: vpost) =
      .returned
        { savesql := rebind dbType
            (insertStatement entity.TableName (columnNames (pre ++ pkf :: post))
              (placeholders pre ++ entity.PkSequence :: placeholders post))
          autoIncrement := false
          err := none
          columns := pre ++ post
          values := vpre ++ vpost
          entity := entity
          idCalls := 0 } := by
  have hloop := wrapSaveStructSQL.loop_to_key gen pk entity pre post pkf vpre (pkv :: vpost)
    hpre hlpre
  rw [wrapSaveStructSQL.loop_key_sequence gen pk pkf post pkv vpost _ hname hkind hseq,
    wrapSaveStructSQL.loop_tail gen pk post vpost _ hlpost hpost] at hloop
  rw [wrapSaveStructSQL.of_loop gen dbType typeOf entity _ _ pk _ hpk hloop]
  simp only [Ran.returned.injEq, SaveResult.mk.injEq, and_true]
  congr 1
  have h2 : " VALUES (".toList ++ commaEach (placeholders pre) ++ entity.PkSequence ++
      ",".toList ++ commaEach (placeholders post) =
      " VALUES (".toList ++
        commaEach (placeholders pre ++ entity.PkSequence :: placeholders post) := by
    simp [commaEach_append, commaEach, List.append_assoc]
  rw [columnNames_text, h2]
  exact insert_text _ _ _ (by simp [columnNames]) (by simp)

/-- C15: for every record with a non-empty sequence expression and a key field of kind
string or int, whatever the value of the key: `wrapSaveStructSQL` returns the INSERT
statement (rebound for the dialect) whose column list holds every column, the key
column at its place, and whose VALUES list holds the text of the sequence expression at
the position of the key and `?` elsewhere; the key is removed from `*columns` and its
value from `*values`, no id is generated, the record is unchanged and autoIncrement is
false. -/
theorem C15_sequence_replaces_placeholder (gen : Nat → GoString) (dbType : String)
    (typeOf : ReflectType) (entity : IEntityStruct) (pk : GoString)
    (pre post : List StructField) (pkf : StructField)
    (vpre vpost : List GoValue) (pkv : GoValue)
    (hpk : entityPKFieldName entity typeOf = (pk, none))
    (hname : pkf.Name = pk)
    (hpre : ∀ f ∈ pre, f.Name ≠ pk) (hpost : ∀ f ∈ post, f.Name ≠ pk)
    (hlpre : vpre.length = pre.length) (hlpost : vpost.length = post.length)
    (hkind : pkf.Kind = .String ∨ pkf.Kind = .Int)
    (hseq : entity.PkSequence ≠ []) :
    wrapSaveStructSQL gen dbType typeOf entity (pre ++ pkf :: post) (vpre ++ pkv :: vpost) =
      .returned
        { savesql := rebind dbType
            (insertStatement entity.TableName (columnNames (pre ++ pkf :: post))
              (placeholders pre ++ entity.PkSequence :: placeholders post))
          autoIncrement := false
          err := none
          columns := pre ++ post
          values := vpre ++ vpost
          entity := entity
          idCalls := 0 } :=
  wrapSaveStructSQL.sequence_result gen dbType typeOf entity pk pre post pkf vpre vpost pkv
    hpk hname hpre hpost hlpre hlpost hkind hseq

/-- Witness of C15: the sample record with the sequence `seq.nextval`, its key `id`
between the columns `name` and `age`, for oracle. -/
theorem C15_sequence_replaces_placeholder_witness :
    wrapSaveStructSQL (fun _ => "uuid".toList) "oracle" userType
        { userRecord with PkSequence := "seq.nextval".toList }
        [nameField, idField, ageField] [.str "a".toList, .int 7, .int 31] =
      .returned
        { savesql := "INSERT INTO t_user(name,id,age) VALUES (:1,seq.nextval,:2)".toList
          autoIncrement := false
          err := none
          columns := [nameField, ageField]
          values := [.str "a".toList, .int 31]
          entity := { userRecord with PkSequence := "seq.nextval".toList }
          idCalls := 0 } :=
  (C15_sequence_replaces_placeholder (fun _ => "uuid".toList) "oracle" userType
    { userRecord with PkSequence := "seq.nextval".toList } "Id".toList
    [nameField] [ageField] idField [.str "a".toList] [.int 31] (.int 7)
    rfl rfl (by decide) (by decide) rfl rfl (Or.inr rfl) (by decide)).trans (by decide)

/-- What `wrapSaveStructSQL` returns for a record without sequence expression whose key
is an int of value 0; the statement is given as the code cuts and joins it. -/
theorem wrapSaveStructSQL.auto_result (gen : Nat → GoString) (dbType : String)
    (typeOf : ReflectType) (entity : IEntityStruct) (pk : GoString)
    (pre post : List StructField) (pkf : StructField)
    (vpre vpost : List GoValue)
    (hpk : entityPKFieldName entity typeOf = (pk, none))
    (hname : pkf.Name = pk)
    (hpre : ∀ f ∈ pre, f.Name ≠ pk) (hpost : ∀ f ∈ post, f.Name ≠ pk)
    (hlpre : vpre.length = pre.length) (hlpost : vpost.length = post.length)
    (hkind : pkf.Kind = .Int) (hseq : entity.PkSequence = []) :
    wrapSaveStructSQL gen dbType typeOf entity (pre ++ pkf :: post)
        (vpre ++ .int 0 :: vpost) =
      .returned
        { savesql := rebind dbType
            (("INSERT INTO ".toList ++ entity.TableName ++ "(".toList ++
                commaEach (columnNames (pre ++ post))).dropLast ++ ")".toList ++
              (" VALUES (".toList ++ commaEach (placeholders (pre ++ post))).dropLast ++
              ")".toList)
          autoIncrement := true
          err := none
          columns := pre ++ post
          values := vpre ++ vpost
          entity := entity
          idCalls := 0 } := by
  have hloop := wrapSaveStructSQL.loop_to_key gen pk entity pre post pkf vpre (.int 0 :: vpost)
    hpre hlpre
  rw [wrapSaveStructSQL.loop_key_auto gen pk pkf post vpost _ hname hkind hseq,
    wrapSaveStructSQL.loop_tail gen pk post vpost _ hlpost hpost] at hloop
  rw [wrapSaveStructSQL.of_loop gen dbType typeOf entity _ _ pk _ hpk hloop]
  have h1 : commaEach (columnNames (pre ++ post)) =
      commaEach (columnNames pre) ++ commaEach (columnNames post) := by
    simp only [columnNames, List.map_append, commaEach_append]
  have h2 : commaEach (placeholders (pre ++ post)) =
      commaEach (placeholders pre) ++ commaEach (placeholders post) := by
    simp only [placeholders, List.map_append, commaEach_append]
  rw [h1, h2]
  simp only [List.append_assoc]

/-- What `wrapSaveStructSQL` returns for a record without sequence expression whose key
is an empty string. -/
theorem wrapSaveStructSQL.generated_result (gen : Nat → GoString) (dbType : String)
    (typeOf : ReflectType) (entity : IEntityStruct) (pk : GoString)
    (pre post : List StructField) (pkf : StructField)
    (vpre vpost : List GoValue)
    (hpk : entityPKFieldName entity typeOf = (pk, none))
    (hname : pkf.Name = pk)
    (hpre : ∀ f ∈ pre, f.Name ≠ pk) (hpost : ∀ f ∈ post, f.Name ≠ pk)
    (hlpre : vpre.length = pre.length) (hlpost : vpost.length = post.length)
    (hkind : pkf.Kind = .String) (hseq : entity.PkSequence = []) :
    wrapSaveStructSQL gen dbType typeOf entity (pre ++ pkf :: post)
        (vpre ++ .str [] :: vpost) =
      .returned
        { savesql := rebind dbType
            (insertStatement entity.TableName (columnNames (pre ++ pkf :: post))
              (placeholders (pre ++ pkf :: post)))
          autoIncrement := false
          err := none
          columns := pre ++ pkf :: post
          values := vpre ++ .str (gen 0) :: vpost
          entity := { entity with fields := setField entity.fields pkf.Name (.str (gen 0)) }
          idCalls := 1 } := by
  have hloop := wrapSaveStructSQL.loop_to_key gen pk entity pre post pkf vpre (.str [] :: vpost)
    hpre hlpre
  rw [wrapSaveStructSQL.loop_key_generated gen pk pkf post vpost _ hname hkind hseq,
    wrapSaveStructSQL.loop_tail gen pk post vpost _ hlpost hpost] at hloop
  rw [wrapSaveStructSQL.of_loop gen dbType typeOf entity _ _ pk _ hpk hloop]
  simp only [Ran.returned.injEq, SaveResult.mk.injEq, and_true, List.append_assoc,
    List.singleton_append, true_and]
  congr 1
  have h1 := columnNames_text entity.TableName pre post pkf
  have h2 := placeholders_text pre post pkf
  simp only [List.append_assoc] at h1 h2
  rw [h1, h2]
  have h3 := insert_text entity.TableName (columnNames (pre ++ pkf :: post))
    (placeholders (pre ++ pkf :: post)) (by simp [columnNames]) (by simp [placeholders])
  simp only [List.append_assoc] at h3
  exact h3

/-- What `wrapSaveStructSQL` returns for a record without sequence expression whose key
has a value. -/
theorem wrapSaveStructSQL.kept_result (gen : Nat → GoString) (dbType : String)
    (typeOf : ReflectType) (entity : IEntityStruct) (pk : GoString)
    (pre post : List StructField) (pkf : StructField)
    (vpre vpost : List GoValue) (pkv : GoValue)
    (hpk : entityPKFieldName entity typeOf = (pk, none))
    (hname : pkf.Name = pk)
    (hpre : ∀ f ∈ pre, f.Name ≠ pk) (hpost : ∀ f ∈ post, f.Name ≠ pk)
    (hlpre : vpre.length = pre.length) (hlpost : vpost.length = post.length)
    (htyped : (pkf.Kind = .String ∧ ∃ s, s ≠ [] ∧ pkv = .str s) ∨
      (pkf.Kind = .Int ∧ ∃ n, n ≠ 0 ∧ pkv = .int n))
    (hseq : entity.PkSequence = []) :
    wrapSaveStructSQL gen dbType typeOf entity (pre ++ pkf :: post)
        (vpre ++ pkv :: vpost) =
      .returned
        { savesql := rebind dbType
            (insertStatement entity.TableName (columnNames (pre ++ pkf :: post))
              (placeholders (pre ++ pkf :: post)))
          autoIncrement := false
          err := none
          columns := pre ++ pkf :: post
          values := vpre ++ pkv :: vpost
          entity := entity
          idCalls := 0 } := by
  have hloop := wrapSaveStructSQL.loop_to_key gen pk entity pre post pkf vpre (pkv :: vpost)
    hpre hlpre
  rw [wrapSaveStructSQL.loop_key_kept gen pk pkf post pkv vpost _ hname htyped hseq,
    wrapSaveStructSQL.loop_tail gen pk post vpost _ hlpost hpost] at hloop
  rw [wrapSaveStructSQL.of_loop gen dbType typeOf entity _ _ pk _ hpk hloop]
  simp only [Ran.returned.injEq, SaveResult.mk.injEq, and_true, List.append_assoc,
    List.singleton_append, true_and]
  have h1 := columnNames_text entity.TableName pre post pkf
  have h2 := placeholders_text pre post pkf
  simp only [List.append_assoc] at h1 h2
  rw [h1, h2]
  have h3 := insert_text entity.TableName (columnNames (pre ++ pkf :: post))
    (placeholders (pre ++ pkf :: post)) (by simp [columnNames]) (by simp [placeholders])
  simp only [List.append_assoc] at h3
  rw [h3]

/-- For every record whose key field, of kind string or int, holds a value of exactly
the type `string` or `int`: `wrapSaveStructSQL` returns without error, and autoIncrement is true exactly when
the record has no sequence expression and its key is the int 0. In that case the key is
removed from `*columns` and its value from `*values`, every other pair is kept, and the
INSERT statement lists the other columns only. When the record has no sequence
expression and the key has a value (an int other than 0, a string other than the empty
one), the key stays in `*columns` and `*values` and is sent as an ordinary `?`. -/
theorem wrapSaveStructSQL.auto_increment_typed (gen : Nat → GoString) (dbType : String)
    (typeOf : ReflectType) (entity : IEntityStruct) (pk : GoString)
    (pre post : List StructField) (pkf : StructField)
    (vpre vpost : List GoValue) (pkv : GoValue)
    (hpk : entityPKFieldName entity typeOf = (pk, none))
    (hname : pkf.Name = pk)
    (hpre : ∀ f ∈ pre, f.Name ≠ pk) (hpost : ∀ f ∈ post, f.Name ≠ pk)
    (hlpre : vpre.length = pre.length) (hlpost : vpost.length = post.length)
    (htyped : (pkf.Kind = .String ∧ ∃ s, pkv = .str s) ∨
      (pkf.Kind = .Int ∧ ∃ n, pkv = .int n)) :
    ∃ res,
      wrapSaveStructSQL gen dbType typeOf entity (pre ++ pkf :: post)
        (vpre ++ pkv :: vpost) = .returned res ∧
      res.err = none ∧
      (res.autoIncrement = true ↔
        (entity.PkSequence = [] ∧ pkf.Kind = .Int ∧ pkv = .int 0)) ∧
      ((entity.PkSequence = [] ∧ pkf.Kind = .Int ∧ pkv = .int 0) →
        res.columns = pre ++ post ∧ res.values = vpre ++ vpost ∧
        (pre ++ post ≠ [] →
          res.savesql = rebind dbType
            (insertStatement entity.TableName (columnNames (pre ++ post))
              (placeholders (pre ++ post))))) ∧
      (entity.PkSequence = [] → pkv ≠ .int 0 → pkv ≠ .str [] →
        res.columns = pre ++ pkf :: post ∧ res.values = vpre ++ pkv :: vpost ∧
        res.savesql = rebind dbType
          (insertStatement entity.TableName (columnNames (pre ++ pkf :: post))
            (placeholders (pre ++ pkf :: post)))) := by
  by_cases hseq : entity.PkSequence = []
  · rcases htyped with ⟨hk, s, rfl⟩ | ⟨hk, n, rfl⟩
    · by_cases hs : s = []
      · subst hs
        refine ⟨_, wrapSaveStructSQL.generated_result gen dbType typeOf entity pk pre post pkf
          vpre vpost hpk hname hpre hpost hlpre hlpost hk hseq, rfl, ?_, ?_, ?_⟩
        · simp [hk]
        · rintro ⟨-, -, h⟩
          cases h
        · intro _ _ h
          exact absurd rfl h
      · refine ⟨_, wrapSaveStructSQL.kept_result gen dbType typeOf entity pk pre post pkf
          vpre vpost (.str s) hpk hname hpre hpost hlpre hlpost
          (Or.inl ⟨hk, s, hs, rfl⟩) hseq, rfl, ?_, ?_, ?_⟩
        · simp [hk]
        · rintro ⟨-, -, h⟩
          cases h
        · intro _ _ _
          exact ⟨rfl, rfl, rfl⟩
    · by_cases hn : n = 0
      · subst hn
        refine ⟨_, wrapSaveStructSQL.auto_result gen dbType typeOf entity pk pre post pkf
          vpre vpost hpk hname hpre hpost hlpre hlpost hk hseq, rfl, ?_, ?_, ?_⟩
        · simp [hk, hseq]
        · intro _
          refine ⟨rfl, rfl, ?_⟩
          intro hne
          have hc : columnNames (pre ++ post) ≠ [] := by simpa [columnNames] using hne
          have hv : placeholders (pre ++ post) ≠ [] := by simpa [placeholders] using hne
          have h3 := insert_text entity.TableName _ _ hc hv
          simp only [List.append_assoc] at h3 ⊢
          rw [h3]
        · intro _ h _
          exact absurd rfl h
      · refine ⟨_, wrapSaveStructSQL.kept_result gen dbType typeOf entity pk pre post pkf
          vpre vpost (.int n) hpk hname hpre hpost hlpre hlpost
          (Or.inr ⟨hk, n, hn, rfl⟩) hseq, rfl, ?_, ?_, ?_⟩
        · simp [hn]
        · rintro ⟨-, -, h⟩
          simp only [GoValue.int.injEq] at h
          exact absurd h hn
        · intro _ _ _
          exact ⟨rfl, rfl, rfl⟩
  · have hkind : pkf.Kind = .String ∨ pkf.Kind = .Int := by
      rcases htyped with ⟨hk, -⟩ | ⟨hk, -⟩
      · exact Or.inl hk
      · exact Or.inr hk
    refine ⟨_, wrapSaveStructSQL.sequence_result gen dbType typeOf entity pk pre post pkf
      vpre vpost pkv hpk hname hpre hpost hlpre hlpost hkind hseq, rfl, ?_, ?_, ?_⟩
    · simp [hseq]
    · rintro ⟨h, -, -⟩
      exact absurd h hseq
    · intro h _ _
      exact absurd h hseq

/-- Example: the sample record saved with the key 0: the statement is flagged
auto-increment, the key is dropped and the other pairs are kept. -/
theorem wrapSaveStructSQL.auto_increment_typed_example :
    ∃ res,
      wrapSaveStructSQL (fun _ => "uuid".toList) "mysql" userType userRecord
        [idField, nameField, ageField] [.int 0, .str "a".toList, .int 31] = .returned res ∧
      res.err = none ∧ res.autoIncrement = true ∧
      res.columns = [nameField, ageField] ∧
      res.values = [.str "a".toList, .int 31] ∧
      res.savesql = "INSERT INTO t_user(name,age) VALUES (?,?)".toList := by
  obtain ⟨res, hres, herr, hiff, hauto, -⟩ :=
    wrapSaveStructSQL.auto_increment_typed (fun _ => "uuid".toList) "mysql" userType userRecord "Id".toList
      [] [nameField, ageField] idField [] [.str "a".toList, .int 31] (.int 0)
      rfl rfl (by decide) (by decide) rfl rfl (Or.inr ⟨rfl, 0, rfl⟩)
  have hc := hauto ⟨rfl, rfl, rfl⟩
  exact ⟨res, hres, herr, hiff.2 ⟨rfl, rfl, rfl⟩, hc.1, hc.2.1,
    (hc.2.2 (by decide)).trans (by decide)⟩

/-- For every record without sequence expression whose key is of kind string and holds
the empty `string`: `wrapSaveStructSQL` calls `FuncGenerateStringID` once and writes the id it got
both into `*values` at the position of the key and into the key field of the record; the
key column stays in `*columns` and in the statement, with a `?`, and autoIncrement is
false. -/
theorem wrapSaveStructSQL.generated_id_typed (gen : Nat → GoString) (dbType : String)
    (typeOf : ReflectType) (entity : IEntityStruct) (pk : GoString)
    (pre post : List StructField) (pkf : StructField)
    (vpre vpost : List GoValue)
    (hpk : entityPKFieldName entity typeOf = (pk, none))
    (hname : pkf.Name = pk)
    (hpre : ∀ f ∈ pre, f.Name ≠ pk) (hpost : ∀ f ∈ post, f.Name ≠ pk)
    (hlpre : vpre.length = pre.length) (hlpost : vpost.length = post.length)
    (hkind : pkf.Kind = .String) (hseq : entity.PkSequence = []) :
    wrapSaveStructSQL gen dbType typeOf entity (pre ++ pkf :: post)
        (vpre ++ .str [] :: vpost) =
      .returned
        { savesql := rebind dbType
            (insertStatement entity.TableName (columnNames (pre ++ pkf :: post))
              (placeholders (pre ++ pkf :: post)))
          autoIncrement := false
          err := none
          columns := pre ++ pkf :: post
          values := vpre ++ .str (gen 0) :: vpost
          entity := { entity with fields := setField entity.fields pkf.Name (.str (gen 0)) }
          idCalls := 1 } :=
  wrapSaveStructSQL.generated_result gen dbType typeOf entity pk pre post pkf vpre vpost
    hpk hname hpre hpost hlpre hlpost hkind hseq

/-- Example: the record with the empty string key `code`, saved with a generator
that returns `uuid-1`. -/
theorem wrapSaveStructSQL.generated_id_typed_example :
    wrapSaveStructSQL (fun _ => "uuid-1".toList) "postgresql" tagType tagRecord
        [codeField, labelField] [.str [], .str "x".toList] =
      .returned
        { savesql := "INSERT INTO t_tag(code,label) VALUES ($1,$2)".toList
          autoIncrement := false
          err := none
          columns := [codeField, labelField]
          values := [.str "uuid-1".toList, .str "x".toList]
          entity := { tagRecord with
            fields := [("Code".toList, .str "uuid-1".toList),
              ("Label".toList, .str "x".toList)] }
          idCalls := 1 } :=
  (wrapSaveStructSQL.generated_id_typed (fun _ => "uuid-1".toList) "postgresql" tagType
    tagRecord "Code".toList [] [labelField] codeField [] [.str "x".toList]
    rfl rfl (by decide) (by decide) rfl rfl rfl rfl).trans (by decide)

/-- The loop of `wrapSaveStructSQL` returns early with an error only at a key column of
a kind other than string and int. -/
theorem wrapSaveStructSQL.loop_error (gen : Nat → GoString) (pk : GoString)
    (cols : List StructField) :
    ∀ (vals : List GoValue) (st : SaveState) (e : GoError) (st1 : SaveState),
      wrapSaveStructSQL.loop gen pk cols vals st = .returned (some e, st1) →
      ∃ f ∈ cols, f.Name = pk ∧ ¬ (f.Kind = .String ∨ f.Kind = .Int) := by
  induction cols with
  | nil =>
    intro vals st e st1 h
    simp [wrapSaveStructSQL.loop] at h
  | cons c cs ih =>
    intro vals st e st1 h
    have hrec : ∀ (vals : List GoValue) (st : SaveState),
        wrapSaveStructSQL.loop gen pk cs vals st = .returned (some e, st1) →
        ∃ f ∈ c :: cs, f.Name = pk ∧ ¬ (f.Kind = .String ∨ f.Kind = .Int) := by
      intro vals st h
      obtain ⟨f, hf, hp⟩ := ih vals st e st1 h
      exact ⟨f, List.mem_cons_of_mem _ hf, hp⟩
    unfold wrapSaveStructSQL.loop at h
    simp only at h
    by_cases hname : c.Name = pk
    · by_cases hkind : c.Kind = .String ∨ c.Kind = .Int
      · simp only [hname, if_true, hkind, not_true_eq_false, if_false] at h
        cases vals with
        | nil => simp at h
        | cons v vs =>
          simp only at h
          split_ifs at h
          · exact hrec _ _ h
          · split at h
            · split_ifs at h
              · exact hrec _ _ h
              · exact hrec _ _ h
            · cases h
          · split at h
            · split_ifs at h
              · exact hrec _ _ h
              · exact hrec _ _ h
            · cases h
      · exact ⟨c, List.mem_cons_self _ _, hname, hkind⟩
    · simp only [hname, if_false] at h
      exact hrec _ _ h

/-- C18: when the key field of a record has a kind other than string and int,
`wrapSaveStructSQL` returns the unsupported-key-type error with an empty statement,
whatever the values are (the value of the key may even be missing) and whether or not a
sequence expression is declared; and when every key field among the columns is of kind
string or int, `wrapSaveStructSQL` never returns an error. -/
theorem C18_unsupported_key_kind (gen : Nat → GoString) (dbType : String)
    (typeOf : ReflectType) (entity : IEntityStruct) (pk : GoString)
    (hpk : entityPKFieldName entity typeOf = (pk, none)) :
    (∀ (pre post : List StructField) (pkf : StructField) (vpre rest : List GoValue),
      pkf.Name = pk → (∀ f ∈ pre, f.Name ≠ pk) → vpre.length = pre.length →
      pkf.Kind ≠ .String → pkf.Kind ≠ .Int →
      wrapSaveStructSQL gen dbType typeOf entity (pre ++ pkf :: post) (vpre ++ rest) =
        .returned
          { savesql := []
            autoIncrement := false
            err := some (.new "不支持的主键类型")
            columns := pre ++ pkf :: post
            values := vpre ++ rest
            entity := entity
            idCalls := 0 }) ∧
    (∀ (columns : List StructField) (values : List GoValue) (res : SaveResult),
      (∀ f ∈ columns, f.Name = pk → f.Kind = .String ∨ f.Kind = .Int) →
      wrapSaveStructSQL gen dbType typeOf entity columns values = .returned res →
      res.err = none) := by
  constructor
  · intro pre post pkf vpre rest hname hpre hlpre hs hi
    have hloop := wrapSaveStructSQL.loop_to_key gen pk entity pre post pkf vpre rest hpre hlpre
    rw [wrapSaveStructSQL.loop_key_unsupported gen pk pkf post rest _ hname hs hi] at hloop
    unfold wrapSaveStructSQL.start at hloop
    simp only [wrapSaveStructSQL, hpk, hloop]
  · intro columns values res hcols h
    unfold wrapSaveStructSQL at h
    simp only [hpk] at h
    split at h
    · cases h
    · rename_i err st hl
      obtain ⟨f, hf, hn, hk⟩ := wrapSaveStructSQL.loop_error gen pk columns values _ err st hl
      exact absurd (hcols f hf hn) hk
    · simp only [wrapSQL, Ran.returned.injEq] at h
      rw [← h]

/-- Witness of C18: a record whose key `id` is an int64, with a sequence expression
declared, is refused; the sample record with its int key is saved without error. -/
theorem C18_unsupported_key_kind_witness :
    wrapSaveStructSQL (fun _ => "uuid".toList) "mysql" bigType
        { userRecord with PkSequence := "seq.nextval".toList }
        [nameField, bigIdField] [.str "a".toList, .other .Int64 false 7] =
      .returned
        { savesql := []
          autoIncrement := false
          err := some (.new "不支持的主键类型")
          columns := [nameField, bigIdField]
          values := [.str "a".toList, .other .Int64 false 7]
          entity := { userRecord with PkSequence := "seq.nextval".toList }
          idCalls := 0 } :=
  (C18_unsupported_key_kind (fun _ => "uuid".toList) "mysql" bigType
    { userRecord with PkSequence := "seq.nextval".toList } "Id".toList rfl).1
    [nameField] [] bigIdField [.str "a".toList] [.other .Int64 false 7]
    rfl (by decide) rfl (by decide) (by decide)

theorem keptPairs_cons (m : Bool) (c : StructField) (v : GoValue)
    (cs : List StructField) (vs : List GoValue) :
    keptPairs m (c :: cs) (v :: vs) =
      (if m = true ∧ v.IsZero ≠ some false then [] else [(c, v)]) ++ keptPairs m cs vs := by
  unfold keptPairs nonZeroPairs
  cases m with
  | false => simp
  | true =>
    by_cases h : v.IsZero = some false
    · simp [List.filter_cons, h]
    · simp [List.filter_cons, h]

theorem keptPairs_append (m : Bool) (cs1 : List StructField) :
    ∀ (vs1 : List GoValue) (cs2 : List StructField) (vs2 : List GoValue),
      vs1.length = cs1.length →
      keptPairs m (cs1 ++ cs2) (vs1 ++ vs2) = keptPairs m cs1 vs1 ++ keptPairs m cs2 vs2 := by
  induction cs1 with
  | nil =>
    intro vs1 cs2 vs2 h
    have : vs1 = [] := List.length_eq_zero.1 h
    subst this
    simp [keptPairs, nonZeroPairs]
  | cons c cs ih =>
    intro vs1 cs2 vs2 h
    cases vs1 with
    | nil => simp at h
    | cons v vs =>
      simp only [List.cons_append, keptPairs_cons, List.append_assoc]
      rw [ih vs cs2 vs2 (by simpa using h)]

/-- The loop of `wrapUpdateStructSQL` over columns that are not the key (for a partial
update, none of their values being the `nil` interface): the kept pairs are kept and
their items `column=?,` written. -/
theorem wrapUpdateStructSQL.update_loop_plain (pk : GoString) (m : Bool) (cs : List StructField) :
    ∀ (vs : List GoValue) (R : List StructField) (RV : List GoValue) (st : UpdateState),
      vs.length = cs.length → (∀ f ∈ cs, f.Name ≠ pk) →
      (m = true → ∀ v ∈ vs, v ≠ .nil) →
      wrapUpdateStructSQL.loop pk m (cs ++ R) (vs ++ RV) st =
        wrapUpdateStructSQL.loop pk m R RV
          { st with
            columns := st.columns ++ (keptPairs m cs vs).map Prod.fst
            values := st.values ++ (keptPairs m cs vs).map Prod.snd
            sqlBuilder := st.sqlBuilder ++ commaEach (setItems (keptPairs m cs vs)) } := by
  induction cs with
  | nil =>
    intro vs R RV st hlen _ _
    have : vs = [] := List.length_eq_zero.1 hlen
    subst this
    simp [keptPairs, nonZeroPairs, setItems, commaEach]
  | cons c cs ih =>
    intro vs R RV st hlen hne hnil
    cases vs with
    | nil => simp at hlen
    | cons v vs =>
      have hc : c.Name ≠ pk := hne c (List.mem_cons_self _ _)
      have hlen1 : vs.length = cs.length := by simpa using hlen
      have hne1 : ∀ f ∈ cs, f.Name ≠ pk := fun f hf => hne f (List.mem_cons_of_mem _ hf)
      have hnil1 : m = true → ∀ x ∈ vs, x ≠ .nil :=
        fun hm x hx => hnil hm x (List.mem_cons_of_mem _ hx)
      rw [List.cons_append, List.cons_append]
      conv_lhs => unfold wrapUpdateStructSQL.loop
      simp only [if_neg hc, List.head?_cons, List.tail_cons, Option.toList]
      have hk := keptPairs_cons m c v cs vs
      cases m with
      | false =>
        simp only [Bool.false_eq_true, if_false, false_and] at hk ⊢
        rw [ih vs R RV _ hlen1 hne1 hnil1, hk]
        simp [setItems, commaEach, List.append_assoc]
      | true =>
        simp only [if_true, true_and] at hk ⊢
        have hv : v ≠ .nil := hnil rfl v (List.mem_cons_self _ _)
        cases hz : v.IsZero with
        | none =>
          cases v with
          | nil => exact absurd rfl hv
          | int i => simp [GoValue.IsZero] at hz
          | str s => simp [GoValue.IsZero] at hz
          | other k z i => simp [GoValue.IsZero] at hz
        | some z =>
          cases z with
          | true =>
            simp only [hz] at hk ⊢
            rw [ih vs R RV _ hlen1 hne1 hnil1, hk]
            simp
          | false =>
            simp only [hz] at hk ⊢
            rw [ih vs R RV _ hlen1 hne1 hnil1, hk]
            simp [setItems, commaEach, List.append_assoc]

/-- What `wrapUpdateStructSQL` returns for a record whose key field is among the
columns: the kept pairs without the key, the value of the key added at the end of the
values; the statement is given as the code cuts and joins it. -/
theorem wrapUpdateStructSQL.result (dbType : String) (typeOf : ReflectType)
    (entity : IEntityStruct) (pk : GoString) (m : Bool)
    (pre post : List StructField) (pkf : StructField)
    (vpre vpost : List GoValue) (pkv : GoValue)
    (hpk : entityPKFieldName entity typeOf = (pk, none))
    (hname : pkf.Name = pk)
    (hpre : ∀ f ∈ pre, f.Name ≠ pk) (hpost : ∀ f ∈ post, f.Name ≠ pk)
    (hlpre : vpre.length = pre.length) (hlpost : vpost.length = post.length)
    (hnil : m = true → ∀ v ∈ vpre ++ vpost, v ≠ .nil) :
    wrapUpdateStructSQL dbType typeOf entity (pre ++ pkf :: post) (vpre ++ pkv :: vpost) m =
      .returned
        { sqlstr := rebind dbType
            (("UPDATE ".toList ++ entity.TableName ++ " SET ".toList ++
                commaEach (setItems (keptPairs m (pre ++ post) (vpre ++ vpost)))).dropLast ++
              " WHERE ".toList ++ entity.PKColumnName ++ "=?".toList)
          err := none
          columns := (keptPairs m (pre ++ post) (vpre ++ vpost)).map Prod.fst
          values := (keptPairs m (pre ++ post) (vpre ++ vpost)).map Prod.snd ++ [pkv] } := by
  have hnpre : m = true → ∀ v ∈ vpre, v ≠ .nil :=
    fun hm v hv => hnil hm v (List.mem_append_left _ hv)
  have hnpost : m = true → ∀ v ∈ vpost, v ≠ .nil :=
    fun hm v hv => hnil hm v (List.mem_append_right _ hv)
  have h1 := wrapUpdateStructSQL.update_loop_plain pk m pre vpre (pkf :: post) (pkv :: vpost)
    (wrapUpdateStructSQL.start entity) hlpre hpre hnpre
  have h2 : ∀ st, wrapUpdateStructSQL.loop pk m (pkf :: post) (pkv :: vpost) st =
      wrapUpdateStructSQL.loop pk m post vpost { st with pkValue := some pkv } := by
    intro st
    conv_lhs => unfold wrapUpdateStructSQL.loop
    simp only [hname, if_true]
  have h3 := fun st => wrapUpdateStructSQL.update_loop_plain pk m post vpost [] [] st hlpost hpost hnpost
  simp only [List.append_nil] at h3
  rw [h2, h3] at h1
  unfold wrapUpdateStructSQL.start at h1
  simp only [wrapUpdateStructSQL.loop, List.append_nil, List.nil_append] at h1
  unfold wrapUpdateStructSQL
  simp only [hpk]
  rw [h1]
  simp only [wrapSQL, Option.getD_some,
    keptPairs_append m pre vpre post vpost hlpre, setItems, List.map_append, commaEach_append,
    List.append_assoc]

theorem update_text (table pk : GoString) (items : List GoString) (h : items ≠ []) :
    ("UPDATE ".toList ++ table ++ " SET ".toList ++ commaEach items).dropLast ++
        " WHERE ".toList ++ pk ++ "=?".toList =
      "UPDATE ".toList ++ table ++ " SET ".toList ++ commaList items ++ " WHERE ".toList ++
        pk ++ "=?".toList := by
  rw [dropLast_commaEach _ items h]

/-- C19: for every record whose columns other than the key are c1..cn, n at least 1, the
full update builder returns, with a nil error, the statement
`UPDATE table SET c1=?,...,cn=? WHERE pk=?` rebound for the dialect; `*columns` is left
as c1..cn, without the key, and `*values` as their values in the same order followed by
the value of the key. -/
theorem C19_full_update (dbType : String) (typeOf : ReflectType)
    (entity : IEntityStruct) (pk : GoString)
    (pre post : List StructField) (pkf : StructField)
    (vpre vpost : List GoValue) (pkv : GoValue)
    (hpk : entityPKFieldName entity typeOf = (pk, none))
    (hname : pkf.Name = pk)
    (hpre : ∀ f ∈ pre, f.Name ≠ pk) (hpost : ∀ f ∈ post, f.Name ≠ pk)
    (hlpre : vpre.length = pre.length) (hlpost : vpost.length = post.length)
    (hn : pre ++ post ≠ []) :
    wrapUpdateStructSQL dbType typeOf entity (pre ++ pkf :: post) (vpre ++ pkv :: vpost)
        false =
      .returned
        { sqlstr := rebind dbType
            (updateStatement entity.TableName (columnNames (pre ++ post)) entity.PKColumnName)
          err := none
          columns := pre ++ post
          values := vpre ++ vpost ++ [pkv] } := by
  rw [wrapUpdateStructSQL.result dbType typeOf entity pk false pre post pkf vpre vpost pkv
    hpk hname hpre hpost hlpre hlpost (fun h => absurd h (by decide))]
  have hlen : (pre ++ post).length = (vpre ++ vpost).length := by
    simp [hlpre, hlpost]
  have hk : keptPairs false (pre ++ post) (vpre ++ vpost) = (pre ++ post).zip (vpre ++ vpost) := by
    simp [keptPairs]
  have hf : ((pre ++ post).zip (vpre ++ vpost)).map Prod.fst = pre ++ post :=
    List.map_fst_zip _ _ (Nat.le_of_eq hlen)
  have hs : ((pre ++ post).zip (vpre ++ vpost)).map Prod.snd = vpre ++ vpost :=
    List.map_snd_zip _ _ (Nat.le_of_eq hlen.symm)
  have hi : setItems ((pre ++ post).zip (vpre ++ vpost)) =
      (columnNames (pre ++ post)).map (fun c => c ++ "=?".toList) := by
    unfold setItems columnNames
    rw [← hf]
    simp only [List.map_map]
    rw [hf]
    rfl
  rw [hk, hf, hs, hi, update_text _ _ _ (by simpa [columnNames] using hn)]
  rfl

/-- Witness of C19: the sample record, its key `id` between the columns `name` and
`age`, for postgresql. -/
theorem C19_full_update_witness :
    wrapUpdateStructSQL "postgresql" userType userRecord [nameField, idField, ageField]
        [.str [], .int 1, .int 31] false =
      .returned
        { sqlstr := "UPDATE t_user SET name=$1,age=$2 WHERE id=$3".toList
          err := none
          columns := [nameField, ageField]
          values := [.str [], .int 31, .int 1] } :=
  (C19_full_update "postgresql" userType userRecord "Id".toList [nameField] [ageField] idField
    [.str []] [.int 31] (.int 1) rfl rfl (by decide) (by decide) rfl rfl
    (by decide)).trans (by decide)

/-- For every record whose key field is among the columns and whose other mapped
fields hold no `nil` interface value, the partial update builder returns with a nil
error; it leaves in `*columns` exactly the columns other than the key whose value is not
the zero value of its type, in their original order, and in `*values` those values
followed by the value of the key, which is used as it is, whatever it is; when at least
one column is kept, the statement is `UPDATE table SET c=?,... WHERE pk=?` over the kept
columns, rebound for the dialect. -/
theorem wrapUpdateStructSQL.partial_update_non_nil (dbType : String) (typeOf : ReflectType)
    (entity : IEntityStruct) (pk : GoString)
    (pre post : List StructField) (pkf : StructField)
    (vpre vpost : List GoValue) (pkv : GoValue)
    (hpk : entityPKFieldName entity typeOf = (pk, none))
    (hname : pkf.Name = pk)
    (hpre : ∀ f ∈ pre, f.Name ≠ pk) (hpost : ∀ f ∈ post, f.Name ≠ pk)
    (hlpre : vpre.length = pre.length) (hlpost : vpost.length = post.length)
    (hnil : ∀ v ∈ vpre ++ vpost, v ≠ .nil) :
    ∃ sql,
      wrapUpdateStructSQL dbType typeOf entity (pre ++ pkf :: post) (vpre ++ pkv :: vpost)
          true =
        .returned
          { sqlstr := sql
            err := none
            columns := (nonZeroPairs (pre ++ post) (vpre ++ vpost)).map Prod.fst
            values := (nonZeroPairs (pre ++ post) (vpre ++ vpost)).map Prod.snd ++ [pkv] } ∧
      (nonZeroPairs (pre ++ post) (vpre ++ vpost) ≠ [] →
        sql = rebind dbType
          (updateStatement entity.TableName
            (columnNames ((nonZeroPairs (pre ++ post) (vpre ++ vpost)).map Prod.fst))
            entity.PKColumnName)) := by
  have hr := wrapUpdateStructSQL.result dbType typeOf entity pk true pre post pkf vpre vpost
    pkv hpk hname hpre hpost hlpre hlpost (fun _ => hnil)
  have hk : keptPairs true (pre ++ post) (vpre ++ vpost) =
      nonZeroPairs (pre ++ post) (vpre ++ vpost) := by
    simp [keptPairs]
  rw [hk] at hr
  refine ⟨_, hr, ?_⟩
  intro hne
  have hi : setItems (nonZeroPairs (pre ++ post) (vpre ++ vpost)) =
      (columnNames ((nonZeroPairs (pre ++ post) (vpre ++ vpost)).map Prod.fst)).map
        (fun c => c ++ "=?".toList) := by
    simp [setItems, columnNames, List.map_map, Function.comp_def]
  rw [hi, update_text _ _ _ (by simpa [columnNames] using hne)]
  rfl

/-- Example: the record `id = 1, name = "", age = 31`: the statement sets `age`
only and the parameters are 31 and 1; with the key 0 the parameters are 31 and 0. -/
theorem wrapUpdateStructSQL.partial_update_non_nil_example :
    wrapUpdateStructSQL "mysql" userType userRecord [idField, nameField, ageField]
        [.int 1, .str [], .int 31] true =
      .returned
        { sqlstr := "UPDATE t_user SET age=? WHERE id=?".toList
          err := none
          columns := [ageField]
          values := [.int 31, .int 1] } ∧
    wrapUpdateStructSQL "mysql" userType userRecord [idField, nameField, ageField]
        [.int 0, .str [], .int 31] true =
      .returned
        { sqlstr := "UPDATE t_user SET age=? WHERE id=?".toList
          err := none
          columns := [ageField]
          values := [.int 31, .int 0] } := by
  obtain ⟨sql1, h1, hs1⟩ :=
    wrapUpdateStructSQL.partial_update_non_nil "mysql" userType userRecord "Id".toList [] [nameField, ageField]
      idField [] [.str [], .int 31] (.int 1) rfl rfl (by decide) (by decide) rfl rfl
      (by decide)
  obtain ⟨sql0, h0, hs0⟩ :=
    wrapUpdateStructSQL.partial_update_non_nil "mysql" userType userRecord "Id".toList [] [nameField, ageField]
      idField [] [.str [], .int 31] (.int 0) rfl rfl (by decide) (by decide) rfl rfl
      (by decide)
  have e1 := hs1 (by decide)
  have e0 := hs0 (by decide)
  subst e1
  subst e0
  exact ⟨h1.trans (by decide), h0.trans (by decide)⟩

/-! ## Theorems: write operations and the transaction manager, continued -/

/-- The flag `hastx` has no effect on what `checkDBConnection` returns. -/
theorem checkDBConnection_hastx (env : Env) (ctx : Context) (rwType : Int) (w : World) :
    checkDBConnection env ctx true rwType w = checkDBConnection env ctx false rwType w := rfl

/-- C22 (the code at the failing input): called with `hastx = true` and `rwType = 1` on a
context without connection, `checkDBConnection` creates a handle from the default dao
and returns it with a nil error although it has no transaction; called on a context
whose handle has no active transaction, it returns that handle with a nil error. -/
theorem C22_write_gets_connection_without_transaction :
    checkDBConnection quietEnv (some .absent) true 1 World.empty =
      (some (.conn 0), some 0, none,
        { conns := [{ db := true, tx := false, dbType := "mysql", driverName := "mysql",
                      printSQL := false }],
          trace := [] }) ∧
    checkDBConnection quietEnv (some (.conn 0)) true 1 idleWorld =
      (some (.conn 0), some 0, none, idleWorld) ∧
    (idleWorld.conn 0).tx = false := by
  refine ⟨?_, ?_, ?_⟩ <;> rfl

/-- C23: in every run of `Transaction` whose body returns `(info, err)`: when `err` is
nil and the call is no opener or its commit succeeds, `Transaction` returns
`(nil, nil)`, the info of the body is not handed on; when `err` is not nil, it returns
`info` with the wrapped error; when `err` is nil and the commit of the opener fails, it
returns `info` with the wrapped commit error. -/
theorem C23_info_discarded_on_success {α : Type} (env : Env) (ctx : Context)
    (body : Context → World → Outcome α × World) (w : World)
    (ctx1 : Context) (p : Nat) (txOpen : Bool) (w1 : World)
    (info : Option α) (berr : Option GoError) (w2 : World)
    (hEnter : Transaction.enter α env ctx w = .inr (ctx1, p, txOpen, w1))
    (hBody : body ctx1 w1 = (.returns info berr, w2)) :
    (berr = none → (txOpen = false ∨ (commit env p w2).1 = none) →
      (Transaction env ctx body w).1 = .returns none none) ∧
    (∀ e, berr = some e →
      (Transaction env ctx body w).1 = .returns info (some (.errorf "事务执行失败:" e))) ∧
    (∀ ce, berr = none → txOpen = true → (commit env p w2).1 = some ce →
      (Transaction env ctx body w).1 = .returns info (some (.errorf "事务提交失败:" ce))) := by
  refine ⟨?_, ?_, ?_⟩
  · intro hb hc
    subst hb
    simp only [Transaction, hEnter, Transaction.finish, hBody]
    cases txOpen with
    | false => rfl
    | true =>
      rcases hc with hc | hc
      · cases hc
      · rcases hcm : commit env p w2 with ⟨ce, w3⟩
        rw [hcm] at hc
        simp only at hc
        subst hc
        rfl
  · intro e hb
    subst hb
    simp only [Transaction, hEnter, Transaction.finish, hBody]
  · intro ce hb ho hc
    subst hb
    subst ho
    simp only [Transaction, hEnter, Transaction.finish, hBody, if_true]
    rcases hcm : commit env p w2 with ⟨ce1, w3⟩
    rw [hcm] at hc
    simp only at hc
    subst hc
    rfl

/-- Witness of C23: a body that returns `(7, nil)`: with a commit that succeeds the call
returns `(nil, nil)`, with a commit that fails it returns 7 and the wrapped error. -/
theorem C23_info_discarded_on_success_witness :
    (Transaction quietEnv (some .absent) succeedingBody World.empty).1 =
      .returns none none ∧
    (Transaction brokenCommitEnv (some .absent) succeedingBody World.empty).1 =
      .returns (some 7) (some (.errorf "事务提交失败:" (.new "driver: bad connection"))) :=
  ⟨(C23_info_discarded_on_success quietEnv (some .absent) succeedingBody World.empty
      (some (.conn 0)) 0 true
      { conns := [{ db := true, tx := true, dbType := "mysql", driverName := "mysql",
                    printSQL := false }],
        trace := [.begin 0] }
      (some 7) none
      { conns := [{ db := true, tx := true, dbType := "mysql", driverName := "mysql",
                    printSQL := false }],
        trace := [.begin 0] }
      rfl rfl).1 rfl (Or.inr rfl),
    (C23_info_discarded_on_success brokenCommitEnv (some .absent) succeedingBody World.empty
      (some (.conn 0)) 0 true
      { conns := [{ db := true, tx := true, dbType := "mysql", driverName := "mysql",
                    printSQL := false }],
        trace := [.begin 0] }
      (some 7) none
      { conns := [{ db := true, tx := true, dbType := "mysql", driverName := "mysql",
                    printSQL := false }],
        trace := [.begin 0] }
      rfl rfl).2.2 (.new "driver: bad connection") rfl rfl rfl⟩

/-! ## Theorems: map queries -/

/-- When every scan succeeds, the loop of `QueryMapList` returns a list that is not
`nil`, with one map per row after those it started with. -/
theorem QueryMapList.scanRows_ok (columns : List GoString) (rows : List Row)
    (h : ∀ r ∈ rows, r.scanErr = none) :
    ∀ acc, QueryMapList.scanRows columns rows acc =
      (some (acc ++ rows.map (fun r => columns.zip r.cells)), none) := by
  induction rows with
  | nil => intro acc; simp [QueryMapList.scanRows]
  | cons r rest ih =>
    intro acc
    have hr := h r (List.mem_cons_self _ _)
    simp only [QueryMapList.scanRows, hr]
    rw [ih (fun x hx => h x (List.mem_cons_of_mem _ hx))]
    simp

/-- C24 (the code at the failing input): a query that succeeds and yields no row.
`QueryMapList` returns the empty list made by `make`, which is not `nil`, so `QueryMap`
passes its `nil` test and reads element 0 of the empty list: it panics. With one row it
returns the map of the row, with two rows the map of the first row and the multiple-rows
error. -/
theorem C24_query_map_without_rows_panics :
    QueryMapList quietEnv (nameDatabase []) (some .absent)
        (some (Finder.ofSQL "SELECT name FROM t_user".toList [])) World.empty =
      (.returns (some []) none,
        { conns := [{ db := true, tx := false, dbType := "mysql", driverName := "mysql",
                      printSQL := false }],
          trace := [] }) ∧
    QueryMap quietEnv (nameDatabase []) (some .absent)
        (some (Finder.ofSQL "SELECT name FROM t_user".toList [])) World.empty =
      (.panics (.err (.new "runtime error: index out of range [0] with length 0")),
        { conns := [{ db := true, tx := false, dbType := "mysql", driverName := "mysql",
                      printSQL := false }],
          trace := [] }) ∧
    (QueryMap quietEnv (nameDatabase [nameRow "a"]) (some .absent)
        (some (Finder.ofSQL "SELECT name FROM t_user".toList [])) World.empty).1 =
      .returns (some [("name".toList, .str "a".toList)]) none ∧
    (QueryMap quietEnv (nameDatabase [nameRow "a", nameRow "b"]) (some .absent)
        (some (Finder.ofSQL "SELECT name FROM t_user".toList [])) World.empty).1 =
      .returns (some [("name".toList, .str "a".toList)]) (some (.new "查询出多条数据")) := by
  refine ⟨?_, ?_, ?_, ?_⟩ <;> decide

/-! ## Theorems: builders with no column left -/

/-- A partial update keeps no pair when every value is the zero value of its type. -/
theorem nonZeroPairs_all_zero (cols : List StructField) (vals : List GoValue)
    (hzero : ∀ v ∈ vals, v.IsZero = some true) : nonZeroPairs cols vals = [] := by
  unfold nonZeroPairs
  rw [List.filter_eq_nil_iff]
  intro p hp
  have hv := hzero p.2 (List.of_mem_zip hp).2
  simp [hv]

/-- The text of an UPDATE statement without items, as the code cuts and joins it. -/
theorem update_text_empty (table pk : GoString) :
    ("UPDATE ".toList ++ table ++ " SET ".toList ++ commaEach []).dropLast ++
        " WHERE ".toList ++ pk ++ "=?".toList =
      "UPDATE ".toList ++ table ++ " SET WHERE ".toList ++ pk ++ "=?".toList := by
  have h1 : " SET ".toList = " SET".toList ++ [' '] := rfl
  have h2 : " SET WHERE ".toList = " SET".toList ++ " WHERE ".toList := rfl
  simp only [commaEach, List.append_nil]
  rw [h1, h2, ← List.append_assoc, List.dropLast_concat]
  simp only [List.append_assoc]

/-- The text of an INSERT statement without columns, as the code cuts and joins it. -/
theorem insert_text_empty (table : GoString) :
    ("INSERT INTO ".toList ++ table ++ "(".toList ++ commaEach []).dropLast ++ ")".toList ++
        (" VALUES (".toList ++ commaEach []).dropLast ++ ")".toList =
      "INSERT INTO ".toList ++ table ++ ") VALUES )".toList := by
  have h1 : "(".toList = ['('] := rfl
  have h2 : (" VALUES (".toList ++ commaEach []).dropLast = " VALUES ".toList := rfl
  have h3 : ") VALUES )".toList = ")".toList ++ " VALUES ".toList ++ ")".toList := rfl
  rw [h2, h3]
  simp only [commaEach, List.append_nil]
  rw [h1, List.dropLast_concat]
  simp only [List.append_assoc]

/-- C26: when no column remains to be written the builders return a statement with a nil
error. For a record whose key field is among the columns and whose other mapped fields
all hold the zero value of their type (none when only the key is mapped), the partial
update builder returns `UPDATE table SET WHERE pk=?`, rebound for the dialect, leaves no
column and the value of the key as the only parameter; so does the full update builder
when only the key is mapped. For a record without sequence expression whose only mapped
column is an int key of value 0, the save builder returns `INSERT INTO table) VALUES )`,
rebound for the dialect, flags the record auto-increment and leaves no parameter. -/
theorem C26_statement_without_columns (gen : Nat → GoString) (dbType : String)
    (typeOf : ReflectType) (entity : IEntityStruct) (pk : GoString)
    (pre post : List StructField) (pkf : StructField)
    (vpre vpost : List GoValue) (pkv : GoValue)
    (hpk : entityPKFieldName entity typeOf = (pk, none))
    (hname : pkf.Name = pk)
    (hpre : ∀ f ∈ pre, f.Name ≠ pk) (hpost : ∀ f ∈ post, f.Name ≠ pk)
    (hlpre : vpre.length = pre.length) (hlpost : vpost.length = post.length)
    (hzero : ∀ v ∈ vpre ++ vpost, v.IsZero = some true) :
    wrapUpdateStructSQL dbType typeOf entity (pre ++ pkf :: post) (vpre ++ pkv :: vpost)
        true =
      .returned
        { sqlstr := rebind dbType
            ("UPDATE ".toList ++ entity.TableName ++ " SET WHERE ".toList ++
              entity.PKColumnName ++ "=?".toList)
          err := none
          columns := []
          values := [pkv] } ∧
    wrapUpdateStructSQL dbType typeOf entity [pkf] [pkv] false =
      .returned
        { sqlstr := rebind dbType
            ("UPDATE ".toList ++ entity.TableName ++ " SET WHERE ".toList ++
              entity.PKColumnName ++ "=?".toList)
          err := none
          columns := []
          values := [pkv] } ∧
    (pkf.Kind = .Int → entity.PkSequence = [] →
      wrapSaveStructSQL gen dbType typeOf entity [pkf] [.int 0] =
        .returned
          { savesql := rebind dbType
              ("INSERT INTO ".toList ++ entity.TableName ++ ") VALUES )".toList)
            autoIncrement := true
            err := none
            columns := []
            values := []
            entity := entity
            idCalls := 0 }) := by
  refine ⟨?_, ?_, ?_⟩
  · have hnil : ∀ v ∈ vpre ++ vpost, v ≠ .nil := by
      intro v hv hn
      have := hzero v hv
      rw [hn] at this
      simp [GoValue.IsZero] at this
    rw [wrapUpdateStructSQL.result dbType typeOf entity pk true pre post pkf vpre vpost pkv
      hpk hname hpre hpost hlpre hlpost (fun _ => hnil)]
    have hk : keptPairs true (pre ++ post) (vpre ++ vpost) = [] := by
      simp only [keptPairs, if_true]
      exact nonZeroPairs_all_zero _ _ hzero
    rw [hk]
    simp only [setItems, List.map_nil, List.nil_append]
    rw [update_text_empty]
  · have h := wrapUpdateStructSQL.result dbType typeOf entity pk false [] [] pkf [] [] pkv
      hpk hname (by simp) (by simp) rfl rfl (fun h => absurd h (by decide))
    simp only [List.nil_append] at h
    rw [h]
    have hk : keptPairs false ([] : List StructField) ([] : List GoValue) = [] := rfl
    rw [hk]
    simp only [setItems, List.map_nil, List.nil_append]
    rw [update_text_empty]
  · intro hkind hseq
    have h := wrapSaveStructSQL.auto_result gen dbType typeOf entity pk [] [] pkf [] []
      hpk hname (by simp) (by simp) rfl rfl hkind hseq
    simp only [List.nil_append] at h
    rw [h]
    have hc : columnNames ([] : List StructField) = [] := rfl
    have hp : placeholders ([] : List StructField) = [] := rfl
    rw [hc, hp, insert_text_empty]

/-- Witness of C26: the sample record with `name = ""` and `age = 0`, and the record
whose only mapped column is its key `id`. -/
theorem C26_statement_without_columns_witness :
    wrapUpdateStructSQL "mysql" userType userRecord [nameField, idField, ageField]
        [.str [], .int 1, .int 0] true =
      .returned
        { sqlstr := "UPDATE t_user SET WHERE id=?".toList
          err := none
          columns := []
          values := [.int 1] } ∧
    wrapUpdateStructSQL "mysql" userType userRecord [idField] [.int 1] false =
      .returned
        { sqlstr := "UPDATE t_user SET WHERE id=?".toList
          err := none
          columns := []
          values := [.int 1] } ∧
    wrapSaveStructSQL (fun _ => "uuid".toList) "mysql" userType userRecord [idField] [.int 0] =
      .returned
        { savesql := "INSERT INTO t_user) VALUES )".toList
          autoIncrement := true
          err := none
          columns := []
          values := []
          entity := userRecord
          idCalls := 0 } := by
  have h := C26_statement_without_columns (fun _ => "uuid".toList) "mysql" userType userRecord
    "Id".toList [nameField] [ageField] idField [.str []] [.int 0] (.int 1) rfl rfl
    (by decide) (by decide) rfl rfl (by decide)
  exact ⟨h.1.trans (by decide), h.2.1.trans (by decide), (h.2.2 rfl rfl).trans (by decide)⟩

/-! ## Theorems: saving a record -/

/-- When every mapped field is a field of the record, the loop of `columnAndValue`
returns the fields of the map and their values, in the order of the map. -/
theorem columnAndValue.loop_found (fields : List (GoString × GoValue)) :
    ∀ (m : List (GoString × StructField)) (columns : List StructField)
      (values vs : List GoValue),
      m.map (fun kv => FieldByName fields kv.2.Name) = vs.map some →
      columnAndValue.loop fields m columns values =
        .returned (columns ++ m.map Prod.snd, values ++ vs) := by
  intro m
  induction m with
  | nil =>
    intro columns values vs h
    cases vs with
    | nil => simp [columnAndValue.loop]
    | cons v vs => simp at h
  | cons kv rest ih =>
    intro columns values vs h
    obtain ⟨c, field⟩ := kv
    cases vs with
    | nil => simp at h
    | cons v vs =>
      simp only [List.map_cons, List.cons.injEq] at h
      simp only [columnAndValue.loop, h.1]
      rw [ih _ _ vs h.2]
      simp

/-- Reading a field by name, entry by entry. -/
theorem FieldByName_cons (kv : GoString × GoValue) (rest : List (GoString × GoValue))
    (name : GoString) :
    FieldByName (kv :: rest) name =
      if kv.1 = name then some kv.2 else FieldByName rest name := by
  unfold FieldByName
  rw [List.find?_cons]
  by_cases hk : kv.1 = name
  · simp only [hk, decide_True, if_true, Option.map_some']
  · simp only [hk, decide_False, if_false]

/-- A field that exists holds the value assigned to it. -/
theorem FieldByName_setField (fields : List (GoString × GoValue)) (name : GoString)
    (v0 v : GoValue) (h : FieldByName fields name = some v0) :
    FieldByName (setField fields name v) name = some v := by
  induction fields with
  | nil => exact absurd h (by simp [FieldByName])
  | cons kv rest ih =>
    have hs : setField (kv :: rest) name v =
        (if kv.1 = name then (kv.1, v) else kv) :: setField rest name v := rfl
    rw [hs, FieldByName_cons]
    rw [FieldByName_cons] at h
    by_cases hk : kv.1 = name
    · simp only [hk, if_true]
    · simp only [hk, if_false] at h ⊢
      exact ih h

/-- What `columnAndValue` returns for a pointer to a struct whose mapped fields are all
fields of the record. -/
theorem columnAndValue_pointer (typeOf : ReflectType) (record : IEntityStruct)
    (columns : List StructField) (values : List GoValue)
    (hstruct : typeOf.Kind = .Struct)
    (herr : typeOf.dbColumnFieldMapErr = none)
    (hmap : typeOf.dbColumnFieldMap.map Prod.snd = columns)
    (hvals : columns.map (fun f => FieldByName record.fields f.Name) = values.map some) :
    columnAndValue (.pointer typeOf record) =
      .returned (some typeOf, columns, values, none) := by
  have hm : typeOf.dbColumnFieldMap.map (fun kv => FieldByName record.fields kv.2.Name) =
      values.map some := by
    rw [← hvals, ← hmap, List.map_map]
    rfl
  have hl := columnAndValue.loop_found record.fields typeOf.dbColumnFieldMap [] [] values hm
  simp only [List.nil_append, hmap] at hl
  unfold columnAndValue
  simp only [SaveEntity.toInterface, checkEntityKind, hstruct, true_or, not_true_eq_false,
    if_false]
  rw [herr]
  simp only [hl]

/-- C21: for a record without sequence expression whose key is a mapped int field of
value 0, saved on a handle on which the statement is executed without error: when
`LastInsertId` fails, `SaveStruct` returns a nil error and leaves the record as it was,
its key field still 0; when `LastInsertId` succeeds, `SaveStruct` returns a nil error
and the record with the id written to its key field, all other fields as they were. -/
theorem C21_auto_increment_id (gen : Nat → GoString) (env : Env) (ex : Executor)
    (ctx ctx1 : Context) (w w1 : World) (dbType : String) (conn : Nat)
    (typeOf : ReflectType) (record : IEntityStruct)
    (pre post : List StructField) (pkf : StructField) (vpre vpost : List GoValue)
    (res : SqlResult)
    (hstruct : typeOf.Kind = .Struct)
    (herr : typeOf.dbColumnFieldMapErr = none)
    (hmap : typeOf.dbColumnFieldMap.map Prod.snd = pre ++ pkf :: post)
    (hkey : lookupField typeOf.dbColumnFieldMap record.PKColumnName = some pkf)
    (hpre : ∀ f ∈ pre, f.Name ≠ pkf.Name) (hpost : ∀ f ∈ post, f.Name ≠ pkf.Name)
    (hvpre : pre.map (fun f => FieldByName record.fields f.Name) = vpre.map some)
    (hvpost : post.map (fun f => FieldByName record.fields f.Name) = vpost.map some)
    (hzero : FieldByName record.fields pkf.Name = some (.int 0))
    (hkind : pkf.Kind = .Int) (hseq : record.PkSequence = [])
    (hty : SaveStruct.dbType env ctx w = .returned (.inr dbType))
    (hconn : checkDBConnection env ctx true 1 w = (ctx1, some conn, none, w1))
    (hexec : ex.execContext conn
        (rebind dbType
          (("INSERT INTO ".toList ++ record.TableName ++ "(".toList ++
              commaEach (columnNames (pre ++ post))).dropLast ++ ")".toList ++
            (" VALUES (".toList ++ commaEach (placeholders (pre ++ post))).dropLast ++
            ")".toList))
        (vpre ++ vpost) w1 = .inl res) :
    (∀ e, res.LastInsertIdErr = some e →
      SaveStruct gen env ex ctx (.pointer typeOf record) w =
        (.returned (none, .pointer typeOf record), w1)) ∧
    (res.LastInsertIdErr = none →
      SaveStruct gen env ex ctx (.pointer typeOf record) w =
        (.returned (none, .pointer typeOf
          { record with
            fields := setField record.fields pkf.Name (.int res.LastInsertId) }), w1) ∧
      FieldByName (setField record.fields pkf.Name (.int res.LastInsertId)) pkf.Name =
        some (.int res.LastInsertId)) := by
  have hcv := columnAndValue_pointer typeOf record (pre ++ pkf :: post)
    (vpre ++ .int 0 :: vpost) hstruct herr hmap
    (by simp only [List.map_append, List.map_cons, hvpre, hvpost, hzero])
  have hpk : entityPKFieldName record typeOf = (pkf.Name, none) := by
    simp [entityPKFieldName, herr, hkey]
  have hlpre : vpre.length = pre.length := by
    have := congrArg List.length hvpre
    simpa using this.symm
  have hlpost : vpost.length = post.length := by
    have := congrArg List.length hvpost
    simpa using this.symm
  have hb := wrapSaveStructSQL.auto_result gen dbType typeOf record pkf.Name pre post pkf
    vpre vpost hpk rfl hpre hpost hlpre hlpost hkind hseq
  have hsave : SaveStruct.save gen env ex ctx dbType typeOf record (pre ++ pkf :: post)
      (vpre ++ .int 0 :: vpost) w =
      (.returned (SaveStruct.finish typeOf record true res), w1) := by
    simp only [SaveStruct.save, hb, hconn, hexec]
  have hlen : ¬ (pre ++ pkf :: post).length < 1 := by simp
  have hS : SaveStruct gen env ex ctx (.pointer typeOf record) w =
      (.returned ((SaveStruct.finish typeOf record true res).1,
        .pointer typeOf (SaveStruct.finish typeOf record true res).2), w1) := by
    simp only [SaveStruct, hcv, hlen, if_false, hty, hsave]
  refine ⟨?_, ?_⟩
  · intro e he
    rw [hS]
    simp [SaveStruct.finish, he]
  · intro he
    refine ⟨?_, FieldByName_setField _ _ _ _ hzero⟩
    rw [hS]
    simp [SaveStruct.finish, he, setFieldValueByColumnName, herr, hkey]

/-- Witness of C21: the record `id = 0, name = "a", age = 31` saved through a context
without handle, on a driver that cannot tell the id and on a driver that assigns 42. -/
theorem C21_auto_increment_id_witness :
    (SaveStruct (fun _ => "uuid".toList) quietEnv silentExecutor (some .absent)
        (.pointer userType newUserRecord) World.empty).1 =
      .returned (none, .pointer userType newUserRecord) ∧
    (SaveStruct (fun _ => "uuid".toList) quietEnv (assigningExecutor 42) (some .absent)
        (.pointer userType newUserRecord) World.empty).1 =
      .returned (none, .pointer userType
        { newUserRecord with
          fields := [("Id".toList, .int 42), ("Name".toList, .str "a".toList),
            ("Age".toList, .int 31)] }) := by
  have h1 := (C21_auto_increment_id (fun _ => "uuid".toList) quietEnv silentExecutor
    (some .absent) (some (.conn 0)) World.empty _ "mysql" 0 userType newUserRecord []
    [nameField, ageField] idField [] [.str "a".toList, .int 31]
    { LastInsertId := 0,
      LastInsertIdErr := some (.new "LastInsertId is not supported by this driver") }
    rfl rfl rfl rfl (by decide) (by decide) rfl rfl rfl rfl rfl rfl rfl rfl).1 _ rfl
  have h2 := ((C21_auto_increment_id (fun _ => "uuid".toList) quietEnv (assigningExecutor 42)
    (some .absent) (some (.conn 0)) World.empty _ "mysql" 0 userType newUserRecord []
    [nameField, ageField] idField [] [.str "a".toList, .int 31]
    { LastInsertId := 42, LastInsertIdErr := none }
    rfl rfl rfl rfl (by decide) (by decide) rfl rfl rfl rfl rfl rfl rfl rfl).2 rfl).1
  exact ⟨(congrArg Prod.fst h1).trans rfl, (congrArg Prod.fst h2).trans (by decide)⟩

/-! ## Theorems: placeholders and parameters -/

/-- The placeholders of a row of texts are those of its texts. -/
theorem count_commaEach (xs : List GoString) :
    (commaEach xs).count '?' = (xs.map (fun x => x.count '?')).sum := by
  induction xs with
  | nil => rfl
  | cons x xs ih =>
    have e : (",".toList).count '?' = 0 := rfl
    simp only [commaEach, List.count_append, ih, e, List.map_cons, List.sum_cons, Nat.add_zero]

/-- Cutting the last character of what a builder has written loses no placeholder: that
character is the last one of the fixed text or the comma after the last item. -/
theorem count_cut (p : GoString) (c : Char) (hc : c ≠ '?') (xs : List GoString) :
    ((p ++ [c]) ++ commaEach xs).dropLast.count '?' =
      p.count '?' + (commaEach xs).count '?' := by
  by_cases h : xs = []
  · subst h
    simp only [commaEach, List.append_nil, List.dropLast_concat, List.count_nil, Nat.add_zero]
  · rw [commaEach_eq xs h]
    have e : ",".toList = [','] := rfl
    rw [e, ← List.append_assoc, List.dropLast_concat]
    have h1 : [c].count '?' = 0 := by
      rw [List.count_eq_zero]
      simpa using hc.symm
    have h2 : [','].count '?' = 0 := rfl
    simp only [List.count_append, h1, h2, Nat.add_zero]

/-- Pairing columns with as many values gives one position per column. -/
theorem paramSlots_columns (cols : List StructField) :
    ∀ vals : List GoValue, vals.length = cols.length →
      (paramSlots cols vals).map (fun s => s.1.column) = columnNames cols ∧
      (∀ seq, (paramSlots cols vals).map (slotText seq) = placeholders cols) ∧
      slotParams (paramSlots cols vals) = vals ∧
      slotColumns (paramSlots cols vals) = cols := by
  induction cols with
  | nil =>
    intro vals h
    have : vals = [] := List.length_eq_zero.1 h
    subst this
    exact ⟨rfl, fun _ => rfl, rfl, rfl⟩
  | cons c cs ih =>
    intro vals h
    cases vals with
    | nil => simp at h
    | cons v vs =>
      obtain ⟨h1, h2, h3, h4⟩ := ih vs (by simpa using h)
      refine ⟨?_, ?_, ?_, ?_⟩
      · simpa [paramSlots, columnNames] using h1
      · intro seq
        have := h2 seq
        simpa [paramSlots, placeholders, slotText] using this
      · simpa [paramSlots, slotParams] using h3
      · simpa [paramSlots, slotColumns] using h4

/-- A position of paired columns and values holds a column of the list and the value
read for it. -/
theorem paramSlots_mem (fields : List (GoString × GoValue)) (cols : List StructField) :
    ∀ (vals : List GoValue) (s : Slot),
      cols.map (fun f => FieldByName fields f.Name) = vals.map some →
      s ∈ paramSlots cols vals →
      s.1 ∈ cols ∧ ∀ v, s.2 = some v → FieldByName fields s.1.Name = some v := by
  induction cols with
  | nil =>
    intro vals s _ hs
    simp [paramSlots] at hs
  | cons c cs ih =>
    intro vals s hv hs
    cases vals with
    | nil => simp at hv
    | cons v vs =>
      simp only [List.map_cons, List.cons.injEq] at hv
      have hs1 : s = (c, some v) ∨ s ∈ paramSlots cs vs := by
        simpa [paramSlots] using hs
      rcases hs1 with rfl | hs1
      · refine ⟨List.mem_cons_self _ _, ?_⟩
        intro v1 h1
        simp only [Option.some.injEq] at h1
        rw [← h1]
        exact hv.1
      · obtain ⟨h1, h2⟩ := ih vs s hv.2 hs1
        exact ⟨List.mem_cons_of_mem _ h1, h2⟩

/-- Assigning a field leaves the other fields as they are. -/
theorem FieldByName_setField_ne (fields : List (GoString × GoValue)) (name other : GoString)
    (v : GoValue) (h : other ≠ name) :
    FieldByName (setField fields name v) other = FieldByName fields other := by
  induction fields with
  | nil => rfl
  | cons kv rest ih =>
    have hs : setField (kv :: rest) name v =
        (if kv.1 = name then (kv.1, v) else kv) :: setField rest name v := rfl
    rw [hs, FieldByName_cons, FieldByName_cons, ih]
    by_cases hk : kv.1 = name
    · have hk1 : ¬ kv.1 = other := fun e => h (e.symm.trans hk)
      simp only [hk, if_true]
      rw [← hk]
      simp only [hk1, if_false]
    · simp only [hk, if_false]

/-- The number of `?` in an INSERT statement over positions, when neither the table
name, nor a column, nor the sequence expression holds a `?`: one per parameter. -/
theorem count_saveText (table seq : GoString) (slots : List Slot)
    (hT : table.count '?' = 0) (hS : seq.count '?' = 0)
    (hC : ∀ s ∈ slots, s.1.column.count '?' = 0) :
    (saveText table seq slots).count '?' = (slotParams slots).length := by
  have hcols : (commaEach (slots.map (fun s => s.1.column))).count '?' = 0 := by
    rw [count_commaEach, List.map_map]
    apply List.sum_eq_zero
    intro n hn
    obtain ⟨s, hs, rfl⟩ := List.mem_map.1 hn
    exact hC s hs
  have hvals : (commaEach (slots.map (slotText seq))).count '?' = (slotParams slots).length := by
    rw [count_commaEach, List.map_map]
    clear hC hcols
    induction slots with
    | nil => rfl
    | cons s rest ih =>
      obtain ⟨f, p⟩ := s
      cases p with
      | none =>
        simpa [slotParams, slotText, hS] using ih
      | some v =>
        have e : ("?".toList).count '?' = 1 := rfl
        simp only [List.map_cons, List.sum_cons, Function.comp, slotText, e, slotParams,
          List.filterMap_cons, List.length_cons] at ih ⊢
        omega
  have e1 : "INSERT INTO ".toList ++ table ++ "(".toList =
      ("INSERT INTO ".toList ++ table) ++ ['('] := rfl
  have e2 : " VALUES (".toList = " VALUES ".toList ++ ['('] := rfl
  have e3 : ("INSERT INTO ".toList).count '?' = 0 := rfl
  have e4 : (" VALUES ".toList).count '?' = 0 := rfl
  have e5 : (")".toList).count '?' = 0 := rfl
  unfold saveText
  rw [e1, e2]
  simp only [List.count_append, count_cut _ '(' (by decide), hcols, hvals, hT, e3, e4, e5]
  omega

/-- The number of `?` in an UPDATE statement over pairs, when neither the table name,
nor a column, nor the key column holds a `?`: one per pair and one for the key. -/
theorem count_updateText (table pk : GoString) (kept : List (StructField × GoValue))
    (hT : table.count '?' = 0) (hP : pk.count '?' = 0)
    (hC : ∀ p ∈ kept, p.1.column.count '?' = 0) :
    (updateText table pk kept).count '?' = kept.length + 1 := by
  have hitems : (commaEach (setItems kept)).count '?' = kept.length := by
    rw [count_commaEach]
    unfold setItems
    rw [List.map_map]
    induction kept with
    | nil => rfl
    | cons p rest ih =>
      have e : ("=?".toList).count '?' = 1 := rfl
      have := ih (fun q hq => hC q (List.mem_cons_of_mem _ hq))
      simp only [List.map_cons, List.sum_cons, Function.comp, List.count_append, e,
        hC p (List.mem_cons_self _ _), List.length_cons] at this ⊢
      omega
  have e1 : "UPDATE ".toList ++ table ++ " SET ".toList =
      ("UPDATE ".toList ++ table ++ " SET".toList) ++ [' '] := by
    have : " SET ".toList = " SET".toList ++ [' '] := rfl
    rw [this, List.append_assoc, List.append_assoc, List.append_assoc]
  have e3 : ("UPDATE ".toList).count '?' = 0 := rfl
  have e4 : (" SET".toList).count '?' = 0 := rfl
  have e5 : (" WHERE ".toList).count '?' = 0 := rfl
  have e6 : ("=?".toList).count '?' = 1 := rfl
  unfold updateText
  rw [e1]
  simp only [List.count_append, count_cut _ ' ' (by decide), hitems, hT, hP, e3, e4, e5, e6]
  omega

/-- The columns, texts, parameters and fields of the positions around a key: the
statement holds one `?` per parameter, and every parameter is the value of the field
mapped to the column of its position. -/
theorem slotsAround_spec (entity : IEntityStruct) (fields1 : List (GoString × GoValue))
    (pre post : List StructField) (vpre vpost : List GoValue) (mid : List Slot)
    (hvpre : pre.map (fun f => FieldByName entity.fields f.Name) = vpre.map some)
    (hvpost : post.map (fun f => FieldByName entity.fields f.Name) = vpost.map some)
    (hT : '?' ∉ entity.TableName) (hS : '?' ∉ entity.PkSequence)
    (hCpre : ∀ f ∈ pre, '?' ∉ f.column) (hCpost : ∀ f ∈ post, '?' ∉ f.column)
    (hCmid : ∀ s ∈ mid, '?' ∉ s.1.column)
    (hFmid : ∀ s ∈ mid, ∀ v, s.2 = some v → FieldByName fields1 s.1.Name = some v)
    (hsame : ∀ f, f ∈ pre ∨ f ∈ post →
      FieldByName fields1 f.Name = FieldByName entity.fields f.Name) :
    (slotsAround pre vpre mid post vpost).map (fun s => s.1.column) =
        columnNames pre ++ mid.map (fun s => s.1.column) ++ columnNames post ∧
    (slotsAround pre vpre mid post vpost).map (slotText entity.PkSequence) =
        placeholders pre ++ mid.map (slotText entity.PkSequence) ++ placeholders post ∧
    slotParams (slotsAround pre vpre mid post vpost) = vpre ++ slotParams mid ++ vpost ∧
    slotColumns (slotsAround pre vpre mid post vpost) = pre ++ slotColumns mid ++ post ∧
    (saveText entity.TableName entity.PkSequence (slotsAround pre vpre mid post vpost)).count
        '?' = (slotParams (slotsAround pre vpre mid post vpost)).length ∧
    ∀ s ∈ slotsAround pre vpre mid post vpost, ∀ v, s.2 = some v →
      FieldByName fields1 s.1.Name = some v := by
  have hlpre : vpre.length = pre.length := by
    have := congrArg List.length hvpre
    simpa using this.symm
  have hlpost : vpost.length = post.length := by
    have := congrArg List.length hvpost
    simpa using this.symm
  obtain ⟨a1, a2, a3, a4⟩ := paramSlots_columns pre vpre hlpre
  obtain ⟨b1, b2, b3, b4⟩ := paramSlots_columns post vpost hlpost
  have hmem : ∀ s ∈ slotsAround pre vpre mid post vpost,
      s ∈ paramSlots pre vpre ∨ s ∈ mid ∨ s ∈ paramSlots post vpost := by
    intro s hs
    simpa [slotsAround, or_assoc] using hs
  refine ⟨?_, ?_, ?_, ?_, ?_, ?_⟩
  · simp only [slotsAround, List.map_append, a1, b1]
  · simp only [slotsAround, List.map_append, a2, b2]
  · have a3' : List.filterMap (fun s : Slot => s.2) (paramSlots pre vpre) = vpre := a3
    have b3' : List.filterMap (fun s : Slot => s.2) (paramSlots post vpost) = vpost := b3
    simp only [slotsAround, slotParams, List.filterMap_append, a3', b3']
  · have a4' : List.map (fun s : Slot => s.1)
        (List.filter (fun s : Slot => s.2.isSome) (paramSlots pre vpre)) = pre := a4
    have b4' : List.map (fun s : Slot => s.1)
        (List.filter (fun s : Slot => s.2.isSome) (paramSlots post vpost)) = post := b4
    simp only [slotsAround, slotColumns, List.filter_append, List.map_append, a4', b4']
  · apply count_saveText _ _ _ (List.count_eq_zero.2 hT) (List.count_eq_zero.2 hS)
    intro s hs
    rcases hmem s hs with h | h | h
    · exact List.count_eq_zero.2
        (hCpre _ (paramSlots_mem entity.fields pre vpre s hvpre h).1)
    · exact List.count_eq_zero.2 (hCmid s h)
    · exact List.count_eq_zero.2
        (hCpost _ (paramSlots_mem entity.fields post vpost s hvpost h).1)
  · intro s hs v hv
    rcases hmem s hs with h | h | h
    · obtain ⟨m1, m2⟩ := paramSlots_mem entity.fields pre vpre s hvpre h
      rw [hsame _ (Or.inl m1)]
      exact m2 v hv
    · exact hFmid s h v hv
    · obtain ⟨m1, m2⟩ := paramSlots_mem entity.fields post vpost s hvpost h
      rw [hsame _ (Or.inr m1)]
      exact m2 v hv

/-- A statement given with commas between its items, written over positions. -/
theorem saveText_insertStatement (table seq : GoString) (slots : List Slot)
    (cols vals : List GoString)
    (hc : slots.map (fun s => s.1.column) = cols) (hv : slots.map (slotText seq) = vals)
    (hcn : cols ≠ []) (hvn : vals ≠ []) :
    insertStatement table cols vals = saveText table seq slots := by
  unfold saveText
  rw [hc, hv]
  exact (insert_text table cols vals hcn hvn).symm

/-- The pairs an update keeps are pairs of a column and the value read for it. -/
theorem keptPairs_mem (fields : List (GoString × GoValue)) (m : Bool)
    (cols : List StructField) (vals : List GoValue)
    (hv : cols.map (fun f => FieldByName fields f.Name) = vals.map some)
    (p : StructField × GoValue) (hp : p ∈ keptPairs m cols vals) :
    p.1 ∈ cols ∧ FieldByName fields p.1.Name = some p.2 := by
  have hz : p ∈ cols.zip vals := by
    unfold keptPairs nonZeroPairs at hp
    cases m with
    | true =>
      simp only [if_true] at hp
      exact (List.mem_filter.1 hp).1
    | false => simpa using hp
  have hs : (p.1, some p.2) ∈ paramSlots cols vals := by
    unfold paramSlots
    exact List.mem_map.2 ⟨p, hz, rfl⟩
  obtain ⟨h1, h2⟩ := paramSlots_mem fields cols vals (p.1, some p.2) hv hs
  exact ⟨h1, h2 p.2 rfl⟩

/-- C25: for every record whose key field is among its columns, whose table name, column
names, key column name and sequence expression hold no `?`, and whose values are the
values of its mapped fields: the save builder (for a key of kind string or int holding a
value of that kind) and the update builder (in either mode; in partial mode for fields
that hold no `nil` interface value) return, with a nil error, a statement that is the
rebound text over positions, respectively pairs, such that the text holds exactly one
`?` per element of `*values` after the call, the k-th `?` standing at the position of
the k-th element of `*columns`, whose parameter is the k-th element of `*values` and the
value of the field mapped to that column in the record after the call; the last
placeholder of an update is that of the key and its parameter the value of the key. -/
theorem C25_placeholders_match_parameters (gen : Nat → GoString) (dbType : String)
    (typeOf : ReflectType) (entity : IEntityStruct) (pk : GoString)
    (pre post : List StructField) (pkf : StructField)
    (vpre vpost : List GoValue) (pkv : GoValue) (m : Bool)
    (hpk : entityPKFieldName entity typeOf = (pk, none))
    (hname : pkf.Name = pk)
    (hpre : ∀ f ∈ pre, f.Name ≠ pk) (hpost : ∀ f ∈ post, f.Name ≠ pk)
    (hvpre : pre.map (fun f => FieldByName entity.fields f.Name) = vpre.map some)
    (hvpost : post.map (fun f => FieldByName entity.fields f.Name) = vpost.map some)
    (hvkey : FieldByName entity.fields pkf.Name = some pkv)
    (hT : '?' ∉ entity.TableName) (hS : '?' ∉ entity.PkSequence)
    (hP : '?' ∉ entity.PKColumnName)
    (hC : ∀ f ∈ pre ++ pkf :: post, '?' ∉ f.column) :
    (((pkf.Kind = .String ∧ ∃ s, pkv = .str s) ∨ (pkf.Kind = .Int ∧ ∃ n, pkv = .int n)) →
      ∃ res slots,
        wrapSaveStructSQL gen dbType typeOf entity (pre ++ pkf :: post)
          (vpre ++ pkv :: vpost) = .returned res ∧
        res.err = none ∧
        res.savesql = rebind dbType (saveText entity.TableName entity.PkSequence slots) ∧
        (saveText entity.TableName entity.PkSequence slots).count '?' = res.values.length ∧
        res.columns = slotColumns slots ∧
        res.values = slotParams slots ∧
        ∀ s ∈ slots, ∀ v, s.2 = some v →
          FieldByName res.entity.fields s.1.Name = some v) ∧
    ((m = true → ∀ v ∈ vpre ++ vpost, v ≠ .nil) →
      ∃ res kept,
        wrapUpdateStructSQL dbType typeOf entity (pre ++ pkf :: post)
          (vpre ++ pkv :: vpost) m = .returned res ∧
        res.err = none ∧
        res.sqlstr = rebind dbType (updateText entity.TableName entity.PKColumnName kept) ∧
        (updateText entity.TableName entity.PKColumnName kept).count '?' =
          res.values.length ∧
        res.columns = kept.map Prod.fst ∧
        res.values = kept.map Prod.snd ++ [pkv] ∧
        ∀ p ∈ kept, FieldByName entity.fields p.1.Name = some p.2) := by
  have hlpre : vpre.length = pre.length := by
    have := congrArg List.length hvpre
    simpa using this.symm
  have hlpost : vpost.length = post.length := by
    have := congrArg List.length hvpost
    simpa using this.symm
  have hCpre : ∀ f ∈ pre, '?' ∉ f.column := fun f hf => hC f (List.mem_append_left _ hf)
  have hCpost : ∀ f ∈ post, '?' ∉ f.column :=
    fun f hf => hC f (List.mem_append_right _ (List.mem_cons_of_mem _ hf))
  have hCkey : '?' ∉ pkf.column :=
    hC pkf (List.mem_append_right _ (List.mem_cons_self _ _))
  have hcn : columnNames (pre ++ pkf :: post) ≠ [] := by simp [columnNames]
  refine ⟨?_, ?_⟩
  · intro htyped
    -- the facts about the positions, for a given position of the key
    have spec := fun (fields1 : List (GoString × GoValue)) (mid : List Slot) =>
      slotsAround_spec entity fields1 pre post vpre vpost mid hvpre hvpost hT hS hCpre hCpost
    have hkind : pkf.Kind = .String ∨ pkf.Kind = .Int := htyped.imp (fun h => h.1) (fun h => h.1)
    -- a key that stays in the statement with a placeholder and the parameter `v`
    have kept_case : ∀ (res : SaveResult) (v : GoValue),
        wrapSaveStructSQL gen dbType typeOf entity (pre ++ pkf :: post)
          (vpre ++ pkv :: vpost) = .returned res →
        res.savesql = rebind dbType
          (insertStatement entity.TableName (columnNames (pre ++ pkf :: post))
            (placeholders (pre ++ pkf :: post))) →
        res.err = none → res.columns = pre ++ pkf :: post → res.values = vpre ++ v :: vpost →
        FieldByName res.entity.fields pkf.Name = some v →
        (∀ f, f ∈ pre ∨ f ∈ post →
          FieldByName res.entity.fields f.Name = FieldByName entity.fields f.Name) →
        ∃ res slots,
          wrapSaveStructSQL gen dbType typeOf entity (pre ++ pkf :: post)
            (vpre ++ pkv :: vpost) = .returned res ∧
          res.err = none ∧
          res.savesql = rebind dbType (saveText entity.TableName entity.PkSequence slots) ∧
          (saveText entity.TableName entity.PkSequence slots).count '?' =
            res.values.length ∧
          res.columns = slotColumns slots ∧
          res.values = slotParams slots ∧
          ∀ s ∈ slots, ∀ v, s.2 = some v →
            FieldByName res.entity.fields s.1.Name = some v := by
      intro res v hres hsql herr hcols hvals hkeyv hsame
      obtain ⟨s1, s2, s3, s4, s5, s6⟩ := spec res.entity.fields [(pkf, some v)]
        (by intro s hs; simp only [List.mem_singleton] at hs; subst hs; exact hCkey)
        (by
          intro s hs v1 h1
          simp only [List.mem_singleton] at hs
          subst hs
          simp only [Option.some.injEq] at h1
          rw [← h1]
          exact hkeyv)
        hsame
      refine ⟨res, slotsAround pre vpre [(pkf, some v)] post vpost, hres, herr, ?_, ?_, ?_,
        ?_, s6⟩
      · rw [hsql]
        congr 1
        apply saveText_insertStatement _ _ _ _ _ _ _ hcn (by simp [placeholders])
        · rw [s1]; simp [columnNames]
        · rw [s2]; simp [placeholders, slotText]
      · rw [s5, s3, hvals]; simp [slotParams]
      · rw [s4, hcols]; simp [slotColumns]
      · rw [s3, hvals]; simp [slotParams]
    by_cases hseq : entity.PkSequence = []
    · rcases htyped with ⟨hk, s, rfl⟩ | ⟨hk, n, rfl⟩
      · by_cases hs : s = []
        · subst hs
          have hr := wrapSaveStructSQL.generated_result gen dbType typeOf entity pk pre post
            pkf vpre vpost hpk hname hpre hpost hlpre hlpost hk hseq
          refine kept_case _ (.str (gen 0)) hr rfl rfl rfl rfl ?_ ?_
          · exact FieldByName_setField _ _ _ _ hvkey
          · intro f hf
            apply FieldByName_setField_ne
            rw [hname]
            exact hf.elim (hpre f) (hpost f)
        · have hr := wrapSaveStructSQL.kept_result gen dbType typeOf entity pk pre post
            pkf vpre vpost (.str s) hpk hname hpre hpost hlpre hlpost
            (Or.inl ⟨hk, s, hs, rfl⟩) hseq
          exact kept_case _ (.str s) hr rfl rfl rfl rfl hvkey (fun _ _ => rfl)
      · by_cases hn : n = 0
        · subst hn
          have hr := wrapSaveStructSQL.auto_result gen dbType typeOf entity pk pre post
            pkf vpre vpost hpk hname hpre hpost hlpre hlpost hk hseq
          obtain ⟨s1, s2, s3, s4, s5, s6⟩ := spec entity.fields []
            (by intro s hs; simp at hs) (by intro s hs; simp at hs) (fun _ _ => rfl)
          refine ⟨_, slotsAround pre vpre [] post vpost, hr, rfl, ?_, ?_, ?_, ?_, s6⟩
          · show rebind dbType _ = rebind dbType _
            congr 1
            unfold saveText
            rw [s1, s2]
            simp [columnNames, placeholders]
          · rw [s5, s3]; simp [slotParams]
          · rw [s4]; simp [slotColumns]
          · rw [s3]; simp [slotParams]
        · have hr := wrapSaveStructSQL.kept_result gen dbType typeOf entity pk pre post
            pkf vpre vpost (.int n) hpk hname hpre hpost hlpre hlpost
            (Or.inr ⟨hk, n, hn, rfl⟩) hseq
          exact kept_case _ (.int n) hr rfl rfl rfl rfl hvkey (fun _ _ => rfl)
    · have hr := wrapSaveStructSQL.sequence_result gen dbType typeOf entity pk pre post
        pkf vpre vpost pkv hpk hname hpre hpost hlpre hlpost hkind hseq
      obtain ⟨s1, s2, s3, s4, s5, s6⟩ := spec entity.fields [(pkf, none)]
        (by intro s hs; simp only [List.mem_singleton] at hs; subst hs; exact hCkey)
        (by
          intro s hs v1 h1
          simp only [List.mem_singleton] at hs
          subst hs
          simp at h1)
        (fun _ _ => rfl)
      refine ⟨_, slotsAround pre vpre [(pkf, none)] post vpost, hr, rfl, ?_, ?_, ?_, ?_, s6⟩
      · show rebind dbType _ = rebind dbType _
        congr 1
        apply saveText_insertStatement _ _ _ _ _ _ _ hcn (by simp)
        · rw [s1]; simp [columnNames]
        · rw [s2]; simp [slotText]
      · rw [s5, s3]; simp [slotParams]
      · rw [s4]; simp [slotColumns]
      · rw [s3]; simp [slotParams]
  · intro hnil
    have hr := wrapUpdateStructSQL.result dbType typeOf entity pk m pre post pkf vpre vpost
      pkv hpk hname hpre hpost hlpre hlpost hnil
    have hv : (pre ++ post).map (fun f => FieldByName entity.fields f.Name) =
        (vpre ++ vpost).map some := by
      simp only [List.map_append, hvpre, hvpost]
    have hmem := keptPairs_mem entity.fields m (pre ++ post) (vpre ++ vpost) hv
    refine ⟨_, keptPairs m (pre ++ post) (vpre ++ vpost), hr, rfl, rfl, ?_, rfl, rfl,
      fun p hp => (hmem p hp).2⟩
    rw [count_updateText _ _ _ (List.count_eq_zero.2 hT) (List.count_eq_zero.2 hP)]
    · simp
    · intro p hp
      apply List.count_eq_zero.2
      have := (hmem p hp).1
      rcases List.mem_append.1 this with h | h
      · exact hCpre _ h
      · exact hCpost _ h

/-- Witness of C25: the record `id = 1, name = "", age = 31` with its key `id` between
the columns `name` and `age`, saved and updated in partial mode for mysql. -/
theorem C25_placeholders_match_parameters_witness :
    (∃ res slots,
      wrapSaveStructSQL (fun _ => "uuid".toList) "mysql" userType userRecord
        ([nameField] ++ idField :: [ageField]) ([.str []] ++ .int 1 :: [.int 31]) =
          .returned res ∧
      res.err = none ∧
      res.savesql =
        rebind "mysql" (saveText userRecord.TableName userRecord.PkSequence slots) ∧
      (saveText userRecord.TableName userRecord.PkSequence slots).count '?' =
        res.values.length ∧
      res.columns = slotColumns slots ∧
      res.values = slotParams slots ∧
      ∀ s ∈ slots, ∀ v, s.2 = some v → FieldByName res.entity.fields s.1.Name = some v) ∧
    (∃ res kept,
      wrapUpdateStructSQL "mysql" userType userRecord ([nameField] ++ idField :: [ageField])
        ([.str []] ++ .int 1 :: [.int 31]) true = .returned res ∧
      res.err = none ∧
      res.sqlstr =
        rebind "mysql" (updateText userRecord.TableName userRecord.PKColumnName kept) ∧
      (updateText userRecord.TableName userRecord.PKColumnName kept).count '?' =
        res.values.length ∧
      res.columns = kept.map Prod.fst ∧
      res.values = kept.map Prod.snd ++ [.int 1] ∧
      ∀ p ∈ kept, FieldByName userRecord.fields p.1.Name = some p.2) :=
  have h := C25_placeholders_match_parameters (fun _ => "uuid".toList) "mysql" userType
    userRecord "Id".toList [nameField] [ageField] idField [.str []] [.int 31] (.int 1) true
    rfl rfl (by decide) (by decide) rfl rfl rfl (by decide) (by decide) (by decide)
    (by decide)
  ⟨h.1 (Or.inr ⟨rfl, 1, rfl⟩), h.2 (by decide)⟩

/-! ## Theorems: keys of named types and nil interface values -/

/-- C16 (the code at the failing input): a record without sequence expression whose key
field has a named type of kind int (`type ID int`) and holds 0. The key passes the check
of its kind, and the type assertion `pkValue.(int)` then panics: the builder returns
neither a statement nor an error, autoIncrement is not returned, and `SaveStruct`
panics with it. -/
theorem C16_named_int_key_panics :
    idField.Kind = .Int ∧
    GoValue.IsZero (.other .Int true 0) = some true ∧
    columnAndValue (.pointer userType namedKeyRecord) =
      .returned (some userType, [idField, nameField, ageField],
        [.other .Int true 0, .str "a".toList, .int 31], none) ∧
    (∃ r, wrapSaveStructSQL (fun _ => "uuid".toList) "mysql" userType namedKeyRecord
        [idField, nameField, ageField] [.other .Int true 0, .str "a".toList, .int 31] =
      .panicked r) ∧
    (∃ r w, SaveStruct (fun _ => "uuid".toList) quietEnv (assigningExecutor 42)
        (some .absent) (.pointer userType namedKeyRecord) World.empty = (.panicked r, w)) :=
  ⟨rfl, rfl, by decide,
    ⟨.err (.new "interface conversion: interface is not int"), by decide⟩,
    ⟨.err (.new "interface conversion: interface is not int"), World.empty, by decide⟩⟩

/-- C17 (the code at the failing input): a record without sequence expression whose key
field has a named type of kind string (`type Code string`) and holds the empty text. The
key passes the check of its kind, and the type assertion `pkValue.(string)` then panics:
no id is obtained, the builder returns neither a statement nor an error, and
`SaveStruct` panics with it. -/
theorem C17_named_string_key_panics :
    codeField.Kind = .String ∧
    GoValue.IsZero (.other .String true 0) = some true ∧
    columnAndValue (.pointer tagType namedCodeRecord) =
      .returned (some tagType, [codeField, labelField],
        [.other .String true 0, .str "x".toList], none) ∧
    (∃ r, wrapSaveStructSQL (fun _ => "uuid-1".toList) "mysql" tagType namedCodeRecord
        [codeField, labelField] [.other .String true 0, .str "x".toList] = .panicked r) ∧
    (∃ r w, SaveStruct (fun _ => "uuid-1".toList) quietEnv (assigningExecutor 42)
        (some .absent) (.pointer tagType namedCodeRecord) World.empty = (.panicked r, w)) :=
  ⟨rfl, rfl, by decide,
    ⟨.err (.new "interface conversion: interface is not string"), by decide⟩,
    ⟨.err (.new "interface conversion: interface is not string"), World.empty, by decide⟩⟩

/-- C20 (the code at the failing input): the record `id = 1, note = nil`, whose field
`Note` of type `interface{}` holds `nil`, the zero value of its type. In partial mode the
builder calls `IsZero` on `reflect.ValueOf(nil)` and panics: it returns neither a
statement nor an error, and the column is not left out of a SET list. In full mode the
same record gives the statement with `note=?`. -/
theorem C20_nil_interface_field_panics :
    columnAndValue (.pointer noteType noteRecord) =
      .returned (some noteType, [idField, noteField], [.int 1, .nil], none) ∧
    (∃ r, wrapUpdateStructSQL "mysql" noteType noteRecord [idField, noteField]
        [.int 1, .nil] true = .panicked r) ∧
    wrapUpdateStructSQL "mysql" noteType noteRecord [idField, noteField] [.int 1, .nil]
        false =
      .returned
        { sqlstr := "UPDATE t_note SET note=? WHERE id=?".toList
          err := none
          columns := [noteField]
          values := [.nil, .int 1] } :=
  ⟨by decide,
    ⟨.err (.new "reflect: call of reflect.Value.IsZero on zero Value"), by decide⟩,
    by decide⟩

end Zorm
